import Mathlib

/-!
# dymall: order lifecycle core

A shallow embedding of the order handlers (`Frame-main/handlers/order.go`), the
expiry job (`jobs/order_jobs.go`), the payment handlers (`handlers/payment.go`),
the product handlers that write (`handlers/product.go`) and the models they use.

* The relational store is a record of tables, each a list of rows in primary-key
  order.  `First` by primary key returns the first row with that id, an `UPDATE
  ... WHERE id = ?` rewrites every row with that id.
* A transaction (`Tx`) keeps the committed state it started from (`base`) and a
  working copy (`work`); `Commit` publishes the working copy, `Rollback` drops it,
  and a statement issued on a finished transaction fails without effect.
* Every statement sent to the store may fail: the handlers take an oracle
  `fault : Nat → Bool`, asked with the number of the statement inside the call.
  A failing `Begin` surfaces in gorm as an error of the first statement of the
  transaction, so it is covered by the oracle too.
* `float64` amounts are modelled by `F64`, binary64 with round-to-nearest-even,
  every operation rounded on its own (no fused multiply-add).
* `Stock` and `Quantity` are Go `int` (64 bits) held in `Int`.  `CreateOrder`
  computes `Stock - Quantity` in Go, where it wraps around (`wrap64`); the cancel
  paths add in SQL, where a sum out of range is a statement error.
* Amounts written to a `decimal(10,2)` column (`orders.total_amount`,
  `payments.amount`) are kept rounded to 2 decimals (`F64.decimal2`).
* Request binding (`ShouldBindJSON` with its validation tags) is outside: a handler
  takes the bound body, or `none` when binding failed.  The tags on the fields of
  an item (order.go 33-34) are not enforced, the slice `Items` carrying no `dive`:
  a bound body may hold any 64-bit quantity, zero and negative ones included.
* The time stamp of an order number is `time.Now().Format("20060102150405")`; the
  handler takes it as a string, and `formatStamp` is the layout on a clock reading.
* Times are seconds (`Nat`); one clock reading `now` serves a whole call.
-/

namespace Dymall

/-! ## float64 -/

/-- A finite binary64 value `m * 2 ^ e`.  Non-zero values are kept normalised,
`2 ^ 52 ≤ |m| < 2 ^ 53`, and zero is `⟨0, 0⟩`, so equal values are equal records.
The exponent is not bounded: amounts here come from `decimal(10,2)` columns and
64-bit quantities, far from the overflow and subnormal ranges. -/
structure F64 where
  m : Int
  e : Int
deriving DecidableEq, Repr

namespace F64

/-- The value `0.0`, the zero value of a Go `float64`. -/
def zero : F64 := ⟨0, 0⟩

/-- Number of binary digits of `n` (`fuel` bounds the recursion; `fuel = n` is enough). -/
def bitLength : Nat → Nat → Nat
  | 0, _ => 0
  | fuel + 1, n => if n = 0 then 0 else bitLength fuel (n / 2) + 1

/-- Round the non-negative rational `n / d * 2 ^ x` to a 53-bit significand,
ties to even.  Returns the significand and the exponent. -/
def roundNat (n d : Nat) (x : Int) : Nat × Int :=
  if n = 0 ∨ d = 0 then (0, 0) else
  let k : Int := (bitLength n n : Int) - (bitLength d d : Int)
  let t : Int := 52 - k
  let N0 := if 0 ≤ t then n * 2 ^ t.toNat else n
  let D := if 0 ≤ t then d else d * 2 ^ (-t).toNat
  let lo := decide (N0 / D < 2 ^ 52)
  let N := if lo then 2 * N0 else N0
  let t1 : Int := if lo then t + 1 else t
  let q := N / D
  let r := N % D
  let q1 := if D < 2 * r ∨ (2 * r = D ∧ q % 2 = 1) then q + 1 else q
  if q1 = 2 ^ 53 then (2 ^ 52, x - t1 + 1) else (q1, x - t1)

/-- Signed rounding of `± n / d * 2 ^ x`. -/
def round (neg : Bool) (n d : Nat) (x : Int) : F64 :=
  let r := roundNat n d x
  ⟨if neg then -(r.1 : Int) else (r.1 : Int), r.2⟩

/-- Go conversion `float64(i)` of an integer. -/
def ofInt (i : Int) : F64 := round (decide (i < 0)) i.natAbs 1 0

/-- The binary64 value nearest to the decimal `c / 10 ^ k`: what a
`decimal(10,2)` column holding `c / 100` scans to. -/
def ofDecimal (c : Int) (k : Nat) : F64 := round (decide (c < 0)) c.natAbs (10 ^ k) 0

/-- Go `a * b` on `float64`: the exact product, rounded. -/
def mul (a b : F64) : F64 :=
  let p := a.m * b.m
  round (decide (p < 0)) p.natAbs 1 (a.e + b.e)

/-- Go `a + b` on `float64`: the exact sum, rounded. -/
def add (a b : F64) : F64 :=
  let x := min a.e b.e
  let s := a.m * 2 ^ (a.e - x).toNat + b.m * 2 ^ (b.e - x).toNat
  round (decide (s < 0)) s.natAbs 1 x

/-- The integer nearest to `n / d`, halves upwards. -/
def roundHalfUp (n d : Nat) : Nat := (2 * n + d) / (2 * d)

/-- The integer nearest to `|a| * 10 ^ k`, halves upwards. -/
def scaledAbs (a : F64) (k : Nat) : Nat :=
  if 0 ≤ a.e then a.m.natAbs * 10 ^ k * 2 ^ a.e.toNat
  else roundHalfUp (a.m.natAbs * 10 ^ k) (2 ^ (-a.e).toNat)

/-- What a `decimal(10,2)` column keeps of a `float64` written to it, as it scans
back into a `float64`.  MySQL takes the double at its shortest decimal notation
and rounds that to 2 decimals, halves away from zero: a double that is the one
nearest to a number of thousandths is rounded as that number, any other double
by its exact value.  Values beyond the ten digits of the column are not
considered. -/
def decimal2 (a : F64) : F64 :=
  let n3 := scaledAbs a 3
  let c := if ofDecimal (if a.m < 0 then -(n3 : Int) else n3) 3 = a then roundHalfUp n3 10
    else scaledAbs a 2
  ofDecimal (if a.m < 0 then -(c : Int) else c) 2

/-- The float is exactly the decimal `c / 10 ^ k`. -/
def IsDecimal (a : F64) (c : Int) (k : Nat) : Prop :=
  a.m * 10 ^ k * 2 ^ a.e.toNat = c * 2 ^ (-a.e).toNat

instance (a : F64) (c : Int) (k : Nat) : Decidable (IsDecimal a c k) := by
  unfold IsDecimal; infer_instance

end F64

/-! ## Models (`models/*.go`) -/

/-- OrderStatus of `models/order.go`. -/
inductive OrderStatus
  | pending | paid | shipped | completed | cancelled | refunded
deriving DecidableEq, Repr

/-- PaymentStatus of `models/payment.go`. -/
inductive PaymentStatus
  | pending | paid | cancelled | refunded
deriving DecidableEq, Repr

/-- Address row; only the key and the owner are read by the order flows. -/
structure Address where
  ID : Nat
  UserID : Nat
deriving DecidableEq, Repr

/-- Product row (`models/product.go`), without description and categories. -/
structure Product where
  ID : Nat
  UpdatedAt : Nat
  Name : String
  Price : F64
  Stock : Int
  ImageURL : String
  IsOnSale : Bool
deriving DecidableEq, Repr

/-- Order header row (`models/order.go`). -/
structure Order where
  ID : Nat
  OrderNumber : String
  UserID : Nat
  Status : OrderStatus
  TotalAmount : F64
  AddressID : Nat
  Remark : String
  ExpiredAt : Nat
  CreatedAt : Nat
  UpdatedAt : Nat
deriving DecidableEq, Repr

/-- Order line row (`models/order.go`). -/
structure OrderItem where
  ID : Nat
  OrderID : Nat
  ProductID : Nat
  ProductName : String
  ProductImage : String
  Price : F64
  Quantity : Int
  CreatedAt : Nat
  UpdatedAt : Nat
deriving DecidableEq, Repr

/-- Payment row (`models/payment.go`). -/
structure Payment where
  ID : Nat
  PaymentNumber : String
  OrderID : Nat
  UserID : Nat
  Amount : F64
  PaymentMethod : String
  Status : PaymentStatus
  PaidAt : Option Nat
  CreatedAt : Nat
  UpdatedAt : Nat
deriving DecidableEq, Repr

/-- The persisted tables. -/
structure DB where
  addresses : List Address
  products : List Product
  orders : List Order
  order_items : List OrderItem
  payments : List Payment
deriving DecidableEq, Repr

deriving instance DecidableEq for Except

/-! ## Store primitives -/

/-- Go `int` arithmetic (64 bits): a sum or difference is taken modulo `2 ^ 64`
into the range from `-2 ^ 63` to `2 ^ 63 - 1`. -/
def wrap64 (x : Int) : Int := (x + 2 ^ 63) % 2 ^ 64 - 2 ^ 63

/-- Fresh auto-increment key: larger than every key in use. -/
def nextID (ids : List Nat) : Nat := ids.foldr max 0 + 1

/-- Query `First(&address, id)`. -/
def firstAddress (id : Nat) (db : DB) : Option Address :=
  db.addresses.find? (fun a => a.ID = id)

/-- Query `First(&product, id)`. -/
def firstProduct (id : Nat) (db : DB) : Option Product :=
  db.products.find? (fun p => p.ID = id)

/-- Query `First(&order, id)`. -/
def firstOrder (id : Nat) (db : DB) : Option Order :=
  db.orders.find? (fun o => o.ID = id)

/-- Rows loaded by `Preload("Items")` for the order `id`. -/
def itemsOf (id : Nat) (db : DB) : List OrderItem :=
  db.order_items.filter (fun it => it.OrderID = id)

/-- Current stock of the product `id`, if it exists. -/
def stockOf (db : DB) (id : Nat) : Option Int :=
  (firstProduct id db).map (fun p => p.Stock)

/-- Statement `INSERT INTO orders`: the row gets a fresh key; the unique index on
`order_number` rejects a number already present. -/
def insertOrder (o : Order) (db : DB) : Option (Nat × DB) :=
  if db.orders.any (fun x => x.OrderNumber = o.OrderNumber) then none
  else
    let id := nextID (db.orders.map (fun x => x.ID))
    some (id, { db with orders := db.orders ++ [{ o with ID := id }] })

/-- Statement `INSERT INTO order_items`. -/
def insertOrderItem (it : OrderItem) (db : DB) : DB :=
  { db with order_items := db.order_items ++ [{ it with ID := nextID (db.order_items.map (fun x => x.ID)) }] }

/-- Statement `UPDATE products SET stock = ?, updated_at = ? WHERE id = ?`
(`tx.Model(&product).Update("stock", v)`). -/
def setStock (id : Nat) (v : Int) (now : Nat) (db : DB) : DB :=
  { db with products := db.products.map (fun p => if p.ID = id then { p with Stock := v, UpdatedAt := now } else p) }

/-- Statement `UPDATE products SET stock = stock + ? WHERE id = ?`
(`UpdateColumn("stock", gorm.Expr("stock + ?", q))`). -/
def addStock (id : Nat) (q : Int) (db : DB) : DB :=
  { db with products := db.products.map (fun p => if p.ID = id then { p with Stock := p.Stock + q } else p) }

/-- Statement `UPDATE orders SET total_amount = ?, updated_at = ? WHERE id = ?`;
the column is `decimal(10,2)` (models/order.go 25) and keeps the value rounded. -/
def setTotalAmount (id : Nat) (v : F64) (now : Nat) (db : DB) : DB :=
  { db with orders := db.orders.map (fun o => if o.ID = id then { o with TotalAmount := F64.decimal2 v, UpdatedAt := now } else o) }

/-- Statement `UPDATE orders SET status = ?, updated_at = ? WHERE id = ?`. -/
def setStatus (id : Nat) (s : OrderStatus) (now : Nat) (db : DB) : DB :=
  { db with orders := db.orders.map (fun o => if o.ID = id then { o with Status := s, UpdatedAt := now } else o) }

/-! ## Transactions -/

/-- A gorm transaction handle. -/
structure Tx where
  base : DB
  work : DB
  done : Bool
deriving DecidableEq, Repr

/-- Call `db.Begin()`. -/
def Begin (db : DB) : Tx := ⟨db, db, false⟩

namespace Tx

/-- Call `tx.Rollback()`: the working copy is dropped. -/
def Rollback (tx : Tx) : Tx := { tx with work := tx.base, done := true }

/-- Call `tx.Commit()`; `true` when the working copy was published. -/
def Commit (tx : Tx) (fails : Bool) : Bool × Tx :=
  if tx.done || fails then (false, { tx with work := tx.base, done := true })
  else (true, { base := tx.work, work := tx.work, done := true })

/-- A read inside the transaction; `none` stands for any error, not-found included. -/
def Query {α : Type} (tx : Tx) (fails : Bool) (q : DB → Option α) : Option α :=
  if tx.done || fails then none else q tx.work

/-- A write inside the transaction; `none` when the statement returned an error
(it then had no effect). -/
def Exec (tx : Tx) (fails : Bool) (f : DB → DB) : Option Tx :=
  if tx.done || fails then none else some { tx with work := f tx.work }

/-- An insert that assigns a key and may be rejected by a unique index. -/
def Create (tx : Tx) (fails : Bool) (f : DB → Option (Nat × DB)) : Option (Nat × Tx) :=
  if tx.done || fails then none
  else (f tx.work).map (fun r => (r.1, { tx with work := r.2 }))

end Tx

/-! ## `OrderHandler.CreateOrder` -/

/-- One element of `items` in the request body. -/
structure ItemReq where
  ProductID : Nat
  Quantity : Int
deriving DecidableEq, Repr

/-- The bound request body of `CreateOrder`. -/
structure CreateOrderReq where
  AddressID : Nat
  Items : List ItemReq
  Remark : String
deriving DecidableEq, Repr

/-- The rejections of `CreateOrder`, one per `c.JSON` error call. -/
inductive CreateOrderError
  /-- Status 401, "未找到用户信息". -/
  | Unauthorized
  /-- Status 400, "无效的请求参数". -/
  | InvalidParams
  /-- Status 400, "无效的收货地址". -/
  | InvalidAddress
  /-- Status 403, "无权使用该地址". -/
  | Forbidden
  /-- Status 500, "创建订单失败" (insert of the header, or commit). -/
  | OrderCreationFailed
  /-- Status 400, "商品不存在". -/
  | ProductNotFound
  /-- Status 400, "商品 %s 已下架". -/
  | ProductUnavailable (name : String)
  /-- Status 400, "商品 %s 库存不足". -/
  | InsufficientStock (name : String)
  /-- Status 500, "创建订单项失败". -/
  | CreateItemFailed
  /-- Status 500, "更新库存失败". -/
  | UpdateStockFailed
  /-- Status 500, "更新订单金额失败". -/
  | UpdateTotalFailed
deriving DecidableEq, Repr

/-- HTTP status sent with each rejection of `CreateOrder`. -/
def CreateOrderError.status : CreateOrderError → Nat
  | .Unauthorized => 401
  | .InvalidParams => 400
  | .InvalidAddress => 400
  | .Forbidden => 403
  | .OrderCreationFailed => 500
  | .ProductNotFound => 400
  | .ProductUnavailable _ => 400
  | .InsufficientStock _ => 400
  | .CreateItemFailed => 500
  | .UpdateStockFailed => 500
  | .UpdateTotalFailed => 500

/-- The `data` object of the 200 response of `CreateOrder`. -/
structure CreateOrderData where
  order_id : Nat
  order_number : String
  total_amount : F64
  expired_at : Nat
deriving DecidableEq, Repr

/-- The `models.OrderItem` literal built for an accepted item (order.go 108-115):
the snapshot of the product row read for it. -/
def orderItemOf (now orderID : Nat) (product : Product) (item : ItemReq) : OrderItem :=
  { ID := 0, OrderID := orderID, ProductID := product.ID, ProductName := product.Name,
    ProductImage := product.ImageURL, Price := product.Price,
    Quantity := item.Quantity, CreatedAt := now, UpdatedAt := now }

/-- The loop over `req.Items` of `CreateOrder` (order.go 87-131).  `k` is the
number of the next statement, `total` the running `totalAmount`.  A rejected item
rolls the transaction back and ends the handler. -/
def createItems (fault : Nat → Bool) (now orderID : Nat) :
    List ItemReq → Nat → Tx → F64 → Tx × Except CreateOrderError F64
  | [], _, tx, total => (tx, .ok total)
  | item :: rest, k, tx, total =>
    match tx.Query (fault k) (firstProduct item.ProductID) with
    | none => (tx.Rollback, .error .ProductNotFound)
    | some product =>
      if !product.IsOnSale then (tx.Rollback, .error (.ProductUnavailable product.Name))
      else if product.Stock < item.Quantity then
        (tx.Rollback, .error (.InsufficientStock product.Name))
      else
        match tx.Exec (fault (k + 1)) (insertOrderItem (orderItemOf now orderID product item)) with
        | none => (tx.Rollback, .error .CreateItemFailed)
        | some tx1 =>
          match tx1.Exec (fault (k + 2))
              (setStock product.ID (wrap64 (product.Stock - item.Quantity)) now) with
          | none => (tx1.Rollback, .error .UpdateStockFailed)
          | some tx2 =>
            createItems fault now orderID rest (k + 3) tx2
              (F64.add total (F64.mul product.Price (F64.ofInt item.Quantity)))

/-- The order number (order.go 67), `fmt.Sprintf("%s%d", stamp, userID)`, and the
`models.Order` literal (order.go 70-77): pending, expiring 30 minutes after `now`. -/
def newOrder (now : Nat) (stamp : String) (userID : Nat) (req : CreateOrderReq) : Order :=
  { ID := 0, OrderNumber := stamp ++ toString userID, UserID := userID,
    Status := .pending, TotalAmount := F64.zero, AddressID := req.AddressID,
    Remark := req.Remark, ExpiredAt := now + 30 * 60, CreatedAt := now,
    UpdatedAt := now }

/-- Handler `OrderHandler.CreateOrder` (order.go 23-157).  `user_id` is the value
the auth middleware left in the context, `body` the result of `ShouldBindJSON`
(`none` when binding failed), `stamp` is `time.Now().Format("20060102150405")`.
Returns the committed store after the call and the response. -/
def CreateOrder (fault : Nat → Bool) (now : Nat) (stamp : String) (db : DB)
    (user_id : Option Nat) (body : Option CreateOrderReq) :
    DB × Except CreateOrderError CreateOrderData :=
  match user_id with
  | none => (db, .error .Unauthorized)
  | some userID =>
    match body with
    | none => (db, .error .InvalidParams)
    | some req =>
      let tx := Begin db
      match tx.Query (fault 0) (firstAddress req.AddressID) with
      | none => (tx.Rollback.base, .error .InvalidAddress)
      | some address =>
        if address.UserID ≠ userID then (tx.Rollback.base, .error .Forbidden)
        else
          let order := newOrder now stamp userID req
          match tx.Create (fault 1) (insertOrder order) with
          | none => (tx.Rollback.base, .error .OrderCreationFailed)
          | some (orderID, tx1) =>
            match createItems fault now orderID req.Items 2 tx1 F64.zero with
            | (tx2, .error e) => (tx2.base, .error e)
            | (tx2, .ok totalAmount) =>
              match tx2.Exec (fault (2 + 3 * req.Items.length))
                  (setTotalAmount orderID totalAmount now) with
              | none => (tx2.Rollback.base, .error .UpdateTotalFailed)
              | some tx3 =>
                match tx3.Commit (fault (3 + 3 * req.Items.length)) with
                | (false, tx4) => (tx4.base, .error .OrderCreationFailed)
                | (true, tx4) =>
                  (tx4.base, .ok { order_id := orderID, order_number := order.OrderNumber,
                                   total_amount := totalAmount,
                                   expired_at := order.ExpiredAt })

/-! ## `OrderHandler.CancelOrder` -/

/-- The rejections of `CancelOrder`. -/
inductive CancelOrderError
  /-- Status 401, "未找到用户信息". -/
  | Unauthorized
  /-- Status 404, "订单不存在". -/
  | NotFound
  /-- Status 403, "无权取消该订单". -/
  | Forbidden
  /-- Status 400, "只能取消待支付的订单". -/
  | InvalidState
  /-- Status 500, "取消订单失败" (status update, or commit). -/
  | CancelFailed
  /-- Status 500, "恢复库存失败". -/
  | RestoreStockFailed
deriving DecidableEq, Repr

/-- HTTP status sent with each rejection of `CancelOrder`. -/
def CancelOrderError.status : CancelOrderError → Nat
  | .Unauthorized => 401
  | .NotFound => 404
  | .Forbidden => 403
  | .InvalidState => 400
  | .CancelFailed => 500
  | .RestoreStockFailed => 500

/-- The stock-restoring loop of `CancelOrder` (order.go 302-309): a failing update
rolls back and ends the handler. -/
def restoreItems (fault : Nat → Bool) : List OrderItem → Nat → Tx → Tx × Bool
  | [], _, tx => (tx, true)
  | item :: rest, k, tx =>
    match tx.Exec (fault k) (addStock item.ProductID item.Quantity) with
    | none => (tx.Rollback, false)
    | some tx1 => restoreItems fault rest (k + 1) tx1

/-- Handler `OrderHandler.CancelOrder` (order.go 267-321); `orderID` is the numeric
path parameter `id`. -/
def CancelOrder (fault : Nat → Bool) (now : Nat) (db : DB) (user_id : Option Nat)
    (orderID : Nat) : DB × Except CancelOrderError Unit :=
  match user_id with
  | none => (db, .error .Unauthorized)
  | some userID =>
    match (if fault 0 then none else firstOrder orderID db) with
    | none => (db, .error .NotFound)
    | some order =>
      let items := itemsOf order.ID db
      if order.UserID ≠ userID then (db, .error .Forbidden)
      else if order.Status ≠ .pending then (db, .error .InvalidState)
      else
        let tx := Begin db
        match tx.Exec (fault 1) (setStatus order.ID .cancelled now) with
        | none => (tx.Rollback.base, .error .CancelFailed)
        | some tx1 =>
          match restoreItems fault items 2 tx1 with
          | (tx2, false) => (tx2.base, .error .RestoreStockFailed)
          | (tx2, true) =>
            match tx2.Commit (fault (2 + items.length)) with
            | (false, tx3) => (tx3.base, .error .CancelFailed)
            | (true, tx3) => (tx3.base, .ok ())

/-! ## `OrderJobs.CancelExpiredOrders` -/

/-- The stock-restoring loop of the job (order_jobs.go 43-50).  Here a failing
update rolls back and `continue`s with the next item of the same order, on the
finished transaction. -/
def releaseItems (fault : Nat → Bool) : List OrderItem → Nat → Tx → Tx
  | [], _, tx => tx
  | item :: rest, k, tx =>
    match tx.Exec (fault k) (addStock item.ProductID item.Quantity) with
    | none => releaseItems fault rest (k + 1) tx.Rollback
    | some tx1 => releaseItems fault rest (k + 1) tx1

/-- The loop over the selected orders (order_jobs.go 31-59); an element is a
`models.Order` with its preloaded `Items`.  Returns the committed store and the
orders for which the success line was logged. -/
def sweepOrders (fault : Nat → Bool) (now : Nat) :
    List (Order × List OrderItem) → Nat → DB → DB × List (Order × List OrderItem)
  | [], _, db => (db, [])
  | (order, items) :: rest, k, db =>
    let tx := Begin db
    match tx.Exec (fault k) (setStatus order.ID .cancelled now) with
    | none => sweepOrders fault now rest (k + 1) tx.Rollback.base
    | some tx1 =>
      let tx2 := releaseItems fault items (k + 1) tx1
      match tx2.Commit (fault (k + 1 + items.length)) with
      | (false, tx3) => sweepOrders fault now rest (k + 2 + items.length) tx3.base
      | (true, tx3) =>
        let r := sweepOrders fault now rest (k + 2 + items.length) tx3.base
        (r.1, (order, items) :: r.2)

/-- The rows selected by
`Where("status = ? AND expired_at < ?", pending, now).Preload("Items").Find(&orders)`. -/
def expiredOrders (now : Nat) (db : DB) : List (Order × List OrderItem) :=
  (db.orders.filter (fun o => o.Status = .pending ∧ o.ExpiredAt < now)).map
    (fun o => (o, itemsOf o.ID db))

/-- Job `OrderJobs.CancelExpiredOrders` (order_jobs.go 22-60), run at time `now`. -/
def CancelExpiredOrders (fault : Nat → Bool) (now : Nat) (db : DB) :
    DB × List (Order × List OrderItem) :=
  if fault 0 then (db, [])
  else sweepOrders fault now (expiredOrders now db) 1 db

/-! ## Two `CreateOrder` transactions side by side

The statements one `CreateOrder` transaction issues for a single item, as far as
they touch `products`: the lookup with its two checks (order.go 89-105), the stock
update (order.go 124) and the commit (order.go 141).  The store runs the
transactions at its default isolation: the lookup is a plain `SELECT`, which takes
no lock and reads committed data; the `UPDATE` writes the value computed from the
row read earlier and waits while another open transaction has written that row;
the write reaches the committed store at commit. -/

/-- Where a running `CreateOrder` stands with its item. -/
inductive Pc
  /-- before `tx.First(&product, item.ProductID)` -/
  | start
  /-- both checks passed; `product` is the local variable -/
  | checked (product : Product)
  /-- Sent and not yet committed: `Update("stock", product.Stock - item.Quantity)`. -/
  | updated (product : Product)
  /-- Committed: `tx.Commit()` returned. -/
  | committed
  /-- rolled back with an error -/
  | rejected (e : CreateOrderError)
deriving DecidableEq, Repr

/-- One running `CreateOrder` with its item. -/
structure Session where
  item : ItemReq
  now : Nat
  pc : Pc
deriving DecidableEq, Repr

/-- The row lock held by an uncommitted stock update. -/
def Session.locks (s : Session) (pid : Nat) : Bool :=
  match s.pc with
  | .updated product => product.ID = pid
  | _ => false

/-- The next statement of `s` against the committed store `db`, `other` being
the transaction running beside it. -/
def Session.step (s : Session) (db : DB) (other : Session) : DB × Session :=
  match s.pc with
  | .start =>
    match firstProduct s.item.ProductID db with
    | none => (db, { s with pc := .rejected .ProductNotFound })
    | some product =>
      if !product.IsOnSale then
        (db, { s with pc := .rejected (.ProductUnavailable product.Name) })
      else if product.Stock < s.item.Quantity then
        (db, { s with pc := .rejected (.InsufficientStock product.Name) })
      else (db, { s with pc := .checked product })
  | .checked product =>
    if other.locks product.ID then (db, s) else (db, { s with pc := .updated product })
  | .updated product =>
    (setStock product.ID (wrap64 (product.Stock - s.item.Quantity)) s.now db,
      { s with pc := .committed })
  | .committed => (db, s)
  | .rejected _ => (db, s)

/-- Run two transactions under a schedule: `false` lets the first one issue its
next statement, `true` the second. -/
def runSchedule : List Bool → DB × Session × Session → DB × Session × Session
  | [], st => st
  | false :: rest, (db, a, b) => runSchedule rest ((a.step db b).1, (a.step db b).2, b)
  | true :: rest, (db, a, b) => runSchedule rest ((b.step db a).1, a, (b.step db a).2)

/-! ## `PayHandler` (`handlers/payment.go`)

The handlers of this file talk to the store outside any transaction, so every
statement is published as it is executed.  The payment providers, the UUID source
and the QR encoder are outside: their results come in as parameters. -/

/-- Query `First(&payment, id)`. -/
def firstPayment (id : Nat) (db : DB) : Option Payment :=
  db.payments.find? (fun p => p.ID = id)

/-- Query `Where("order_id = ?", orderID).First(&payment)`. -/
def firstPaymentOfOrder (orderID : Nat) (db : DB) : Option Payment :=
  db.payments.find? (fun p => p.OrderID = orderID)

/-- Query `Where("payment_number = ?", no).First(&payment)`. -/
def firstPaymentByNumber (no : String) (db : DB) : Option Payment :=
  db.payments.find? (fun p => p.PaymentNumber = no)

/-- The row as the `payments` table holds it: the column `amount` is
`decimal(10,2)` (models/payment.go 31) and keeps the value rounded. -/
def Payment.stored (p : Payment) : Payment := { p with Amount := F64.decimal2 p.Amount }

/-- Statement `INSERT INTO payments` (`h.db.Create(&p)`): the row gets a fresh key;
the unique index on `payment_number` rejects a number already present.  Returns
the struct as gorm leaves it, with the key filled in and the amount as it was
given, and the store holding the row. -/
def insertPayment (p : Payment) (db : DB) : Option (Payment × DB) :=
  if db.payments.any (fun x => x.PaymentNumber = p.PaymentNumber) then none
  else
    let row : Payment := { p with ID := nextID (db.payments.map (fun x => x.ID)) }
    some (row, { db with payments := db.payments ++ [row.stored] })

/-- Call `h.db.Save(&payment)`: with a zero key it inserts; otherwise it rewrites
every column of the rows with that key, and stores the value as a new row when no
row has the key. -/
def savePayment (p : Payment) (db : DB) : Option DB :=
  if p.ID = 0 then (insertPayment p db).map (fun r => r.2)
  else if db.payments.any (fun x => x.ID = p.ID) then
    some { db with payments := db.payments.map (fun x => if x.ID = p.ID then p else x) }
  else some { db with payments := db.payments ++ [p] }

/-- The bound request body `PayAo` of `Charge`. -/
structure PayAo where
  OrderId : Nat
  UserId : Nat
  Amount : F64
  PaymentMethod : String
deriving DecidableEq, Repr

/-- The rejections of `Charge`, one per error message. -/
inductive ChargeError
  /-- Status 400, "无效的请求参数". -/
  | InvalidParams
  /-- Status 400, "订单不存在". -/
  | OrderNotFound
  /-- Status 500, "网络存在波动,请稍后重试" (payment lookup or insert failed, or no QR code). -/
  | NetworkUnstable
  /-- Status 400, "当前订单状态不支持支付,请稍后重试". -/
  | InvalidPaymentState
  /-- Status 400, "不支持的支付方式". -/
  | UnsupportedPaymentMethod
  /-- Status 500, "支付宝支付请求失败". -/
  | AlipayFailed
deriving DecidableEq, Repr

/-- HTTP status sent with each rejection of `Charge`. -/
def ChargeError.status : ChargeError → Nat
  | .InvalidParams => 400
  | .OrderNotFound => 400
  | .NetworkUnstable => 500
  | .InvalidPaymentState => 400
  | .UnsupportedPaymentMethod => 400
  | .AlipayFailed => 500

/-- What `Charge` writes to the client. -/
inductive ChargeResp
  /-- An error status with its message. -/
  | error (e : ChargeError)
  /-- Status 200, "支付宝支付链接生成成功" with the `url` to redirect to. -/
  | alipayLink (url : String)
  /-- Nothing was written: gin answers 200 with an empty body. -/
  | empty
deriving DecidableEq, Repr

/-- The collaborators of `Charge`: the UUID drawn by `generateUniqueID`, the
answer of `alipayClient.TradePagePay` for the trade built from a payment (`none`
for an error), and the string returned by `GenerateQRCode`. -/
structure Providers where
  uuid : String
  tradePagePay : Payment → Option String
  qrCode : String

/-- Method `PayHandler.Alipay` (payment.go 242-262). -/
def Alipay (ext : Providers) (payment : Payment) : ChargeResp :=
  match ext.tradePagePay payment with
  | none => .error .AlipayFailed
  | some url => .alipayLink url

/-- Method `WechatPayService.WechatPay` (payment.go 265-293): the provider call is
commented out; the QR string is returned to `PayService`, which drops it. -/
def WechatPay (ext : Providers) (_payment : Payment) : ChargeResp :=
  if ext.qrCode = "" then .error .NetworkUnstable else .empty

/-- Method `PayHandler.PayService` (payment.go 225-239). -/
def PayService (ext : Providers) (payment : Payment) : ChargeResp :=
  if payment.PaymentMethod = "wechat" then WechatPay ext payment
  else if payment.PaymentMethod = "alipay" then Alipay ext payment
  else .error .UnsupportedPaymentMethod

/-- The outcome of one `Charge` call: the store after it, the response, the
payment handed to `PayService` (its number is the provider's `out_trade_no`) and
the payment id for which a timeout check was started. -/
structure ChargeOut where
  db : DB
  resp : ChargeResp
  payment : Option Payment
  reaper : Option Nat
deriving DecidableEq, Repr

/-- The `models.Payment` literal of `Charge` (payment.go 189-198). -/
def newPayment (now : Nat) (ext : Providers) (req : PayAo) : Payment :=
  { ID := 0, PaymentNumber := ext.uuid, OrderID := req.OrderId, UserID := req.UserId,
    Amount := req.Amount, PaymentMethod := req.PaymentMethod, Status := .pending,
    PaidAt := none, CreatedAt := now, UpdatedAt := now }

/-- The tail of `Charge` (payment.go 214-221): status check, then `PayService`. -/
def chargeDispatch (ext : Providers) (db : DB) (payment : Payment) (reaper : Option Nat) :
    ChargeOut :=
  if payment.Status ≠ .pending then ⟨db, .error .InvalidPaymentState, none, reaper⟩
  else ⟨db, PayService ext payment, some payment, reaper⟩

/-- Handler `PayHandler.Charge` (payment.go 168-222); `body` is the result of
`ShouldBindJSON` (`none` when binding failed). -/
def Charge (fault : Nat → Bool) (now : Nat) (ext : Providers) (db : DB)
    (body : Option PayAo) : ChargeOut :=
  match body with
  | none => ⟨db, .error .InvalidParams, none, none⟩
  | some req =>
    match (if fault 0 then none else firstOrder req.OrderId db) with
    | none => ⟨db, .error .OrderNotFound, none, none⟩
    | some _ =>
      if fault 1 then ⟨db, .error .NetworkUnstable, none, none⟩
      else
        match firstPaymentOfOrder req.OrderId db with
        | some payment => chargeDispatch ext db payment none
        | none =>
          match (if fault 2 then none else insertPayment (newPayment now ext req) db) with
          | none => ⟨db, .error .NetworkUnstable, none, none⟩
          | some (row, db1) => chargeDispatch ext db1 row (some row.ID)

/-- One `Charge` call with everything it depends on besides the store. -/
structure ChargeCall where
  fault : Nat → Bool
  now : Nat
  ext : Providers
  body : Option PayAo

/-- A sequence of `Charge` calls, one after the other. -/
def chargeAll : List ChargeCall → DB → DB
  | [], db => db
  | c :: rest, db => chargeAll rest (Charge c.fault c.now c.ext db c.body).db

/-- What `checkAndCancelPayment` does when its timer fires (payment.go 301-313);
the error of `Save` is dropped. -/
def checkAndCancelPayment (fault : Nat → Bool) (now : Nat) (db : DB) (paymentId : Nat) : DB :=
  match (if fault 0 then none else firstPayment paymentId db) with
  | none => db
  | some payment =>
    if payment.Status = .pending then
      match (if fault 1 then none
             else savePayment { payment with Status := .cancelled, UpdatedAt := now } db) with
      | none => db
      | some db1 => db1
    else db

/-- The posted form of an Alipay notification, as far as the handler reads it:
whether `VerifySign` accepts it, and the two parameters (`""` when absent). -/
structure AlipayForm where
  signOK : Bool
  out_trade_no : String
  trade_status : String
deriving DecidableEq, Repr

/-- The answers of `AlipayNotify`. -/
inductive AlipayResp
  /-- Status 400, "解析表单失败". -/
  | ParseFailed
  /-- Status 400, "无效的通知" (bad signature, or no `out_trade_no`). -/
  | InvalidNotification
  /-- Status 400, "交易未完成". -/
  | TradeNotFinished
  /-- Status 404, "支付记录不存在". -/
  | NotFound
  /-- Status 500, "内部服务器错误". -/
  | InternalError
  /-- Status 500, "更新支付状态失败". -/
  | UpdateFailed
  /-- Status 200, body "success". -/
  | success
deriving DecidableEq, Repr

/-- Handler `PayHandler.AlipayNotify` (payment.go 410-465); `form` is `none` when
`ParseForm` failed. -/
def AlipayNotify (fault : Nat → Bool) (now : Nat) (db : DB) (form : Option AlipayForm) :
    DB × AlipayResp :=
  match form with
  | none => (db, .ParseFailed)
  | some formData =>
    if !formData.signOK then (db, .InvalidNotification)
    else if formData.out_trade_no = "" then (db, .InvalidNotification)
    else if formData.trade_status ≠ "TRADE_SUCCESS" ∧ formData.trade_status ≠ "TRADE_FINISHED" then
      (db, .TradeNotFinished)
    else if fault 0 then (db, .InternalError)
    else
      match firstPaymentByNumber formData.out_trade_no db with
      | none => (db, .NotFound)
      | some payment =>
        match (if fault 1 then none
               else savePayment { payment with Status := .paid, PaidAt := some now,
                                               UpdatedAt := now } db) with
        | none => (db, .UpdateFailed)
        | some db1 => (db1, .success)

/-- The decoded body of a WeChat notification, as far as the handler reads it. -/
structure WeChatCallbackResponse where
  ReturnCode : String
  ResultCode : String
  OutTradeNo : String
  TransactionID : String
deriving DecidableEq, Repr

/-- The body of a request to the WeChat callback. -/
inductive WxBody
  /-- Reading the body failed (`ioutil.ReadAll`). -/
  | unreadable
  /-- Decoding the XML failed (`xml.Unmarshal`). -/
  | malformed
  /-- The decoded notification. -/
  | decoded (callbackData : WeChatCallbackResponse)
deriving DecidableEq, Repr

/-- The answers of `WxPayNotify`. -/
inductive WxResp
  /-- Status 405, "Invalid request method". -/
  | MethodNotAllowed
  /-- Status 500, "Internal Server Error". -/
  | InternalError
  /-- Status 400, "Bad Request". -/
  | BadRequest
  /-- The XML of `sendFailureResponse`: return_code FAIL. -/
  | failure
  /-- The XML of `sendSuccessResponse`: return_code SUCCESS, return_msg OK. -/
  | success
deriving DecidableEq, Repr

/-- Function `WxPayNotify` (payment.go 322-368).  It is not a method of
`PayHandler` and has no handle on the store: it logs and answers, and the store
is passed through as it came. -/
def WxPayNotify (db : DB) (method : String) (body : WxBody) : DB × WxResp :=
  if method ≠ "POST" then (db, .MethodNotAllowed)
  else
    match body with
    | .unreadable => (db, .InternalError)
    | .malformed => (db, .BadRequest)
    | .decoded callbackData =>
      if callbackData.ReturnCode ≠ "SUCCESS" then (db, .failure)
      else (db, .success)

/-! ## `ProductHandler` (`handlers/product.go`): changes to the live product data -/

/-- Call `h.db.Save(&product)` on the products table: with a zero key it inserts
under a fresh key; otherwise it rewrites every column of the rows with that key,
and stores the value as a new row when no row has the key. -/
def saveProduct (p : Product) (db : DB) : DB :=
  if p.ID = 0 then
    { db with products := db.products ++ [{ p with ID := nextID (db.products.map (fun x => x.ID)) }] }
  else if db.products.any (fun x => x.ID = p.ID) then
    { db with products := db.products.map (fun x => if x.ID = p.ID then p else x) }
  else { db with products := db.products ++ [p] }

/-- Statement `DELETE FROM products WHERE id = ?` (`h.db.Delete(&product)`). -/
def deleteProduct (id : Nat) (db : DB) : DB :=
  { db with products := db.products.filter (fun x => x.ID ≠ id) }

/-- The rejections of `UpdateProduct` and `DeleteProduct`. -/
inductive ProductError
  /-- Status 404, "商品不存在". -/
  | NotFound
  /-- Status 400, "无效的请求数据". -/
  | InvalidBody
  /-- Status 500, "更新商品失败". -/
  | UpdateFailed
  /-- Status 500, "删除商品失败". -/
  | DeleteFailed
deriving DecidableEq, Repr

/-- Handler `ProductHandler.UpdateProduct` (product.go 69-89); `id` is the numeric
path parameter, `bind` is `ShouldBindJSON(&product)`: it writes the fields the body
carries over the loaded product (`none` when binding fails).  `Save` stamps
`updated_at`. -/
def UpdateProduct (fault : Nat → Bool) (now : Nat) (db : DB) (id : Nat)
    (bind : Product → Option Product) : DB × Except ProductError Product :=
  match (if fault 0 then none else firstProduct id db) with
  | none => (db, .error .NotFound)
  | some product =>
    match bind product with
    | none => (db, .error .InvalidBody)
    | some product1 =>
      if fault 1 then (db, .error .UpdateFailed)
      else (saveProduct { product1 with UpdatedAt := now } db,
            .ok { product1 with UpdatedAt := now })

/-- Handler `ProductHandler.DeleteProduct` (product.go 92-107). -/
def DeleteProduct (fault : Nat → Bool) (db : DB) (id : Nat) : DB × Except ProductError Unit :=
  match (if fault 0 then none else firstProduct id db) with
  | none => (db, .error .NotFound)
  | some product =>
    if fault 1 then (db, .error .DeleteFailed)
    else (deleteProduct product.ID db, .ok ())

/-! ## The order number (order.go 66-67) -/

/-- The wall-clock reading of `time.Now()` in the local zone, to the second. -/
structure Civil where
  year : Nat
  month : Nat
  day : Nat
  hour : Nat
  minute : Nat
  second : Nat
deriving DecidableEq, Repr

/-- The fields are those of a clock reading with a year of at most four digits. -/
def Civil.Valid (c : Civil) : Prop :=
  c.year ≤ 9999 ∧ 1 ≤ c.month ∧ c.month ≤ 12 ∧ 1 ≤ c.day ∧ c.day ≤ 31 ∧
    c.hour ≤ 23 ∧ c.minute ≤ 59 ∧ c.second ≤ 59

instance (c : Civil) : Decidable c.Valid := by
  unfold Civil.Valid
  infer_instance

/-- Go `appendInt(b, n, width)` of package `time`: the decimal digits of `n`,
zero-padded on the left to `width`. -/
def appendInt (n width : Nat) : List Char :=
  List.replicate (width - (Nat.toDigits 10 n).length) '0' ++ Nat.toDigits 10 n

/-- Call `t.Format("20060102150405")`: year on four digits, then month, day, hour,
minute and second on two digits each. -/
def formatStamp (c : Civil) : String :=
  String.mk (appendInt c.year 4 ++ appendInt c.month 2 ++ appendInt c.day 2 ++
    appendInt c.hour 2 ++ appendInt c.minute 2 ++ appendInt c.second 2)

/-- Number of statements the expiry job issues for the orders `sel` when none of
them fails: per order the status update, one update per line, and the commit. -/
def sweepCost (sel : List (Order × List OrderItem)) : Nat :=
  (sel.map (fun p => 2 + p.2.length)).sum

/-- The pending payments of the order `orderID`. -/
def pendingOf (db : DB) (orderID : Nat) : List Payment :=
  db.payments.filter (fun p => p.OrderID = orderID ∧ p.Status = .pending)

/-- No order has two pending payments. -/
def OnePending (db : DB) : Prop := ∀ orderID, (pendingOf db orderID).length ≤ 1

/-- One step on the payment ledger: a `Charge` call, a timeout check that fires,
or an Alipay notification. -/
inductive PayOp
  /-- A call of `Charge`. -/
  | charge (c : ChargeCall)
  /-- The timer of `checkAndCancelPayment` for `paymentId` fires at `now`. -/
  | timeout (fault : Nat → Bool) (now paymentId : Nat)
  /-- A request to `AlipayNotify`. -/
  | notify (fault : Nat → Bool) (now : Nat) (form : Option AlipayForm)

/-- The store after one step on the payment ledger. -/
def PayOp.run : PayOp → DB → DB
  | .charge c, db => (Charge c.fault c.now c.ext db c.body).db
  | .timeout fault now paymentId, db => checkAndCancelPayment fault now db paymentId
  | .notify fault now form, db => (AlipayNotify fault now db form).1

/-- The store after a sequence of steps on the payment ledger. -/
def runPayOps : List PayOp → DB → DB
  | [], db => db
  | op :: rest, db => runPayOps rest (op.run db)

/-- The payments have distinct, non-zero keys and no order has two payments: what
the primary key, the auto-increment and `Charge` calls made one after the other
give. -/
def LedgerOK (db : DB) : Prop :=
  (db.payments.map (fun p => p.ID)).Nodup ∧ (db.payments.map (fun p => p.OrderID)).Nodup ∧
    ∀ p ∈ db.payments, p.ID ≠ 0

instance (db : DB) : Decidable (LedgerOK db) := by
  unfold LedgerOK
  infer_instance

/-- The order has a payment whose status is not pending. -/
def Settled (db : DB) (orderID : Nat) : Prop :=
  ∃ p ∈ db.payments, p.OrderID = orderID ∧ p.Status ≠ .pending

instance (db : DB) (orderID : Nat) : Decidable (Settled db orderID) := by
  unfold Settled
  infer_instance

/-- Every payment has `paid_at` set exactly when its status is paid. -/
def PaidAtIffPaid (db : DB) : Prop :=
  ∀ p ∈ db.payments, p.PaidAt.isSome = true ↔ p.Status = .paid

instance (db : DB) : Decidable (PaidAtIffPaid db) := by
  unfold PaidAtIffPaid
  infer_instance

/-! ## Sequences of order operations -/

/-- One of the sequential order operations: a `CreateOrder` call, a `CancelOrder`
call, or a run of the expiry job. -/
inductive OrderOp
  /-- A call of `CreateOrder`. -/
  | create (fault : Nat → Bool) (now : Nat) (stamp : String) (user_id : Option Nat)
      (body : Option CreateOrderReq)
  /-- A call of `CancelOrder`. -/
  | cancel (fault : Nat → Bool) (now : Nat) (user_id : Option Nat) (orderID : Nat)
  /-- A run of `CancelExpiredOrders`. -/
  | sweep (fault : Nat → Bool) (now : Nat)

/-- The store after one order operation. -/
def OrderOp.run : OrderOp → DB → DB
  | .create fault now stamp user_id body, db => (CreateOrder fault now stamp db user_id body).1
  | .cancel fault now user_id orderID, db => (CancelOrder fault now db user_id orderID).1
  | .sweep fault now, db => (CancelExpiredOrders fault now db).1

/-- The store after a sequence of order operations, one after the other. -/
def runOrderOps : List OrderOp → DB → DB
  | [], db => db
  | op :: rest, db => runOrderOps rest (op.run db)

/-- No product has a negative stock. -/
def StockNonneg (db : DB) : Prop := ∀ p ∈ db.products, 0 ≤ p.Stock

/-- Every order line holds one unit at least. -/
def LinesPositive (db : DB) : Prop := ∀ it ∈ db.order_items, 1 ≤ it.Quantity

instance (db : DB) : Decidable (StockNonneg db) := by
  unfold StockNonneg
  infer_instance

instance (db : DB) : Decidable (LinesPositive db) := by
  unfold LinesPositive
  infer_instance

/-! ## Quantities used to state the properties -/

/-- Sum of the quantities the request items ask of product `pid`. -/
def requestedQty (items : List ItemReq) (pid : Nat) : Int :=
  ((items.filter (fun it => it.ProductID = pid)).map (fun it => it.Quantity)).sum

/-- Sum of the quantities the order lines hold of product `pid`. -/
def lineQty (items : List OrderItem) (pid : Nat) : Int :=
  ((items.filter (fun it => it.ProductID = pid)).map (fun it => it.Quantity)).sum

/-- The running total of `CreateOrder` over order lines: from `acc`, add
`Price * float64(Quantity)` line after line, in `float64`. -/
def lineTotal (acc : F64) (items : List OrderItem) : F64 :=
  items.foldl (fun a it => F64.add a (F64.mul it.Price (F64.ofInt it.Quantity))) acc

/-- The stock updates of a whole list of order lines, in order. -/
def releaseAll (items : List OrderItem) (db : DB) : DB :=
  items.foldl (fun w it => addStock it.ProductID it.Quantity w) db

/-- The store after the orders `done` have been cancelled one after the other. -/
def cancelAll (now : Nat) (done : List (Order × List OrderItem)) (db : DB) : DB :=
  done.foldl (fun d p => releaseAll p.2 (setStatus p.1.ID .cancelled now d)) db

/-- What an order line copies from the product `pid` of the store: its id, name,
image and unit price. -/
def snapshotOf (db : DB) (pid : Nat) : Option (Nat × String × String × F64) :=
  (firstProduct pid db).map (fun p => (p.ID, p.Name, p.ImageURL, p.Price))

/-- The number a list of decimal digit characters denotes, most significant first. -/
def digitsValue : List Char → Nat
  | [] => 0
  | c :: cs => (c.toNat - 48) * 10 ^ cs.length + digitsValue cs

/-- The stock a product that held `s` has after the decrements of the items
`items` naming it, one after the other, each a 64-bit subtraction. -/
def stockAfter (items : List ItemReq) (pid : Nat) (s : Int) : Int :=
  items.foldl (fun s it => if it.ProductID = pid then wrap64 (s - it.Quantity) else s) s

/-- The outcome the specification gives one requested item (4.2, step 5) when the
items `pre` of the same request were reserved before it: `ProductNotFound` if the
product is absent, otherwise `ProductUnavailable` if it is not on sale, otherwise
`InsufficientStock` if the quantity exceeds the stock available at that point,
after the decrements of `pre`; `none` when the item is accepted. -/
def itemVerdict (db : DB) (pre : List ItemReq) (item : ItemReq) : Option CreateOrderError :=
  match firstProduct item.ProductID db with
  | none => some .ProductNotFound
  | some p =>
    if p.IsOnSale = false then some (.ProductUnavailable p.Name)
    else if stockAfter pre item.ProductID p.Stock < item.Quantity then
      some (.InsufficientStock p.Name)
    else none

/-- The working copy of the loop seen against the store before the call: same
products, each short of what the items handled so far asked of it. -/
def Reserved (db : DB) (pre : List ItemReq) (w : DB) : Prop :=
  ∀ pid, (firstProduct pid w).map (fun q => (q.Name, q.IsOnSale, q.Stock))
    = (firstProduct pid db).map (fun p => (p.Name, p.IsOnSale, stockAfter pre pid p.Stock))

/-! ## Sample data -/

/-- A product at 10.00 with 5 in stock. -/
def sampleTea : Product := ⟨1, 0, "tea", F64.ofInt 10, 5, "tea.png", true⟩

/-- A product at 5.00 with 1 in stock. -/
def sampleCup : Product := ⟨2, 0, "cup", F64.ofInt 5, 1, "cup.png", true⟩

/-- A store with one address of user 42, two products and no orders. -/
def sampleDB : DB := ⟨[⟨7, 42⟩], [sampleTea, sampleCup], [], [], []⟩

/-- A product at 0.10, as its `decimal(10,2)` price scans into `float64`. -/
def sampleGum : Product := ⟨1, 0, "gum", F64.ofDecimal 10 2, 9, "gum.png", true⟩

/-- A store selling only `sampleGum`. -/
def gumDB : DB := ⟨[⟨7, 42⟩], [sampleGum], [], [], []⟩

/-- A pending order of user 42, expiring at 2800. -/
def sampleOrder : Order := ⟨1, "2024010112000042", 42, .pending, F64.ofInt 25, 7, "hi", 2800, 1000, 1000⟩

/-- The two lines of `sampleOrder`: 2 of product 1 and 1 of product 2. -/
def sampleLines : List OrderItem :=
  [⟨1, 1, 1, "tea", "tea.png", F64.ofInt 10, 2, 1000, 1000⟩,
   ⟨2, 1, 2, "cup", "cup.png", F64.ofInt 5, 1, 1000, 1000⟩]

/-- The store after `sampleOrder` was placed: stocks 3 and 0. -/
def orderedDB : DB :=
  ⟨[⟨7, 42⟩], [{ sampleTea with Stock := 3 }, { sampleCup with Stock := 0 }], [sampleOrder],
    sampleLines, []⟩

/-- A second pending order of user 42, expiring at 9000, holding 1 of product 1. -/
def lateOrder : Order := ⟨2, "2024010113000042", 42, .pending, F64.ofInt 10, 7, "", 9000, 7200, 7200⟩

/-- The store with `sampleOrder` and `lateOrder` placed: stocks 2 and 0. -/
def twoOrdersDB : DB :=
  ⟨[⟨7, 42⟩], [{ sampleTea with Stock := 2 }, { sampleCup with Stock := 0 }],
    [sampleOrder, lateOrder],
    sampleLines ++ [⟨3, 2, 1, "tea", "tea.png", F64.ofInt 10, 1, 7200, 7200⟩], []⟩

/-- The same store with the order already paid. -/
def paidDB : DB := { orderedDB with orders := [{ sampleOrder with Status := .paid }] }

/-- Collaborators that answer: the UUID "pay-0001", a link for every trade, a QR string. -/
def sampleProviders : Providers :=
  ⟨"pay-0001", fun p => some ("https://alipay.example/" ++ p.PaymentNumber), "QR"⟩

/-- A pending Alipay payment of 25.00 for `sampleOrder`. -/
def samplePayment : Payment := ⟨1, "pay-0001", 1, 42, F64.ofInt 25, "alipay", .pending, none, 1100, 1100⟩

/-- The store after `sampleOrder` was placed and charged once. -/
def payingDB : DB := { orderedDB with payments := [samplePayment] }

/-- A success notification of Alipay for `samplePayment`. -/
def sampleNotice : AlipayForm := ⟨true, "pay-0001", "TRADE_SUCCESS"⟩

/-- The store after `sampleOrder` was cancelled: the stocks are back at 5 and 1. -/
def cancelledDB : DB :=
  ⟨[⟨7, 42⟩], [sampleTea, sampleCup], [{ sampleOrder with Status := .cancelled }], sampleLines, []⟩

/-- A store in which product 1 holds the largest stock a 64-bit column can. -/
def fullDB : DB :=
  ⟨[⟨7, 42⟩], [{ sampleTea with Stock := 9223372036854775807 }, sampleCup], [], [], []⟩

/-- The oracle of a run without store errors. -/
def noFault : Nat → Bool := fun _ => false

/-- The request of the scenario: 2 of product 1 and 1 of product 2. -/
def sampleReq : CreateOrderReq := ⟨7, [⟨1, 2⟩, ⟨2, 1⟩], "hi"⟩

end Dymall

/-! # Theorems -/

namespace Dymall

/-! ## Transactions: basic facts -/

theorem Tx.exec_some {tx tx1 : Tx} {b : Bool} {f : DB → DB} (h : tx.Exec b f = some tx1) :
    tx.done = false ∧ b = false ∧ tx1 = { tx with work := f tx.work } := by
  unfold Tx.Exec at h
  cases hd : tx.done <;> cases b <;> simp [hd] at h
  exact ⟨rfl, rfl, h.symm⟩

theorem Tx.query_some {α : Type} {tx : Tx} {b : Bool} {q : DB → Option α} {a : α}
    (h : tx.Query b q = some a) : tx.done = false ∧ b = false ∧ q tx.work = some a := by
  unfold Tx.Query at h
  cases hd : tx.done <;> cases b <;> simp [hd] at h
  exact ⟨rfl, rfl, h⟩

theorem Tx.create_some {tx tx1 : Tx} {b : Bool} {f : DB → Option (Nat × DB)} {id : Nat}
    (h : tx.Create b f = some (id, tx1)) :
    tx.done = false ∧ b = false ∧ ∃ w, f tx.work = some (id, w) ∧ tx1 = { tx with work := w } := by
  unfold Tx.Create at h
  cases hd : tx.done <;> cases b <;> simp [hd] at h
  obtain ⟨a, w, hf, h1, h2⟩ := h
  subst h1
  exact ⟨rfl, rfl, w, hf, h2.symm⟩

theorem Tx.commit_false {tx tx1 : Tx} {b : Bool} (h : tx.Commit b = (false, tx1)) :
    tx1.base = tx.base := by
  unfold Tx.Commit at h
  split at h <;> simp at h
  rw [← h]

theorem Tx.commit_true {tx tx1 : Tx} {b : Bool} (h : tx.Commit b = (true, tx1)) :
    tx.done = false ∧ b = false ∧ tx1.base = tx.work := by
  unfold Tx.Commit at h
  cases hd : tx.done <;> cases b <;> simp [hd] at h
  exact ⟨rfl, rfl, by rw [← h]⟩

/-- The item loop of `CreateOrder` never publishes anything. -/
theorem createItems_base (fault : Nat → Bool) (now orderID : Nat) (items : List ItemReq) :
    ∀ (k : Nat) (tx : Tx) (total : F64),
      (createItems fault now orderID items k tx total).1.base = tx.base := by
  induction items with
  | nil => intro k tx total; rfl
  | cons item rest ih =>
    intro k tx total
    unfold createItems
    cases hq : tx.Query (fault k) (firstProduct item.ProductID) with
    | none => rfl
    | some product =>
      simp only
      split
      · rfl
      · split
        · rfl
        · cases h1 : tx.Exec (fault (k + 1))
              (insertOrderItem (orderItemOf now orderID product item)) with
          | none => rfl
          | some tx1 =>
            simp only
            have e1 := (Tx.exec_some h1).2.2
            cases h2 : tx1.Exec (fault (k + 2))
                (setStock product.ID (wrap64 (product.Stock - item.Quantity)) now) with
            | none => simp [Tx.Rollback, e1]
            | some tx2 =>
              simp only
              rw [ih]
              have e2 := (Tx.exec_some h2).2.2
              rw [e2, e1]

/-- A rejected `CreateOrder` publishes nothing: every rejecting path ends on the
store the transaction started from. -/
theorem createOrder_error_db (fault : Nat → Bool) (now : Nat) (stamp : String) (db : DB)
    (user_id : Option Nat) (body : Option CreateOrderReq) (e : CreateOrderError)
    (h : (CreateOrder fault now stamp db user_id body).2 = .error e) :
    (CreateOrder fault now stamp db user_id body).1 = db := by
  unfold CreateOrder at h ⊢
  cases user_id with
  | none => rfl
  | some userID =>
    cases body with
    | none => rfl
    | some req =>
      simp only at h ⊢
      cases hq : (Begin db).Query (fault 0) (firstAddress req.AddressID) with
      | none => rfl
      | some address =>
        simp only [hq] at h ⊢
        split
        · rfl
        · rename_i hu
          simp only [hu, if_false] at h
          split
          · rfl
          · rename_i orderID tx1 hc
            simp only [hc] at h
            have b1 : tx1.base = db := by
              obtain ⟨_, _, w, _, ht⟩ := Tx.create_some hc
              rw [ht]; rfl
            have b2 := createItems_base fault now orderID req.Items 2 tx1 F64.zero
            split
            · rename_i tx2 e2 hl
              rw [hl] at b2; simp only at b2 ⊢; rw [b2, b1]
            · rename_i tx2 total hl
              rw [hl] at b2 h; simp only at b2 h ⊢
              split
              · simp [Tx.Rollback, b2, b1]
              · rename_i tx3 h3
                simp only [h3] at h
                have b3 : tx3.base = db := by
                  rw [(Tx.exec_some h3).2.2]; simp [b2, b1]
                split
                · rename_i tx4 h4
                  simp only; rw [Tx.commit_false h4, b3]
                · rename_i tx4 h4
                  simp only [h4] at h
                  cases h

/-- C1. `CreateOrder` is atomic: whenever the call is rejected, at whatever step
(address check, header insert, any item's lookup, on-sale check, stock check, item
insert or stock update, total update, commit), the committed store after the call
is the store before it, so no stock is decremented and no order or item persists. -/
theorem createOrder_atomic (fault : Nat → Bool) (now : Nat) (stamp : String) (db : DB)
    (user_id : Option Nat) (body : Option CreateOrderReq) (e : CreateOrderError)
    (h : (CreateOrder fault now stamp db user_id body).2 = .error e) :
    (CreateOrder fault now stamp db user_id body).1 = db :=
  createOrder_error_db fault now stamp db user_id body e h


set_option maxRecDepth 100000 in
theorem createOrder_atomic_witness :
    (CreateOrder (fun k => k == 7) 1000 "20240101120000" sampleDB (some 42) (some sampleReq)).2
        = .error .UpdateStockFailed ∧
      (CreateOrder (fun k => k == 7) 1000 "20240101120000" sampleDB (some 42) (some sampleReq)).1
        = sampleDB :=
  ⟨by decide, createOrder_atomic _ _ _ _ _ _ .UpdateStockFailed (by decide)⟩

/-! ## Store primitives: lookups after writes -/

theorem firstProduct_id {pid : Nat} {db : DB} {p : Product}
    (h : firstProduct pid db = some p) : p.ID = pid := by
  unfold firstProduct at h
  have := List.find?_some h
  simpa using this

theorem stockOf_of_first {pid : Nat} {db : DB} {p : Product}
    (h : firstProduct pid db = some p) : stockOf db pid = some p.Stock := by
  simp [stockOf, h]

theorem stockOf_congr {a b : DB} (h : a.products = b.products) (pid : Nat) :
    stockOf a pid = stockOf b pid := by
  simp [stockOf, firstProduct, h]

theorem find_map_keep {α : Type} (key : α → Nat) (f : α → α) (hf : ∀ a, key (f a) = key a)
    (id : Nat) (l : List α) :
    (l.map f).find? (fun a => key a = id) = (l.find? (fun a => key a = id)).map f := by
  induction l with
  | nil => rfl
  | cons a t ih =>
    simp only [List.map_cons, List.find?_cons, hf]
    split
    · rfl
    · exact ih

theorem stockOf_setStock (id : Nat) (v : Int) (now : Nat) (db : DB) (pid : Nat) :
    stockOf (setStock id v now db) pid
      = if pid = id then (stockOf db pid).map (fun _ => v) else stockOf db pid := by
  unfold stockOf firstProduct setStock
  simp only
  rw [find_map_keep (fun p : Product => p.ID)]
  · cases h : db.products.find? (fun a => decide (a.ID = pid)) with
    | none => simp
    | some p =>
      have hp : p.ID = pid := by simpa using List.find?_some h
      by_cases hid : pid = id
      · simp [hid, hp ▸ hid]
      · have : ¬ p.ID = id := fun c => hid (hp ▸ c)
        simp [hid, this]
  · intro a; split <;> rfl

theorem stockOf_addStock (id : Nat) (q : Int) (db : DB) (pid : Nat) :
    stockOf (addStock id q db) pid
      = if pid = id then (stockOf db pid).map (fun s => s + q) else stockOf db pid := by
  unfold stockOf firstProduct addStock
  simp only
  rw [find_map_keep (fun p : Product => p.ID)]
  · cases h : db.products.find? (fun a => decide (a.ID = pid)) with
    | none => simp
    | some p =>
      have hp : p.ID = pid := by simpa using List.find?_some h
      by_cases hid : pid = id
      · simp [hid, hp ▸ hid]
      · have : ¬ p.ID = id := fun c => hid (hp ▸ c)
        simp [hid, this]
  · intro a; split <;> rfl

theorem requestedQty_cons (item : ItemReq) (rest : List ItemReq) (pid : Nat) :
    requestedQty (item :: rest) pid
      = (if item.ProductID = pid then item.Quantity else 0) + requestedQty rest pid := by
  unfold requestedQty
  by_cases h : item.ProductID = pid <;> simp [List.filter_cons, h]

/-! ## The item loop of `CreateOrder` -/

/-- What an accepted first item means: its product was read, passed both checks,
both writes went through, and the loop went on from the updated working copy. -/
theorem createItems_cons_ok {fault : Nat → Bool} {now orderID : Nat} {item : ItemReq}
    {rest : List ItemReq} {k : Nat} {tx tx' : Tx} {total t : F64}
    (h : createItems fault now orderID (item :: rest) k tx total = (tx', .ok t)) :
    ∃ product, firstProduct item.ProductID tx.work = some product ∧ tx.done = false ∧
      product.IsOnSale = true ∧ ¬ product.Stock < item.Quantity ∧
      fault k = false ∧ fault (k + 1) = false ∧ fault (k + 2) = false ∧
      createItems fault now orderID rest (k + 3)
        (Tx.mk tx.base (setStock product.ID (wrap64 (product.Stock - item.Quantity)) now
          (insertOrderItem (orderItemOf now orderID product item) tx.work)) tx.done)
        (F64.add total (F64.mul product.Price (F64.ofInt item.Quantity))) = (tx', .ok t) := by
  unfold createItems at h
  cases hq : tx.Query (fault k) (firstProduct item.ProductID) with
  | none => simp [hq] at h
  | some product =>
    simp only [hq] at h
    obtain ⟨hd, hk, hfp⟩ := Tx.query_some hq
    by_cases hs : product.IsOnSale = true
    · by_cases hst : product.Stock < item.Quantity
      · simp [hs, hst] at h
      · simp only [hs, hst, Bool.not_true, if_false] at h
        cases h1 : tx.Exec (fault (k + 1))
            (insertOrderItem (orderItemOf now orderID product item)) with
        | none => simp [h1] at h
        | some tx1 =>
          simp only [h1] at h
          obtain ⟨_, hk1, e1⟩ := Tx.exec_some h1
          cases h2 : tx1.Exec (fault (k + 2))
              (setStock product.ID (wrap64 (product.Stock - item.Quantity)) now) with
          | none => simp [h2] at h
          | some tx2 =>
            simp only [h2] at h
            obtain ⟨_, hk2, e2⟩ := Tx.exec_some h2
            refine ⟨product, hfp, hd, hs, hst, hk, hk1, hk2, ?_⟩
            subst e2 e1
            simpa using h
    · simp [hs] at h

/-- After an accepted item list, each product has lost what the list asked of it,
item after item, in the 64-bit arithmetic of the handler. -/
theorem createItems_ok_stock (fault : Nat → Bool) (now orderID : Nat) (items : List ItemReq) :
    ∀ (k : Nat) (tx tx' : Tx) (total t : F64),
      createItems fault now orderID items k tx total = (tx', .ok t) →
      tx'.done = tx.done ∧ tx'.base = tx.base ∧
      ∀ pid, stockOf tx'.work pid = (stockOf tx.work pid).map (stockAfter items pid) := by
  induction items with
  | nil =>
    intro k tx tx' total t h
    simp only [createItems, Prod.mk.injEq] at h
    obtain ⟨h1, _⟩ := h
    subst h1
    refine ⟨rfl, rfl, fun pid => ?_⟩
    cases stockOf tx.work pid <;> rfl
  | cons item rest ih =>
    intro k tx tx' total t h
    obtain ⟨product, hfp, hd, _, _, _, _, _, hrest⟩ := createItems_cons_ok h
    obtain ⟨hd', hb', hs'⟩ := ih _ _ _ _ _ hrest
    refine ⟨hd', hb', fun pid => ?_⟩
    have hid := firstProduct_id hfp
    have hins : stockOf (insertOrderItem (orderItemOf now orderID product item) tx.work) pid
        = stockOf tx.work pid := stockOf_congr rfl pid
    have hpid := hs' pid
    simp only at hpid
    rw [hpid, stockOf_setStock, hins]
    by_cases hp : pid = product.ID
    · have hst : stockOf tx.work pid = some product.Stock := by
        rw [hp, hid]; exact stockOf_of_first hfp
      have hip : item.ProductID = pid := by rw [hp, hid]
      rw [if_pos hp, hst]
      simp only [Option.map_some', Option.some.injEq]
      show _ = stockAfter rest pid (if item.ProductID = pid
        then wrap64 (product.Stock - item.Quantity) else product.Stock)
      rw [if_pos hip]
    · have hip : ¬ item.ProductID = pid := fun c => hp (by rw [hid, c])
      rw [if_neg hp]
      cases stockOf tx.work pid with
      | none => rfl
      | some s0 =>
        simp only [Option.map_some', Option.some.injEq]
        show _ = stockAfter rest pid (if item.ProductID = pid
          then wrap64 (s0 - item.Quantity) else s0)
        rw [if_neg hip]

/-- What a 200 response of `CreateOrder` means. -/
theorem createOrder_ok {fault : Nat → Bool} {now : Nat} {stamp : String} {db db' : DB}
    {user_id : Option Nat} {body : Option CreateOrderReq} {data : CreateOrderData}
    (h : CreateOrder fault now stamp db user_id body = (db', .ok data)) :
    ∃ userID req address w1 tx2,
      user_id = some userID ∧ body = some req ∧
      firstAddress req.AddressID db = some address ∧ address.UserID = userID ∧
      insertOrder (newOrder now stamp userID req) db = some (data.order_id, w1) ∧
      createItems fault now data.order_id req.Items 2 (Tx.mk db w1 false) F64.zero
        = (tx2, .ok data.total_amount) ∧
      db' = setTotalAmount data.order_id data.total_amount now tx2.work ∧
      data.order_number = (newOrder now stamp userID req).OrderNumber ∧
      data.expired_at = now + 30 * 60 := by
  unfold CreateOrder at h
  cases user_id with
  | none => simp at h
  | some userID =>
    cases body with
    | none => simp at h
    | some req =>
      simp only at h
      cases hq : (Begin db).Query (fault 0) (firstAddress req.AddressID) with
      | none => simp [hq] at h
      | some address =>
        simp only [hq] at h
        by_cases hu : address.UserID = userID
        · simp only [hu, ne_eq, not_true_eq_false, if_false] at h
          cases hc : (Begin db).Create (fault 1) (insertOrder (newOrder now stamp userID req)) with
          | none => simp [hc] at h
          | some r =>
            obtain ⟨orderID, tx1⟩ := r
            simp only [hc] at h
            obtain ⟨_, _, w1, hw1, ht1⟩ := Tx.create_some hc
            cases hl : createItems fault now orderID req.Items 2 tx1 F64.zero with
            | mk tx2 res =>
              cases res with
              | error e => simp [hl] at h
              | ok total =>
                simp only [hl] at h
                cases h3 : tx2.Exec (fault (2 + 3 * req.Items.length))
                    (setTotalAmount orderID total now) with
                | none => simp [h3] at h
                | some tx3 =>
                  simp only [h3] at h
                  obtain ⟨_, _, e3⟩ := Tx.exec_some h3
                  cases h4 : tx3.Commit (fault (3 + 3 * req.Items.length)) with
                  | mk ok tx4 =>
                    cases ok with
                    | false => simp [h4] at h
                    | true =>
                      simp only [h4, Prod.mk.injEq, Except.ok.injEq] at h
                      obtain ⟨hb, hdata⟩ := h
                      obtain ⟨_, _, e4⟩ := Tx.commit_true h4
                      subst hdata
                      refine ⟨userID, req, address, w1, tx2, rfl, rfl, (Tx.query_some hq).2.2, hu,
                        hw1, ?_, ?_, rfl, rfl⟩
                      · rw [← hl, ht1]; rfl
                      · rw [← hb, e4, e3]
        · simp [hu] at h

theorem insertOrder_some {o : Order} {db w : DB} {id : Nat}
    (h : insertOrder o db = some (id, w)) :
    id = nextID (db.orders.map (fun x => x.ID)) ∧
      w = { db with orders := db.orders ++ [{ o with ID := id }] } ∧
      db.orders.any (fun x => x.OrderNumber = o.OrderNumber) = false := by
  unfold insertOrder at h
  cases ha : db.orders.any (fun x => decide (x.OrderNumber = o.OrderNumber)) with
  | true => simp [ha] at h
  | false =>
    simp only [ha, Bool.false_eq_true, if_false, Option.some.injEq, Prod.mk.injEq] at h
    obtain ⟨h1, h2⟩ := h
    subst h1
    exact ⟨rfl, h2.symm, rfl⟩

theorem stockAfter_not_named (items : List ItemReq) (pid : Nat) :
    ∀ s : Int, (∀ it ∈ items, it.ProductID ≠ pid) → stockAfter items pid s = s := by
  induction items with
  | nil => intro s _; rfl
  | cons it rest ih =>
    intro s hno
    show stockAfter rest pid (if it.ProductID = pid then wrap64 (s - it.Quantity) else s) = s
    rw [if_neg (hno it (List.mem_cons_self _ _))]
    exact ih s (fun x hx => hno x (List.mem_cons_of_mem _ hx))

/-- After a successful `CreateOrder`, the stock of each product is its stock before
less the quantities of the submitted items naming it, subtracted one after the
other in the 64-bit arithmetic of the handler (the same product may appear in
several items), and a product no item names keeps its stock. -/
theorem createOrder_stock_after (fault : Nat → Bool) (now : Nat) (stamp : String)
    (db db' : DB) (user_id : Option Nat) (req : CreateOrderReq) (data : CreateOrderData)
    (h : CreateOrder fault now stamp db user_id (some req) = (db', .ok data)) :
    (∀ pid, stockOf db' pid = (stockOf db pid).map (stockAfter req.Items pid)) ∧
      (∀ pid, (∀ it ∈ req.Items, it.ProductID ≠ pid) → stockOf db' pid = stockOf db pid) := by
  obtain ⟨userID, req', address, w1, tx2, _, hreq, _, _, hins, hloop, hdb, _, _⟩ :=
    createOrder_ok h
  have hreq' : req' = req := by simpa using hreq.symm
  subst hreq'
  obtain ⟨_, hw1, _⟩ := insertOrder_some hins
  obtain ⟨_, _, hst⟩ := createItems_ok_stock fault now _ _ _ _ _ _ _ hloop
  have key : ∀ pid, stockOf db' pid = (stockOf db pid).map (stockAfter req'.Items pid) := by
    intro pid
    have e1 : stockOf (setTotalAmount data.order_id data.total_amount now tx2.work) pid
        = stockOf tx2.work pid := stockOf_congr rfl pid
    have e2 : stockOf w1 pid = stockOf db pid := stockOf_congr (by rw [hw1]) pid
    have e3 := hst pid
    simp only at e3
    rw [hdb, e1, e3, e2]
  refine ⟨key, fun pid hno => ?_⟩
  rw [key pid]
  cases stockOf db pid with
  | none => rfl
  | some s0 =>
    simp only [Option.map_some', Option.some.injEq]
    exact stockAfter_not_named _ pid s0 hno

/-- C2 fails on the code. Product 1 holds the largest 64-bit stock and a body asks
for -1 unit of it: the handler accepts the item, the subtraction `Stock - Quantity`
wraps around, and the order is created with the stock at -9223372036854775808,
where the stock before less the requested quantity is 9223372036854775808. -/
theorem createOrder_stock_wraps :
    stockOf fullDB 1 = some 9223372036854775807 ∧
    (CreateOrder noFault 1000 "20240101120000" fullDB (some 42)
        (some ⟨7, [⟨1, -1⟩], ""⟩)).2 = .ok ⟨1, "2024010112000042", F64.ofInt (-10), 2800⟩ ∧
    stockOf (CreateOrder noFault 1000 "20240101120000" fullDB (some 42)
        (some ⟨7, [⟨1, -1⟩], ""⟩)).1 1 = some (-9223372036854775808) ∧
    (9223372036854775807 : Int) - requestedQty [⟨1, -1⟩] 1 = 9223372036854775808 := by
  refine ⟨?_, ?_, ?_, ?_⟩ <;> set_option maxRecDepth 100000 in decide

theorem lt_nextID (ids : List Nat) : ∀ x ∈ ids, x < nextID ids := by
  induction ids with
  | nil => intro x hx; cases hx
  | cons a t ih =>
    intro x hx
    unfold nextID at ih ⊢
    simp only [List.foldr_cons]
    rcases List.mem_cons.mp hx with rfl | hx
    · omega
    · have := ih x hx
      omega

theorem firstOrder_fresh (db : DB) :
    db.orders.find? (fun o => o.ID = nextID (db.orders.map (fun x => x.ID))) = none := by
  rw [List.find?_eq_none]
  intro o ho
  have := lt_nextID (db.orders.map (fun x => x.ID)) o.ID (List.mem_map_of_mem _ ho)
  simp only [decide_eq_true_eq]
  omega

/-- An accepted item list appends one line per item, in order, each owned by the
order and carrying the item's product and quantity; the header table is left
alone and the total returned is the running total over the new lines. -/
theorem createItems_ok_lines (fault : Nat → Bool) (now orderID : Nat) (items : List ItemReq) :
    ∀ (k : Nat) (tx tx' : Tx) (total t : F64),
      createItems fault now orderID items k tx total = (tx', .ok t) →
      tx'.work.orders = tx.work.orders ∧
      ∃ created, tx'.work.order_items = tx.work.order_items ++ created ∧
        List.Forall₂ (fun (item : ItemReq) (line : OrderItem) => line.OrderID = orderID ∧
          line.ProductID = item.ProductID ∧ line.Quantity = item.Quantity) items created ∧
        t = lineTotal total created := by
  induction items with
  | nil =>
    intro k tx tx' total t h
    simp only [createItems, Prod.mk.injEq, Except.ok.injEq] at h
    obtain ⟨h1, h2⟩ := h
    subst h1 h2
    exact ⟨rfl, [], by simp, List.Forall₂.nil, rfl⟩
  | cons item rest ih =>
    intro k tx tx' total t h
    obtain ⟨product, hfp, _, _, _, _, _, _, hrest⟩ := createItems_cons_ok h
    obtain ⟨ho, created, hc, hall, ht⟩ := ih _ _ _ _ _ hrest
    refine ⟨ho, ({ orderItemOf now orderID product item with
        ID := nextID (tx.work.order_items.map (fun x => x.ID)) } : OrderItem) :: created,
      ?_, List.Forall₂.cons ⟨?_, ?_, ?_⟩ hall, ?_⟩
    · rw [hc]
      show (tx.work.order_items ++ [_]) ++ created = _
      rw [List.append_assoc]; rfl
    · rfl
    · exact firstProduct_id hfp
    · rfl
    · rw [ht]; rfl

/-- C3 (as stated) fails: three units of a product priced 0.10 are accepted; the
header keeps 0.30, the value of its `decimal(10,2)` column, but the total returned
to the caller is 0.30000000000000004, which is neither the decimal 0.30 nor the
`float64` nearest to it. -/
theorem createOrder_total_not_exact :
    ∃ db' data, CreateOrder noFault 1000 "20240101120000" gumDB (some 42)
        (some ⟨7, [⟨1, 3⟩], ""⟩) = (db', .ok data) ∧
      (firstOrder data.order_id db').map (fun o => o.TotalAmount)
        = some (F64.ofDecimal 30 2) ∧
      data.total_amount = ⟨5404319552844596, -54⟩ ∧
      ¬ F64.IsDecimal data.total_amount 30 2 ∧
      data.total_amount ≠ F64.ofDecimal 30 2 := by
  refine ⟨(CreateOrder noFault 1000 "20240101120000" gumDB (some 42)
      (some ⟨7, [⟨1, 3⟩], ""⟩)).1,
    ⟨1, "2024010112000042", ⟨5404319552844596, -54⟩, 2800⟩, ?_, ?_, rfl, ?_, ?_⟩
  · set_option maxRecDepth 100000 in decide
  · set_option maxRecDepth 100000 in decide
  · decide
  · set_option maxRecDepth 100000 in decide

/-- C3 (amended). After a successful `CreateOrder` the lines appended to
`order_items` are one per submitted item, in order, owned by the new order; the total
returned to the caller is the `float64` running sum, from 0 and in item order, of
the `float64` products price times quantity of those lines, without rounding to 2
decimals; and the header of the new order holds that value as its `decimal(10,2)`
column keeps it, rounded to 2 decimals. -/
theorem createOrder_total (fault : Nat → Bool) (now : Nat) (stamp : String)
    (db db' : DB) (user_id : Option Nat) (req : CreateOrderReq) (data : CreateOrderData)
    (h : CreateOrder fault now stamp db user_id (some req) = (db', .ok data)) :
    ∃ created, db'.order_items = db.order_items ++ created ∧
      List.Forall₂ (fun (item : ItemReq) (line : OrderItem) => line.OrderID = data.order_id ∧
        line.ProductID = item.ProductID ∧ line.Quantity = item.Quantity) req.Items created ∧
      data.total_amount = lineTotal F64.zero created ∧
      (firstOrder data.order_id db').map (fun o => o.TotalAmount)
        = some (F64.decimal2 data.total_amount) := by
  obtain ⟨userID, req', address, w1, tx2, _, hreq, _, _, hins, hloop, hdb, _, _⟩ :=
    createOrder_ok h
  have hreq' : req' = req := by simpa using hreq.symm
  subst hreq'
  obtain ⟨hid, hw1, _⟩ := insertOrder_some hins
  obtain ⟨ho, created, hc, hall, ht⟩ := createItems_ok_lines fault now _ _ _ _ _ _ _ hloop
  simp only at ho hc
  refine ⟨created, ?_, hall, ht, ?_⟩
  · rw [hdb]
    show tx2.work.order_items = _
    rw [hc, hw1]
  · rw [hdb]
    unfold firstOrder setTotalAmount
    simp only
    rw [find_map_keep (fun o : Order => o.ID)]
    · rw [ho, hw1]
      simp only
      rw [List.find?_append]
      have hfresh := firstOrder_fresh db
      rw [← hid] at hfresh
      rw [hfresh]
      simp
    · intro a; split <;> rfl

set_option maxRecDepth 100000 in
theorem createOrder_total_witness :
    CreateOrder noFault 1000 "20240101120000" sampleDB (some 42) (some sampleReq)
      = ((CreateOrder noFault 1000 "20240101120000" sampleDB (some 42) (some sampleReq)).1,
         .ok ⟨1, "2024010112000042", F64.ofInt 25, 2800⟩) ∧
    F64.IsDecimal (F64.ofInt 25) 2500 2 ∧
    ∃ created,
      (CreateOrder noFault 1000 "20240101120000" sampleDB (some 42) (some sampleReq)).1.order_items
        = sampleDB.order_items ++ created ∧
      List.Forall₂ (fun (item : ItemReq) (line : OrderItem) => line.OrderID = 1 ∧
        line.ProductID = item.ProductID ∧ line.Quantity = item.Quantity)
        sampleReq.Items created ∧
      F64.ofInt 25 = lineTotal F64.zero created ∧
      (firstOrder 1 (CreateOrder noFault 1000 "20240101120000" sampleDB (some 42)
        (some sampleReq)).1).map (fun o => o.TotalAmount) = some (F64.ofInt 25) :=
  ⟨by decide, by decide,
   createOrder_total noFault 1000 "20240101120000" sampleDB _ (some 42) sampleReq
     ⟨1, "2024010112000042", F64.ofInt 25, 2800⟩ (by decide)⟩

theorem requestedQty_append (a b : List ItemReq) (pid : Nat) :
    requestedQty (a ++ b) pid = requestedQty a pid + requestedQty b pid := by
  unfold requestedQty
  simp [List.filter_append, List.map_append, List.sum_append]

/-- The first item passes: the loop goes on from the updated working copy. -/
theorem createItems_cons_pass {fault : Nat → Bool} {now orderID : Nat} {item : ItemReq}
    {rest : List ItemReq} {k : Nat} {tx : Tx} {total : F64} {q : Product}
    (hd : tx.done = false) (h0 : fault k = false) (h1 : fault (k + 1) = false)
    (h2 : fault (k + 2) = false) (hq : firstProduct item.ProductID tx.work = some q)
    (hs : q.IsOnSale = true) (hst : ¬ q.Stock < item.Quantity) :
    createItems fault now orderID (item :: rest) k tx total
      = createItems fault now orderID rest (k + 3)
          (Tx.mk tx.base (setStock q.ID (wrap64 (q.Stock - item.Quantity)) now
            (insertOrderItem (orderItemOf now orderID q item) tx.work)) tx.done)
          (F64.add total (F64.mul q.Price (F64.ofInt item.Quantity))) := by
  conv_lhs => unfold createItems
  simp [Tx.Query, Tx.Exec, hd, h0, h1, h2, hq, hs, hst]

/-- The first item is rejected by the lookup or by one of the two checks. -/
theorem createItems_cons_reject {fault : Nat → Bool} {now orderID : Nat} {item : ItemReq}
    {rest : List ItemReq} {k : Nat} {tx : Tx} {total : F64}
    (hd : tx.done = false) (h0 : fault k = false) :
    (createItems fault now orderID (item :: rest) k tx total).2 =
      match firstProduct item.ProductID tx.work with
      | none => .error .ProductNotFound
      | some q =>
        if q.IsOnSale = false then .error (.ProductUnavailable q.Name)
        else if q.Stock < item.Quantity then .error (.InsufficientStock q.Name)
        else (createItems fault now orderID (item :: rest) k tx total).2 := by
  cases hq : firstProduct item.ProductID tx.work with
  | none => unfold createItems; simp [Tx.Query, hd, h0, hq]
  | some q =>
    by_cases hs : q.IsOnSale = true
    · by_cases hst : q.Stock < item.Quantity
      · unfold createItems; simp [Tx.Query, hd, h0, hq, hs, hst]
      · simp only [hs, hst, if_false, Bool.true_eq_false]
    · unfold createItems; simp [Tx.Query, hd, h0, hq, hs]

theorem reserved_start (db : DB) : Reserved db [] db := by
  intro pid
  cases firstProduct pid db <;> simp [stockAfter]

theorem stockAfter_snoc (pre : List ItemReq) (item : ItemReq) (pid : Nat) (s : Int) :
    stockAfter (pre ++ [item]) pid s
      = if item.ProductID = pid then wrap64 (stockAfter pre pid s - item.Quantity)
        else stockAfter pre pid s := by
  unfold stockAfter
  rw [List.foldl_append]
  rfl

/-- One accepted item keeps the working copy in step with the reservations. -/
theorem reserved_step {db w : DB} {pre : List ItemReq} {item : ItemReq} {q : Product}
    (now orderID : Nat) (hr : Reserved db pre w)
    (hq : firstProduct item.ProductID w = some q) :
    Reserved db (pre ++ [item])
      (setStock q.ID (wrap64 (q.Stock - item.Quantity)) now
        (insertOrderItem (orderItemOf now orderID q item) w)) := by
  intro pid
  have hqid := firstProduct_id hq
  have hfp : firstProduct pid (setStock q.ID (wrap64 (q.Stock - item.Quantity)) now
      (insertOrderItem (orderItemOf now orderID q item) w))
      = (firstProduct pid w).map (fun p => if p.ID = q.ID then
          { p with Stock := wrap64 (q.Stock - item.Quantity), UpdatedAt := now } else p) := by
    unfold firstProduct setStock insertOrderItem
    simp only
    rw [find_map_keep (fun p : Product => p.ID)]
    intro a; split <;> rfl
  have hr' := hr pid
  rw [hfp]
  simp only [stockAfter_snoc]
  cases hw : firstProduct pid w with
  | none =>
    rw [hw] at hr'
    cases hdb : firstProduct pid db with
    | none => rfl
    | some p => rw [hdb] at hr'; simp at hr'
  | some q' =>
    rw [hw] at hr'
    cases hdb : firstProduct pid db with
    | none => rw [hdb] at hr'; simp at hr'
    | some p =>
      rw [hdb] at hr'
      simp only [Option.map_some', Option.some.injEq, Prod.mk.injEq] at hr' ⊢
      obtain ⟨hn, hs, hst⟩ := hr'
      have hq'id := firstProduct_id hw
      by_cases hp : pid = item.ProductID
      · subst hp
        have hqq : q' = q := by rw [hq] at hw; exact (Option.some.inj hw).symm
        subst hqq
        simp only [if_true, hn, hs, true_and]
        rw [hst]
      · have h1 : ¬ q'.ID = q.ID := by rw [hq'id, hqid]; exact hp
        have h2 : ¬ item.ProductID = pid := fun c => hp c.symm
        simp [h1, h2, hn, hs, hst]


theorem requestedQty_nil (pid : Nat) : requestedQty [] pid = 0 := rfl

/-- The checks the loop makes on its working copy are the verdict of the
specification on the store before the call, less the reservations made so far. -/
theorem verdict_reserved {db w : DB} {pre : List ItemReq} (hr : Reserved db pre w)
    (item : ItemReq) : itemVerdict w [] item = itemVerdict db pre item := by
  have hr' := hr item.ProductID
  unfold itemVerdict
  cases hw : firstProduct item.ProductID w with
  | none =>
    rw [hw] at hr'
    cases hdb : firstProduct item.ProductID db with
    | none => rfl
    | some p => rw [hdb] at hr'; simp at hr'
  | some q =>
    rw [hw] at hr'
    cases hdb : firstProduct item.ProductID db with
    | none => rw [hdb] at hr'; simp at hr'
    | some p =>
      rw [hdb] at hr'
      simp only [Option.map_some', Option.some.injEq, Prod.mk.injEq] at hr'
      obtain ⟨hn, hs, hst⟩ := hr'
      have h0 : stockAfter [] item.ProductID q.Stock = q.Stock := rfl
      simp only [h0]
      rw [hn, hs, hst]

theorem createItems_head_reject {fault : Nat → Bool} {now orderID : Nat} {item : ItemReq}
    {rest : List ItemReq} {k : Nat} {tx : Tx} {total : F64} {e : CreateOrderError}
    (hd : tx.done = false) (h0 : fault k = false)
    (hv : itemVerdict tx.work [] item = some e) :
    (createItems fault now orderID (item :: rest) k tx total).2 = .error e := by
  rw [createItems_cons_reject hd h0]
  unfold itemVerdict at hv
  cases hq : firstProduct item.ProductID tx.work with
  | none => rw [hq] at hv; simp only at hv ⊢; rw [Option.some.inj hv]
  | some q =>
    rw [hq] at hv
    have h0 : stockAfter [] item.ProductID q.Stock = q.Stock := rfl
    simp only [h0] at hv ⊢
    by_cases hs : q.IsOnSale = false
    · simp only [hs, if_true] at hv ⊢
      rw [Option.some.inj hv]
    · have hs' : q.IsOnSale = true := by simpa using hs
      simp only [hs', Bool.true_eq_false, if_false] at hv ⊢
      by_cases hst : q.Stock < item.Quantity
      · simp only [hst, if_true] at hv ⊢
        rw [Option.some.inj hv]
      · simp [hst] at hv

theorem verdict_none {w : DB} {item : ItemReq} (hv : itemVerdict w [] item = none) :
    ∃ q, firstProduct item.ProductID w = some q ∧ q.IsOnSale = true ∧
      ¬ q.Stock < item.Quantity := by
  unfold itemVerdict at hv
  cases hq : firstProduct item.ProductID w with
  | none => rw [hq] at hv; simp at hv
  | some q =>
    rw [hq] at hv
    have h0 : stockAfter [] item.ProductID q.Stock = q.Stock := rfl
    simp only [h0] at hv
    by_cases hs : q.IsOnSale = false
    · simp [hs] at hv
    · by_cases hst : q.Stock < item.Quantity
      · simp [hs, hst] at hv
      · exact ⟨q, rfl, by simpa using hs, hst⟩

/-- When the items before `item` are all accepted and stored, and `item` is
rejected by the specification, the loop ends with the rejection of `item`. -/
theorem createItems_first_reject (fault : Nat → Bool) (now orderID : Nat) (db : DB)
    (item : ItemReq) (suf : List ItemReq) (e : CreateOrderError) :
    ∀ (pre reserved : List ItemReq) (k : Nat) (tx : Tx) (total : F64),
      tx.done = false → Reserved db reserved tx.work →
      (∀ a it b, pre = a ++ it :: b → itemVerdict db (reserved ++ a) it = none) →
      itemVerdict db (reserved ++ pre) item = some e →
      (∀ j, k ≤ j → j < k + 3 * pre.length + 1 → fault j = false) →
      (createItems fault now orderID (pre ++ item :: suf) k tx total).2 = .error e := by
  intro pre
  induction pre with
  | nil =>
    intro reserved k tx total hd hr _ hv hf
    rw [List.append_nil] at hv
    rw [← verdict_reserved hr] at hv
    exact createItems_head_reject hd (hf k (le_refl _) (by omega)) hv
  | cons it pre ih =>
    intro reserved k tx total hd hr hpre hv hf
    have hit : itemVerdict db reserved it = none := by
      have := hpre [] it pre rfl
      rwa [List.append_nil] at this
    rw [← verdict_reserved hr] at hit
    obtain ⟨q, hq, hs, hst⟩ := verdict_none hit
    have f0 := hf k (le_refl _) (by simp only [List.length_cons]; omega)
    have f1 := hf (k + 1) (by omega) (by simp only [List.length_cons]; omega)
    have f2 := hf (k + 2) (by omega) (by simp only [List.length_cons]; omega)
    rw [List.cons_append, createItems_cons_pass hd f0 f1 f2 hq hs hst]
    apply ih (reserved ++ [it])
    · exact hd
    · exact reserved_step now orderID hr hq
    · intro a x b hab
      have := hpre (it :: a) x b (by rw [hab]; rfl)
      rwa [List.append_assoc]
    · rw [List.append_assoc]; exact hv
    · intro j hj1 hj2
      exact hf j (by omega) (by simp only [List.length_cons]; omega)

/-- C4. Items are processed in the order submitted and the first failing item decides:
when the call reaches the item loop (address of the caller, order number not
taken, no store error up to the failing item's lookup), every item before `item`
is accepted and `item` is rejected, then `CreateOrder` answers with the rejection
of `item`, which is `ProductNotFound` if its product is absent, otherwise
`ProductUnavailable` if the product is not on sale, otherwise `InsufficientStock`
if its quantity exceeds the stock available at that point, after the decrements
of the earlier items of the request (each a 64-bit subtraction, as the handler
makes it); and nothing is persisted. -/
theorem createOrder_first_failing_item (fault : Nat → Bool) (now : Nat) (stamp : String)
    (db : DB) (userID : Nat) (req : CreateOrderReq) (address : Address)
    (pre : List ItemReq) (item : ItemReq) (suf : List ItemReq) (e : CreateOrderError)
    (ha : firstAddress req.AddressID db = some address) (hu : address.UserID = userID)
    (hn : db.orders.any (fun x => x.OrderNumber = stamp ++ toString userID) = false)
    (hitems : req.Items = pre ++ item :: suf)
    (hpre : ∀ a it b, pre = a ++ it :: b → itemVerdict db a it = none)
    (hitem : itemVerdict db pre item = some e)
    (hfault : ∀ k, k < 3 + 3 * pre.length → fault k = false) :
    CreateOrder fault now stamp db (some userID) (some req) = (db, .error e) := by
  have f0 := hfault 0 (by omega)
  have f1 := hfault 1 (by omega)
  have hloop := createItems_first_reject fault now
    (nextID (db.orders.map (fun x => x.ID))) db item suf e pre [] 2
    (Tx.mk db { db with orders := db.orders ++ [{ newOrder now stamp userID req with
      ID := nextID (db.orders.map (fun x => x.ID)) }] } false) F64.zero rfl
    (fun pid => reserved_start db pid)
    (fun a it b hab => by simpa using hpre a it b hab)
    (by simpa using hitem)
    (fun j hj1 hj2 => hfault j (by omega))
  have hbase := createItems_base fault now (nextID (db.orders.map (fun x => x.ID)))
    (pre ++ item :: suf) 2
    (Tx.mk db { db with orders := db.orders ++ [{ newOrder now stamp userID req with
      ID := nextID (db.orders.map (fun x => x.ID)) }] } false) F64.zero
  have hn' : db.orders.any (fun x => x.OrderNumber = (newOrder now stamp userID req).OrderNumber)
      = false := hn
  unfold CreateOrder
  simp only [Begin, Tx.Query, Tx.Create, insertOrder, f0, f1, ha, hu, hn', hitems,
    Bool.or_false, Bool.false_eq_true, if_false, ne_eq, not_true_eq_false, Option.map_some']
  cases hl : createItems fault now (nextID (db.orders.map (fun x => x.ID)))
      (pre ++ item :: suf) 2
      (Tx.mk db { db with orders := db.orders ++ [{ newOrder now stamp userID req with
        ID := nextID (db.orders.map (fun x => x.ID)) }] } false) F64.zero with
  | mk tx2 res =>
    rw [hl] at hloop hbase
    simp only at hloop hbase
    subst hloop
    simp only [hbase]


theorem createOrder_first_failing_item_witness :
    itemVerdict sampleDB [⟨1, 2⟩] ⟨1, 4⟩ = some (.InsufficientStock "tea") ∧
      CreateOrder noFault 1000 "20240101120000" sampleDB (some 42)
        (some ⟨7, [⟨1, 2⟩, ⟨1, 4⟩, ⟨3, 1⟩], ""⟩)
        = (sampleDB, .error (.InsufficientStock "tea")) ∧
      CreateOrder noFault 1000 "20240101120000" sampleDB (some 42)
        (some ⟨7, [⟨1, -9223372036854775808⟩, ⟨1, 10⟩, ⟨3, 1⟩], ""⟩)
        = (sampleDB, .error (.InsufficientStock "tea")) :=
  ⟨by decide,
   createOrder_first_failing_item noFault 1000 "20240101120000" sampleDB 42
     ⟨7, [⟨1, 2⟩, ⟨1, 4⟩, ⟨3, 1⟩], ""⟩ ⟨7, 42⟩ [⟨1, 2⟩] ⟨1, 4⟩ [⟨3, 1⟩]
     (.InsufficientStock "tea") (by decide) rfl (by decide) rfl
     (by
       intro a it b hab
       cases a with
       | nil =>
         simp only [List.nil_append, List.cons.injEq] at hab
         obtain ⟨h1, _⟩ := hab
         subst h1
         decide
       | cons x a => simp at hab)
     (by decide) (fun _ _ => rfl),
   createOrder_first_failing_item noFault 1000 "20240101120000" sampleDB 42
     ⟨7, [⟨1, -9223372036854775808⟩, ⟨1, 10⟩, ⟨3, 1⟩], ""⟩ ⟨7, 42⟩
     [⟨1, -9223372036854775808⟩] ⟨1, 10⟩ [⟨3, 1⟩]
     (.InsufficientStock "tea") (by decide) rfl (by decide) rfl
     (by
       intro a it b hab
       cases a with
       | nil =>
         simp only [List.nil_append, List.cons.injEq] at hab
         obtain ⟨h1, _⟩ := hab
         subst h1
         decide
       | cons x a => simp at hab)
     (by decide) (fun _ _ => rfl)⟩

/-! ## `CancelOrder` -/

theorem lineQty_cons (item : OrderItem) (rest : List OrderItem) (pid : Nat) :
    lineQty (item :: rest) pid
      = (if item.ProductID = pid then item.Quantity else 0) + lineQty rest pid := by
  unfold lineQty
  by_cases h : item.ProductID = pid <;> simp [List.filter_cons, h]

theorem releaseAll_tables (items : List OrderItem) :
    ∀ db : DB, (releaseAll items db).orders = db.orders ∧
      (releaseAll items db).order_items = db.order_items ∧
      (releaseAll items db).addresses = db.addresses ∧
      (releaseAll items db).payments = db.payments := by
  induction items with
  | nil => intro db; exact ⟨rfl, rfl, rfl, rfl⟩
  | cons it rest ih =>
    intro db
    exact ih (addStock it.ProductID it.Quantity db)

theorem stockOf_releaseAll (items : List OrderItem) :
    ∀ (db : DB) (pid : Nat),
      stockOf (releaseAll items db) pid = (stockOf db pid).map (fun s => s + lineQty items pid) := by
  induction items with
  | nil => intro db pid; simp [releaseAll, lineQty]
  | cons it rest ih =>
    intro db pid
    show stockOf (releaseAll rest (addStock it.ProductID it.Quantity db)) pid = _
    rw [ih, stockOf_addStock, lineQty_cons]
    by_cases hp : pid = it.ProductID
    · have hp' : it.ProductID = pid := hp.symm
      rw [if_pos hp, if_pos hp']
      cases stockOf db pid with
      | none => rfl
      | some s => simp only [Option.map_some', Option.some.injEq]; ring
    · have hp' : ¬ it.ProductID = pid := fun c => hp c.symm
      rw [if_neg hp, if_neg hp', zero_add]

/-- The stock-restoring loop of `CancelOrder` publishes nothing; when it
succeeds every line was added back on the working copy; and it succeeds when no
statement fails. -/
theorem restoreItems_spec (fault : Nat → Bool) (items : List OrderItem) :
    ∀ (k : Nat) (tx : Tx),
      (restoreItems fault items k tx).1.base = tx.base ∧
      ((restoreItems fault items k tx).2 = true →
        (restoreItems fault items k tx).1 = Tx.mk tx.base (releaseAll items tx.work) tx.done) ∧
      (tx.done = false → (∀ j, k ≤ j → j < k + items.length → fault j = false) →
        (restoreItems fault items k tx).2 = true) := by
  induction items with
  | nil =>
    intro k tx
    exact ⟨rfl, fun _ => rfl, fun _ _ => rfl⟩
  | cons it rest ih =>
    intro k tx
    unfold restoreItems
    cases he : tx.Exec (fault k) (addStock it.ProductID it.Quantity) with
    | none =>
      refine ⟨rfl, fun h => by simp at h, fun hd hf => ?_⟩
      have := hf k (le_refl _) (by simp)
      simp [Tx.Exec, hd, this] at he
    | some tx1 =>
      obtain ⟨hd, _, e1⟩ := Tx.exec_some he
      obtain ⟨h1, h2, h3⟩ := ih (k + 1) tx1
      simp only
      refine ⟨by rw [h1, e1], fun h => ?_, fun _ hf => ?_⟩
      · rw [h2 h, e1]; rfl
      · apply h3
        · rw [e1]; exact hd
        · intro j hj1 hj2
          exact hf j (by omega) (by simp only [List.length_cons]; omega)

theorem firstOrder_setStatus (id : Nat) (s : OrderStatus) (now : Nat) (db : DB) (x : Nat) :
    firstOrder x (setStatus id s now db)
      = (firstOrder x db).map
          (fun o => if o.ID = id then { o with Status := s, UpdatedAt := now } else o) := by
  unfold firstOrder setStatus
  simp only
  rw [find_map_keep (fun o : Order => o.ID)]
  intro a; split <;> rfl

theorem firstOrder_id {id : Nat} {db : DB} {o : Order} (h : firstOrder id db = some o) :
    o.ID = id := by
  unfold firstOrder at h
  simpa using List.find?_some h

/-- What a 200 response of `CancelOrder` means. -/
theorem cancelOrder_ok {fault : Nat → Bool} {now : Nat} {db db' : DB} {user_id : Option Nat}
    {orderID : Nat} (h : CancelOrder fault now db user_id orderID = (db', .ok ())) :
    ∃ order, firstOrder orderID db = some order ∧ user_id = some order.UserID ∧
      order.Status = .pending ∧
      db' = releaseAll (itemsOf orderID db) (setStatus orderID .cancelled now db) := by
  unfold CancelOrder at h
  cases user_id with
  | none => simp at h
  | some userID =>
    simp only at h
    cases hq : (if fault 0 = true then none else firstOrder orderID db) with
    | none => simp [hq] at h
    | some order =>
      simp only [hq] at h
      have hfo : firstOrder orderID db = some order := by
        by_cases hf : fault 0 = true
        · simp [hf] at hq
        · simpa [hf] using hq
      have hid := firstOrder_id hfo
      by_cases hu : order.UserID = userID
      · by_cases hs : order.Status = .pending
        · simp only [hu, hs, ne_eq, not_true_eq_false, if_false] at h
          cases he : (Begin db).Exec (fault 1) (setStatus order.ID .cancelled now) with
          | none => simp [he] at h
          | some tx1 =>
            simp only [he] at h
            obtain ⟨_, _, e1⟩ := Tx.exec_some he
            obtain ⟨_, h2, _⟩ := restoreItems_spec fault (itemsOf order.ID db) 2 tx1
            cases hr : restoreItems fault (itemsOf order.ID db) 2 tx1 with
            | mk tx2 ok =>
              rw [hr] at h2
              cases ok with
              | false => simp [hr] at h
              | true =>
                simp only [hr] at h
                have e2 := h2 rfl
                simp only at e2
                cases hc : tx2.Commit (fault (2 + (itemsOf order.ID db).length)) with
                | mk ok tx3 =>
                  cases ok with
                  | false => simp [hc] at h
                  | true =>
                    simp only [hc, Prod.mk.injEq, and_true] at h
                    obtain ⟨_, _, e3⟩ := Tx.commit_true hc
                    refine ⟨order, hfo, by rw [hu], hs, ?_⟩
                    rw [← h, e3, e2, e1, hid]; rfl
        · simp [hu, hs] at h
      · simp [hu] at h


/-- Handler `CancelOrder` goes through for a pending order of the caller when no
statement fails. -/
theorem cancelOrder_succeeds {fault : Nat → Bool} {now : Nat} {db : DB} {userID orderID : Nat}
    {order : Order} (hfo : firstOrder orderID db = some order) (hu : order.UserID = userID)
    (hs : order.Status = .pending)
    (hf : ∀ k, k < 3 + (itemsOf orderID db).length → fault k = false) :
    CancelOrder fault now db (some userID) orderID
      = (releaseAll (itemsOf orderID db) (setStatus orderID .cancelled now db), .ok ()) := by
  have hid := firstOrder_id hfo
  have f0 := hf 0 (by omega)
  have f1 := hf 1 (by omega)
  have fc := hf (2 + (itemsOf orderID db).length) (by omega)
  obtain ⟨_, h2, h3⟩ := restoreItems_spec fault (itemsOf orderID db) 2
    (Tx.mk db (setStatus orderID .cancelled now db) false)
  have hok := h3 rfl (fun j _ hj2 => hf j (by omega))
  have hres := h2 hok
  unfold CancelOrder
  simp only [f0, hfo, hu, hs, hid, Begin, Tx.Exec, f1, Bool.or_false, Bool.false_eq_true,
    if_false, ne_eq, not_true_eq_false]
  cases hr : restoreItems fault (itemsOf orderID db) 2
      (Tx.mk db (setStatus orderID .cancelled now db) false) with
  | mk tx2 ok =>
    rw [hr] at hok hres
    simp only at hok hres
    subst hok hres
    simp [Tx.Commit, fc]

/-- C6. A successful `CancelOrder` on a pending order sets its status to
cancelled and adds back to each product the quantities of the order's lines naming
it; products no line names, other orders and the order lines are unchanged. -/
theorem cancelOrder_restores_stock (fault : Nat → Bool) (now : Nat) (db db' : DB)
    (user_id : Option Nat) (orderID : Nat)
    (h : CancelOrder fault now db user_id orderID = (db', .ok ())) :
    (∃ o, firstOrder orderID db = some o ∧ o.Status = .pending ∧
      firstOrder orderID db' = some { o with Status := .cancelled, UpdatedAt := now }) ∧
    (∀ pid, stockOf db' pid
      = (stockOf db pid).map (fun s => s + lineQty (itemsOf orderID db) pid)) ∧
    (∀ pid, (∀ it ∈ itemsOf orderID db, it.ProductID ≠ pid) → stockOf db' pid = stockOf db pid) ∧
    (∀ id, id ≠ orderID → firstOrder id db' = firstOrder id db) ∧
    (∀ o ∈ db.orders, o.ID ≠ orderID → o ∈ db'.orders) ∧
    db'.order_items = db.order_items := by
  obtain ⟨order, hfo, _, hs, hdb⟩ := cancelOrder_ok h
  have hid := firstOrder_id hfo
  obtain ⟨hto, hti, _, _⟩ := releaseAll_tables (itemsOf orderID db)
    (setStatus orderID .cancelled now db)
  have horders : db'.orders = (setStatus orderID .cancelled now db).orders := by rw [hdb, hto]
  have hfirst : ∀ id, firstOrder id db' = firstOrder id (setStatus orderID .cancelled now db) := by
    intro id; unfold firstOrder; rw [horders]
  have hstock : ∀ pid, stockOf db' pid
      = (stockOf db pid).map (fun s => s + lineQty (itemsOf orderID db) pid) := by
    intro pid
    rw [hdb, stockOf_releaseAll]
    rw [stockOf_congr (a := setStatus orderID .cancelled now db) (b := db) rfl]
  refine ⟨⟨order, hfo, hs, ?_⟩, hstock, ?_, ?_, ?_, ?_⟩
  · rw [hfirst, firstOrder_setStatus, hfo]
    simp [hid]
  · intro pid hno
    rw [hstock pid]
    have hz : lineQty (itemsOf orderID db) pid = 0 := by
      unfold lineQty
      have : (itemsOf orderID db).filter (fun it => decide (it.ProductID = pid)) = [] := by
        rw [List.filter_eq_nil_iff]
        intro it hit
        simpa using hno it hit
      rw [this]; rfl
    rw [hz]
    cases stockOf db pid <;> simp
  · intro id hne
    rw [hfirst, firstOrder_setStatus]
    cases hq : firstOrder id db with
    | none => rfl
    | some o =>
      have := firstOrder_id hq
      have hne' : ¬ o.ID = orderID := by rw [this]; exact hne
      simp [hne']
  · intro o ho hne
    rw [horders]
    unfold setStatus
    simp only [List.mem_map]
    exact ⟨o, ho, by simp [hne]⟩
  · rw [hdb, hti]; rfl

/-- C7. Cancelling the same pending order twice in a row as its owner: the
first call succeeds; the second, whatever its time, is rejected with
`InvalidState` and leaves the store, so every stock, as the first call left it. -/
theorem cancelOrder_twice (f1 f2 : Nat → Bool) (now1 now2 : Nat) (db : DB)
    (userID orderID : Nat) (order : Order)
    (hfo : firstOrder orderID db = some order) (hu : order.UserID = userID)
    (hs : order.Status = .pending)
    (hf1 : ∀ k, k < 3 + (itemsOf orderID db).length → f1 k = false) (hf2 : f2 0 = false) :
    (CancelOrder f1 now1 db (some userID) orderID).2 = .ok () ∧
    CancelOrder f2 now2 (CancelOrder f1 now1 db (some userID) orderID).1 (some userID) orderID
      = ((CancelOrder f1 now1 db (some userID) orderID).1, .error .InvalidState) := by
  have hid := firstOrder_id hfo
  rw [cancelOrder_succeeds hfo hu hs hf1]
  refine ⟨rfl, ?_⟩
  simp only
  obtain ⟨hto, _, _, _⟩ := releaseAll_tables (itemsOf orderID db)
    (setStatus orderID .cancelled now1 db)
  have hfirst : firstOrder orderID
      (releaseAll (itemsOf orderID db) (setStatus orderID .cancelled now1 db))
      = some { order with Status := .cancelled, UpdatedAt := now1 } := by
    have : firstOrder orderID
        (releaseAll (itemsOf orderID db) (setStatus orderID .cancelled now1 db))
        = firstOrder orderID (setStatus orderID .cancelled now1 db) := by
      unfold firstOrder; rw [hto]
    rw [this, firstOrder_setStatus, hfo]
    simp [hid]
  unfold CancelOrder
  simp [hf2, hfirst, hu]

/-- C8. `CancelOrder` is rejected with `NotFound` when the order is absent,
otherwise with `Forbidden` when the caller is not its owner, otherwise with
`InvalidState` when its status is not pending; in each case the store is as before. -/
theorem cancelOrder_rejections (fault : Nat → Bool) (now : Nat) (db : DB)
    (userID orderID : Nat) :
    (firstOrder orderID db = none →
      CancelOrder fault now db (some userID) orderID = (db, .error .NotFound)) ∧
    (∀ order, fault 0 = false → firstOrder orderID db = some order → order.UserID ≠ userID →
      CancelOrder fault now db (some userID) orderID = (db, .error .Forbidden)) ∧
    (∀ order, fault 0 = false → firstOrder orderID db = some order → order.UserID = userID →
      order.Status ≠ .pending →
      CancelOrder fault now db (some userID) orderID = (db, .error .InvalidState)) := by
  refine ⟨fun hn => ?_, fun order f0 hfo hu => ?_, fun order f0 hfo hu hs => ?_⟩
  · unfold CancelOrder
    simp [hn]
  · unfold CancelOrder
    simp [f0, hfo, hu]
  · unfold CancelOrder
    simp [f0, hfo, hu, hs]


set_option maxRecDepth 100000 in
theorem cancelOrder_restores_stock_witness :
    CancelOrder noFault 1001 orderedDB (some 42) 1
      = ((CancelOrder noFault 1001 orderedDB (some 42) 1).1, .ok ()) ∧
    stockOf (CancelOrder noFault 1001 orderedDB (some 42) 1).1 1 = some 5 ∧
    stockOf (CancelOrder noFault 1001 orderedDB (some 42) 1).1 2 = some 1 :=
  ⟨by decide,
   ((cancelOrder_restores_stock noFault 1001 orderedDB _ (some 42) 1 (by decide)).2.1 1).trans
     (by decide),
   by decide⟩

set_option maxRecDepth 100000 in
theorem cancelOrder_twice_witness :
    (CancelOrder noFault 1001 orderedDB (some 42) 1).2 = .ok () ∧
    CancelOrder noFault 1002 (CancelOrder noFault 1001 orderedDB (some 42) 1).1 (some 42) 1
      = ((CancelOrder noFault 1001 orderedDB (some 42) 1).1, .error .InvalidState) :=
  cancelOrder_twice noFault noFault 1001 1002 orderedDB 42 1 sampleOrder (by decide) rfl rfl
    (fun _ _ => rfl) rfl

set_option maxRecDepth 100000 in
theorem cancelOrder_rejections_witness :
    CancelOrder noFault 1001 orderedDB (some 42) 9 = (orderedDB, .error .NotFound) ∧
    CancelOrder noFault 1001 orderedDB (some 43) 1 = (orderedDB, .error .Forbidden) ∧
    CancelOrder noFault 1001 paidDB (some 42) 1 = (paidDB, .error .InvalidState) :=
  ⟨(cancelOrder_rejections noFault 1001 orderedDB 42 9).1 (by decide),
   (cancelOrder_rejections noFault 1001 orderedDB 43 1).2.1 sampleOrder rfl (by decide)
     (by decide),
   (cancelOrder_rejections noFault 1001 paidDB 42 1).2.2 { sampleOrder with Status := .paid }
     rfl (by decide) rfl (by decide)⟩

/-! ## `CancelExpiredOrders` -/

/-- The stock-restoring loop of the job: it publishes nothing, and it leaves the
transaction either finished (some update failed) or with every line added back. -/
theorem releaseItems_spec (fault : Nat → Bool) (items : List OrderItem) :
    ∀ (k : Nat) (tx : Tx),
      (releaseItems fault items k tx).base = tx.base ∧
      ((releaseItems fault items k tx).done = true ∨
        releaseItems fault items k tx = Tx.mk tx.base (releaseAll items tx.work) tx.done) ∧
      (tx.done = false → (∀ j, k ≤ j → j < k + items.length → fault j = false) →
        releaseItems fault items k tx = Tx.mk tx.base (releaseAll items tx.work) false) := by
  induction items with
  | nil =>
    intro k tx
    exact ⟨rfl, Or.inr rfl, fun hd _ => by rw [← hd]; rfl⟩
  | cons it rest ih =>
    intro k tx
    unfold releaseItems
    cases he : tx.Exec (fault k) (addStock it.ProductID it.Quantity) with
    | none =>
      simp only
      obtain ⟨h1, h2, _⟩ := ih (k + 1) tx.Rollback
      refine ⟨by rw [h1]; rfl, Or.inl ?_, fun hd hf => ?_⟩
      · rcases h2 with h | h
        · exact h
        · rw [h]; rfl
      · have := hf k (le_refl _) (by simp)
        simp [Tx.Exec, hd, this] at he
    | some tx1 =>
      obtain ⟨hd, _, e1⟩ := Tx.exec_some he
      obtain ⟨h1, h2, h3⟩ := ih (k + 1) tx1
      simp only
      refine ⟨by rw [h1, e1], ?_, fun _ hf => ?_⟩
      · rcases h2 with h | h
        · exact Or.inl h
        · right; rw [h, e1]; rfl
      · rw [h3 (by rw [e1]; exact hd)
          (fun j hj1 hj2 => hf j (by omega) (by simp only [List.length_cons]; omega)), e1]
        rfl

/-- The loop of the job: the orders it reports form a sublist of the selected
ones, the committed store is exactly the effect of cancelling those, and without
store errors every selected order is reported. -/
theorem sweepOrders_spec (fault : Nat → Bool) (now : Nat) (sel : List (Order × List OrderItem)) :
    ∀ (k : Nat) (db : DB),
      (sweepOrders fault now sel k db).2.Sublist sel ∧
      (sweepOrders fault now sel k db).1 = cancelAll now (sweepOrders fault now sel k db).2 db ∧
      ((∀ j, k ≤ j → fault j = false) → (sweepOrders fault now sel k db).2 = sel) := by
  induction sel with
  | nil => intro k db; exact ⟨List.Sublist.refl _, rfl, fun _ => rfl⟩
  | cons p rest ih =>
    intro k db
    obtain ⟨order, items⟩ := p
    unfold sweepOrders
    simp only
    cases he : (Begin db).Exec (fault k) (setStatus order.ID .cancelled now) with
    | none =>
      simp only
      obtain ⟨h1, h2, _⟩ := ih (k + 1) db
      refine ⟨List.Sublist.cons _ h1, h2, fun hf => ?_⟩
      have := hf k (le_refl _)
      simp [Tx.Exec, Begin, this] at he
    | some tx1 =>
      obtain ⟨_, _, e1⟩ := Tx.exec_some he
      simp only
      obtain ⟨r1, r2, r3⟩ := releaseItems_spec fault items (k + 1) tx1
      cases hc : (releaseItems fault items (k + 1) tx1).Commit (fault (k + 1 + items.length)) with
      | mk ok tx3 =>
        cases ok with
        | false =>
          simp only
          have hb : tx3.base = db := by rw [Tx.commit_false hc, r1, e1]; rfl
          rw [hb]
          obtain ⟨h1, h2, _⟩ := ih (k + 2 + items.length) db
          refine ⟨List.Sublist.cons _ h1, h2, fun hf => ?_⟩
          have hrel := r3 (by rw [e1]; rfl) (fun j hj _ => hf j (by omega))
          have := hf (k + 1 + items.length) (by omega)
          rw [hrel] at hc
          simp [Tx.Commit, this] at hc
        | true =>
          simp only
          obtain ⟨hnd, _, hb⟩ := Tx.commit_true hc
          have hw : (releaseItems fault items (k + 1) tx1).work
              = releaseAll items (setStatus order.ID .cancelled now db) := by
            rcases r2 with h | h
            · rw [h] at hnd; cases hnd
            · rw [h, e1]; rfl
          rw [hb, hw]
          obtain ⟨h1, h2, h3⟩ := ih (k + 2 + items.length)
            (releaseAll items (setStatus order.ID .cancelled now db))
          refine ⟨List.Sublist.cons₂ _ h1, ?_, fun hf => ?_⟩
          · rw [h2]; rfl
          · rw [h3 (fun j hj => hf j (by omega))]


theorem cancelAll_orders (now : Nat) (done : List (Order × List OrderItem)) :
    ∀ db : DB, (cancelAll now done db).orders
      = db.orders.map (fun o => if o.ID ∈ done.map (fun p => p.1.ID)
          then { o with Status := .cancelled, UpdatedAt := now } else o) := by
  induction done with
  | nil => intro db; simp [cancelAll]
  | cons p rest ih =>
    intro db
    show (cancelAll now rest (releaseAll p.2 (setStatus p.1.ID .cancelled now db))).orders = _
    rw [ih, (releaseAll_tables p.2 _).1]
    unfold setStatus
    simp only [List.map_map, List.map_cons, List.mem_cons]
    apply List.map_congr_left
    intro o _
    simp only [Function.comp]
    by_cases h1 : o.ID = p.1.ID
    · by_cases h2 : o.ID ∈ rest.map (fun p => p.1.ID)
      · simp [h1, h2] at *
      · simp [h1, h2] at *
    · by_cases h2 : o.ID ∈ rest.map (fun p => p.1.ID)
      · simp [h1, h2] at *
      · simp [h1, h2] at *

theorem cancelAll_items (now : Nat) (done : List (Order × List OrderItem)) :
    ∀ db : DB, (cancelAll now done db).order_items = db.order_items := by
  induction done with
  | nil => intro db; rfl
  | cons p rest ih =>
    intro db
    show (cancelAll now rest (releaseAll p.2 (setStatus p.1.ID .cancelled now db))).order_items = _
    rw [ih, (releaseAll_tables p.2 _).2.1]
    rfl

theorem stockOf_cancelAll (now : Nat) (done : List (Order × List OrderItem)) :
    ∀ (db : DB) (pid : Nat), stockOf (cancelAll now done db) pid
      = (stockOf db pid).map (fun s => s + (done.map (fun p => lineQty p.2 pid)).sum) := by
  induction done with
  | nil => intro db pid; simp [cancelAll]
  | cons p rest ih =>
    intro db pid
    show stockOf (cancelAll now rest (releaseAll p.2 (setStatus p.1.ID .cancelled now db))) pid = _
    rw [ih, stockOf_releaseAll,
      stockOf_congr (a := setStatus p.1.ID .cancelled now db) (b := db) rfl]
    cases stockOf db pid with
    | none => rfl
    | some s =>
      simp only [Option.map_some', List.map_cons, List.sum_cons, Option.some.injEq]
      ring

theorem find_of_nodup {α : Type} (key : α → Nat) (l : List α) (h : (l.map key).Nodup)
    (a : α) (ha : a ∈ l) : l.find? (fun x => key x = key a) = some a := by
  induction l with
  | nil => cases ha
  | cons b t ih =>
    rw [List.map_cons, List.nodup_cons] at h
    rcases List.mem_cons.mp ha with rfl | hat
    · simp
    · have hne : ¬ key b = key a := by
        intro c
        exact h.1 (c ▸ List.mem_map_of_mem key hat)
      rw [List.find?_cons]
      simp only [hne, decide_False]
      exact ih h.2 hat

theorem eq_of_nodup_key {α : Type} (key : α → Nat) (l : List α) (h : (l.map key).Nodup)
    (a b : α) (ha : a ∈ l) (hb : b ∈ l) (hk : key a = key b) : a = b := by
  have h1 := find_of_nodup key l h a ha
  have h2 := find_of_nodup key l h b hb
  rw [hk] at h1
  rw [h1] at h2
  exact Option.some.inj h2

theorem mem_expiredOrders {now : Nat} {db : DB} {p : Order × List OrderItem}
    (h : p ∈ expiredOrders now db) :
    p.1 ∈ db.orders ∧ p.1.Status = .pending ∧ p.1.ExpiredAt < now ∧ p.2 = itemsOf p.1.ID db := by
  unfold expiredOrders at h
  rw [List.mem_map] at h
  obtain ⟨o, ho, rfl⟩ := h
  rw [List.mem_filter] at ho
  obtain ⟨ho1, ho2⟩ := ho
  simp only [decide_eq_true_eq] at ho2
  exact ⟨ho1, ho2.1, ho2.2, rfl⟩

/-- What one run of the job does, whatever fails: the orders it reports were
selected, and the committed store is the effect of cancelling exactly those. -/
theorem cancelExpiredOrders_spec (fault : Nat → Bool) (now : Nat) (db : DB) :
    (CancelExpiredOrders fault now db).2.Sublist (expiredOrders now db) ∧
    (CancelExpiredOrders fault now db).1
      = cancelAll now (CancelExpiredOrders fault now db).2 db := by
  unfold CancelExpiredOrders
  by_cases h0 : fault 0 = true
  · simp only [h0, if_true]
    exact ⟨List.nil_sublist _, rfl⟩
  · simp only [h0, if_false]
    obtain ⟨h1, h2, _⟩ := sweepOrders_spec fault now (expiredOrders now db) 1 db
    exact ⟨h1, h2⟩


/-- C9. The expiry job never cancels an order that is not pending or whose expiry
time is not before `now`: under the primary key on `orders`, every such order is
still in the table, unchanged, after a run at `now`, whatever fails; the orders
the run reports as cancelled were all pending with `expired_at < now`; and the
stock of each product grew by the quantities of the lines of the reported orders
only, so nothing is released for the lines of any other order. -/
theorem sweep_spares_unexpired (fault : Nat → Bool) (now : Nat) (db : DB)
    (hpk : (db.orders.map (fun o => o.ID)).Nodup) :
    (∀ o ∈ db.orders, ¬ (o.Status = .pending ∧ o.ExpiredAt < now) →
      o ∈ (CancelExpiredOrders fault now db).1.orders ∧
      firstOrder o.ID (CancelExpiredOrders fault now db).1 = some o) ∧
    (∀ p ∈ (CancelExpiredOrders fault now db).2,
      p.1 ∈ db.orders ∧ p.1.Status = .pending ∧ p.1.ExpiredAt < now ∧
      p.2 = itemsOf p.1.ID db) ∧
    (∀ pid, stockOf (CancelExpiredOrders fault now db).1 pid = (stockOf db pid).map
      (fun s => s + ((CancelExpiredOrders fault now db).2.map
        (fun p => lineQty p.2 pid)).sum)) := by
  obtain ⟨hsub, hdb⟩ := cancelExpiredOrders_spec fault now db
  have hsel : ∀ p ∈ (CancelExpiredOrders fault now db).2,
      p.1 ∈ db.orders ∧ p.1.Status = .pending ∧ p.1.ExpiredAt < now ∧
      p.2 = itemsOf p.1.ID db := fun p hp => mem_expiredOrders (hsub.subset hp)
  refine ⟨fun o ho hno => ?_, hsel, fun pid => ?_⟩
  · have hnot : o.ID ∉ (CancelExpiredOrders fault now db).2.map (fun p => p.1.ID) := by
      intro hmem
      rw [List.mem_map] at hmem
      obtain ⟨p, hp, hid⟩ := hmem
      obtain ⟨h1, h2, h3, _⟩ := hsel p hp
      have : p.1 = o := eq_of_nodup_key (fun o : Order => o.ID) db.orders hpk p.1 o h1 ho hid
      rw [this] at h2 h3
      exact hno ⟨h2, h3⟩
    have horders := cancelAll_orders now (CancelExpiredOrders fault now db).2 db
    rw [← hdb] at horders
    constructor
    · rw [horders, List.mem_map]
      exact ⟨o, ho, by rw [if_neg hnot]⟩
    · unfold firstOrder
      rw [horders, find_map_keep (fun o : Order => o.ID)]
      · rw [find_of_nodup (fun o : Order => o.ID) db.orders hpk o ho]
        simp only [Option.map_some', if_neg hnot]
      · intro a; split <;> rfl
  · rw [hdb]
    exact stockOf_cancelAll now _ db pid

/-- C10. After a run of the expiry job at `now` in which no statement fails,
every order that was pending with `expired_at < now`, however long ago it expired,
is in the table with status cancelled, and the stock of each product has grown by
exactly the quantities of the lines of those orders that name it. -/
theorem sweep_cancels_expired (fault : Nat → Bool) (now : Nat) (db : DB)
    (hf : ∀ k, fault k = false) :
    (CancelExpiredOrders fault now db).2 = expiredOrders now db ∧
    (∀ o ∈ db.orders, o.Status = .pending → o.ExpiredAt < now →
      { o with Status := .cancelled, UpdatedAt := now }
        ∈ (CancelExpiredOrders fault now db).1.orders ∧
      ∃ o', firstOrder o.ID (CancelExpiredOrders fault now db).1 = some o' ∧
        o'.Status = .cancelled) ∧
    (∀ pid, stockOf (CancelExpiredOrders fault now db).1 pid = (stockOf db pid).map
      (fun s => s + ((db.orders.filter (fun o => o.Status = .pending ∧ o.ExpiredAt < now)).map
        (fun o => lineQty (itemsOf o.ID db) pid)).sum)) := by
  have hall : (CancelExpiredOrders fault now db).2 = expiredOrders now db := by
    unfold CancelExpiredOrders
    simp only [hf 0, Bool.false_eq_true, if_false]
    exact (sweepOrders_spec fault now (expiredOrders now db) 1 db).2.2 (fun j _ => hf j)
  obtain ⟨_, hdb⟩ := cancelExpiredOrders_spec fault now db
  rw [hall] at hdb
  have horders := cancelAll_orders now (expiredOrders now db) db
  rw [← hdb] at horders
  refine ⟨hall, fun o ho hs hexp => ?_, fun pid => ?_⟩
  · have hmem : o.ID ∈ (expiredOrders now db).map (fun p => p.1.ID) := by
      unfold expiredOrders
      simp only [List.map_map, List.mem_map, List.mem_filter, Function.comp]
      exact ⟨o, ⟨ho, by simp [hs, hexp]⟩, rfl⟩
    constructor
    · rw [horders, List.mem_map]
      exact ⟨o, ho, by rw [if_pos hmem]⟩
    · unfold firstOrder
      rw [horders, find_map_keep (fun o : Order => o.ID)]
      · cases hq : db.orders.find? (fun a => decide (a.ID = o.ID)) with
        | none =>
          have := List.find?_eq_none.mp hq o ho
          simp at this
        | some o1 =>
          have hid : o1.ID = o.ID := by simpa using List.find?_some hq
          refine ⟨_, rfl, ?_⟩
          have hmem1 : o1.ID ∈ (expiredOrders now db).map (fun p => p.1.ID) := by
            rw [hid]; exact hmem
          simp only [if_pos hmem1]
      · intro a; split <;> rfl
  · rw [hdb, stockOf_cancelAll]
    unfold expiredOrders
    simp only [List.map_map]
    rfl


set_option maxRecDepth 100000 in
theorem sweep_spares_unexpired_witness :
    (twoOrdersDB.orders.map (fun o => o.ID)).Nodup ∧
    ¬ (lateOrder.Status = .pending ∧ lateOrder.ExpiredAt < 5000) ∧
    firstOrder 2 (CancelExpiredOrders noFault 5000 twoOrdersDB).1 = some lateOrder ∧
    stockOf (CancelExpiredOrders noFault 5000 twoOrdersDB).1 1 = some 4 :=
  ⟨by decide, by decide,
   ((sweep_spares_unexpired noFault 5000 twoOrdersDB (by decide)).1 lateOrder (by decide)
     (by decide)).2,
   by decide⟩

set_option maxRecDepth 100000 in
theorem sweep_cancels_expired_witness :
    (CancelExpiredOrders noFault 9999 twoOrdersDB).2
      = [(sampleOrder, sampleLines),
         (lateOrder, [⟨3, 2, 1, "tea", "tea.png", F64.ofInt 10, 1, 7200, 7200⟩])] ∧
    stockOf (CancelExpiredOrders noFault 9999 twoOrdersDB).1 1 = some 5 ∧
    stockOf (CancelExpiredOrders noFault 9999 twoOrdersDB).1 2 = some 1 :=
  ⟨(sweep_cancels_expired noFault 9999 twoOrdersDB (fun _ => rfl)).1.trans (by decide),
   ((sweep_cancels_expired noFault 9999 twoOrdersDB (fun _ => rfl)).2.2 1).trans (by decide),
   ((sweep_cancels_expired noFault 9999 twoOrdersDB (fun _ => rfl)).2.2 2).trans (by decide)⟩

/-! ## Two transactions on one product -/

/-- C5 fails on the code. Product 2 has one unit in stock and two `CreateOrder`
transactions each ask for one unit. When both look the product up before either
updates it, both pass the stock check, both write `1 - 1 = 0` and both commit: two
units are sold out of one and one decrement is lost. Run one after the other, the
second is rejected with `InsufficientStock`. -/
theorem createOrder_interleaving_oversells :
    stockOf sampleDB 2 = some 1 ∧
    (runSchedule [false, true, false, false, true, true]
      (sampleDB, ⟨⟨2, 1⟩, 1000, .start⟩, ⟨⟨2, 1⟩, 1000, .start⟩)).2.1.pc = .committed ∧
    (runSchedule [false, true, false, false, true, true]
      (sampleDB, ⟨⟨2, 1⟩, 1000, .start⟩, ⟨⟨2, 1⟩, 1000, .start⟩)).2.2.pc = .committed ∧
    stockOf (runSchedule [false, true, false, false, true, true]
      (sampleDB, ⟨⟨2, 1⟩, 1000, .start⟩, ⟨⟨2, 1⟩, 1000, .start⟩)).1 2 = some 0 ∧
    (runSchedule [false, false, false, true, true, true]
      (sampleDB, ⟨⟨2, 1⟩, 1000, .start⟩, ⟨⟨2, 1⟩, 1000, .start⟩)).2.2.pc
        = .rejected (.InsufficientStock "cup") := by
  refine ⟨?_, ?_, ?_, ?_, ?_⟩ <;> set_option maxRecDepth 100000 in decide

/-! ## `CancelExpiredOrders`: one failing order -/

theorem releaseItems_done_of_done (fault : Nat → Bool) (items : List OrderItem) :
    ∀ (k : Nat) (tx : Tx), tx.done = true → (releaseItems fault items k tx).done = true := by
  induction items with
  | nil => intro k tx hd; exact hd
  | cons it rest ih =>
    intro k tx hd
    unfold releaseItems
    have he : tx.Exec (fault k) (addStock it.ProductID it.Quantity) = none := by
      simp [Tx.Exec, hd]
    rw [he]
    exact ih (k + 1) tx.Rollback rfl

/-- When one of the stock updates of an order fails, the loop over its lines ends
on a finished transaction. -/
theorem releaseItems_done_of_fault (fault : Nat → Bool) (items : List OrderItem) :
    ∀ (k : Nat) (tx : Tx), (∃ j, k ≤ j ∧ j < k + items.length ∧ fault j = true) →
      (releaseItems fault items k tx).done = true := by
  induction items with
  | nil =>
    intro k tx h
    obtain ⟨j, h1, h2, _⟩ := h
    simp at h2
    omega
  | cons it rest ih =>
    intro k tx h
    obtain ⟨j, h1, h2, h3⟩ := h
    unfold releaseItems
    cases he : tx.Exec (fault k) (addStock it.ProductID it.Quantity) with
    | none => exact releaseItems_done_of_done fault rest (k + 1) tx.Rollback rfl
    | some tx1 =>
      obtain ⟨_, hk, _⟩ := Tx.exec_some he
      have hne : j ≠ k := by
        intro c
        rw [c, hk] at h3
        cases h3
      exact ih (k + 1) tx1 ⟨j, by omega, by simp only [List.length_cons] at h2; omega, h3⟩

/-- An order all of whose statements go through is cancelled and reported. -/
theorem sweepOrders_cons_ok (fault : Nat → Bool) (now : Nat) (p : Order × List OrderItem)
    (rest : List (Order × List OrderItem)) (k : Nat) (db : DB)
    (hf : ∀ j, k ≤ j → j < k + (2 + p.2.length) → fault j = false) :
    sweepOrders fault now (p :: rest) k db
      = ((sweepOrders fault now rest (k + (2 + p.2.length))
            (releaseAll p.2 (setStatus p.1.ID .cancelled now db))).1,
         p :: (sweepOrders fault now rest (k + (2 + p.2.length))
            (releaseAll p.2 (setStatus p.1.ID .cancelled now db))).2) := by
  obtain ⟨order, items⟩ := p
  have f0 := hf k (le_refl _) (by omega)
  have fc := hf (k + 1 + items.length) (by omega) (by simp only; omega)
  have hrel := (releaseItems_spec fault items (k + 1)
    (Tx.mk db (setStatus order.ID .cancelled now db) false)).2.2 rfl
    (fun j hj1 hj2 => hf j (by omega) (by simp only; omega))
  conv_lhs => unfold sweepOrders
  simp only [Begin, Tx.Exec, f0, Bool.or_false, Bool.false_eq_true, if_false]
  rw [hrel]
  simp only [Tx.Commit, fc, Bool.or_false, Bool.false_eq_true, if_false]
  have e : k + 2 + items.length = k + (2 + items.length) := by omega
  rw [e]

/-- An order whose status update fails, or one of whose stock updates fails, is
skipped: the store is as before it and the order is not reported. -/
theorem sweepOrders_cons_fail (fault : Nat → Bool) (now : Nat) (p : Order × List OrderItem)
    (rest : List (Order × List OrderItem)) (k : Nat) (db : DB) :
    (fault k = true →
      sweepOrders fault now (p :: rest) k db = sweepOrders fault now rest (k + 1) db) ∧
    (fault k = false → (∃ j, k < j ∧ j < k + 1 + p.2.length ∧ fault j = true) →
      sweepOrders fault now (p :: rest) k db
        = sweepOrders fault now rest (k + (2 + p.2.length)) db) := by
  obtain ⟨order, items⟩ := p
  constructor
  · intro hk
    conv_lhs => unfold sweepOrders
    simp [Begin, Tx.Exec, hk, Tx.Rollback]
  · intro hk hj
    obtain ⟨j, h1, h2, h3⟩ := hj
    have hdone := releaseItems_done_of_fault fault items (k + 1)
      (Tx.mk db (setStatus order.ID .cancelled now db) false)
      ⟨j, by omega, by simp only at h2; omega, h3⟩
    have hbase := (releaseItems_spec fault items (k + 1)
      (Tx.mk db (setStatus order.ID .cancelled now db) false)).1
    conv_lhs => unfold sweepOrders
    simp only [Begin, Tx.Exec, hk, Bool.or_false, Bool.false_eq_true, if_false]
    simp only [Tx.Commit, hdone, Bool.true_or, if_true, hbase]
    have e : k + 2 + items.length = k + (2 + items.length) := by omega
    rw [e]

theorem sweepCost_cons (p : Order × List OrderItem) (rest : List (Order × List OrderItem)) :
    sweepCost (p :: rest) = (2 + p.2.length) + sweepCost rest := by
  simp [sweepCost]

/-- The orders handled before the failing one, none of whose statements fails,
are all cancelled and reported. -/
theorem sweepOrders_clean_front (fault : Nat → Bool) (now : Nat)
    (rest : List (Order × List OrderItem)) :
    ∀ (pre : List (Order × List OrderItem)) (k : Nat) (db : DB),
      (∀ j, k ≤ j → j < k + sweepCost pre → fault j = false) →
      sweepOrders fault now (pre ++ rest) k db
        = ((sweepOrders fault now rest (k + sweepCost pre) (cancelAll now pre db)).1,
           pre ++ (sweepOrders fault now rest (k + sweepCost pre) (cancelAll now pre db)).2) := by
  intro pre
  induction pre with
  | nil => intro k db _; simp [sweepCost, cancelAll]
  | cons p pre ih =>
    intro k db hf
    rw [sweepCost_cons] at hf
    rw [List.cons_append, sweepOrders_cons_ok fault now p (pre ++ rest) k db
      (fun j h1 h2 => hf j h1 (by omega))]
    rw [ih (k + (2 + p.2.length)) _ (fun j h1 h2 => hf j (by omega) (by omega))]
    have e : k + (2 + p.2.length) + sweepCost pre = k + sweepCost (p :: pre) := by
      rw [sweepCost_cons]; omega
    rw [e]
    rfl


theorem cancelAll_append (now : Nat) (a b : List (Order × List OrderItem)) (db : DB) :
    cancelAll now (a ++ b) db = cancelAll now b (cancelAll now a db) := by
  simp [cancelAll, List.foldl_append]

/-- The run of the job when the statements of exactly one selected order fail:
the store and the report are those of cancelling all the other selected orders. -/
theorem sweep_skips_failing (fault : Nat → Bool) (now : Nat) (db : DB)
    (pre : List (Order × List OrderItem)) (p : Order × List OrderItem)
    (suf : List (Order × List OrderItem))
    (hsel : expiredOrders now db = pre ++ p :: suf)
    (hpre : ∀ j, j < 1 + sweepCost pre → fault j = false)
    (hfail : (fault (1 + sweepCost pre) = true ∧ ∀ j, 1 + sweepCost pre < j → fault j = false) ∨
      (fault (1 + sweepCost pre) = false ∧
        (∃ j, 1 + sweepCost pre < j ∧ j < 2 + sweepCost pre + p.2.length ∧ fault j = true) ∧
        ∀ j, 3 + sweepCost pre + p.2.length ≤ j → fault j = false)) :
    CancelExpiredOrders fault now db = (cancelAll now (pre ++ suf) db, pre ++ suf) := by
  unfold CancelExpiredOrders
  simp only [hpre 0 (by omega), Bool.false_eq_true, if_false]
  rw [hsel, sweepOrders_clean_front fault now (p :: suf) pre 1 db
    (fun j _ h2 => hpre j h2)]
  have tail : ∀ k, (∀ j, k ≤ j → fault j = false) →
      sweepOrders fault now suf k (cancelAll now pre db)
        = (cancelAll now (pre ++ suf) db, suf) := by
    intro k hk
    obtain ⟨_, h2, h3⟩ := sweepOrders_spec fault now suf k (cancelAll now pre db)
    have h3' := h3 hk
    rw [h3'] at h2
    rw [cancelAll_append]
    exact Prod.ext h2 h3'
  rcases hfail with ⟨h1, h2⟩ | ⟨h1, h2, h3⟩
  · rw [(sweepOrders_cons_fail fault now p suf (1 + sweepCost pre) (cancelAll now pre db)).1 h1,
      tail _ (fun j hj => h2 j (by omega))]
  · obtain ⟨j, hj1, hj2, hj3⟩ := h2
    rw [(sweepOrders_cons_fail fault now p suf (1 + sweepCost pre) (cancelAll now pre db)).2 h1
        ⟨j, hj1, by omega, hj3⟩,
      tail _ (fun j hj => h3 j (by omega))]

/-- C12. In a run of the expiry job each selected order has its own transaction and
a failure stays with its order: when the status update of one selected order
fails, or the stock update of one of its lines, and no statement of another order
fails, that order is still in the table unchanged (so still pending), every other
selected order is cancelled, and each product's stock has grown by the quantities
of the lines of those other orders only. -/
theorem sweep_isolates_failure (fault : Nat → Bool) (now : Nat) (db : DB)
    (pre : List (Order × List OrderItem)) (p : Order × List OrderItem)
    (suf : List (Order × List OrderItem))
    (hpk : (db.orders.map (fun o => o.ID)).Nodup)
    (hsel : expiredOrders now db = pre ++ p :: suf)
    (hpre : ∀ j, j < 1 + sweepCost pre → fault j = false)
    (hfail : (fault (1 + sweepCost pre) = true ∧ ∀ j, 1 + sweepCost pre < j → fault j = false) ∨
      (fault (1 + sweepCost pre) = false ∧
        (∃ j, 1 + sweepCost pre < j ∧ j < 2 + sweepCost pre + p.2.length ∧ fault j = true) ∧
        ∀ j, 3 + sweepCost pre + p.2.length ≤ j → fault j = false)) :
    (CancelExpiredOrders fault now db).2 = pre ++ suf ∧
    (p.1 ∈ (CancelExpiredOrders fault now db).1.orders ∧
      firstOrder p.1.ID (CancelExpiredOrders fault now db).1 = some p.1 ∧
      p.1.Status = .pending) ∧
    (∀ q ∈ pre ++ suf, ∃ o', firstOrder q.1.ID (CancelExpiredOrders fault now db).1 = some o' ∧
      o'.Status = .cancelled) ∧
    (∀ pid, stockOf (CancelExpiredOrders fault now db).1 pid = (stockOf db pid).map
      (fun s => s + ((pre ++ suf).map (fun q => lineQty q.2 pid)).sum)) := by
  rw [sweep_skips_failing fault now db pre p suf hsel hpre hfail]
  have hmem : ∀ q ∈ pre ++ p :: suf, q.1 ∈ db.orders ∧ q.1.Status = .pending ∧
      q.1.ExpiredAt < now ∧ q.2 = itemsOf q.1.ID db := by
    intro q hq
    rw [← hsel] at hq
    exact mem_expiredOrders hq
  have hp := hmem p (by simp)
  have hids : ((pre ++ p :: suf).map (fun q => q.1.ID)).Nodup := by
    rw [← hsel]
    unfold expiredOrders
    rw [List.map_map]
    exact List.Nodup.sublist (List.Sublist.map _ (List.filter_sublist _)) hpk
  have hnot : p.1.ID ∉ (pre ++ suf).map (fun q => q.1.ID) := by
    rw [List.map_append, List.map_cons, List.nodup_middle, List.nodup_cons] at hids
    rw [List.map_append]
    exact hids.1
  have horders := cancelAll_orders now (pre ++ suf) db
  refine ⟨rfl, ⟨?_, ?_, hp.2.1⟩, fun q hq => ?_, fun pid => stockOf_cancelAll now _ db pid⟩
  · rw [horders, List.mem_map]
    exact ⟨p.1, hp.1, by rw [if_neg hnot]⟩
  · unfold firstOrder
    rw [horders, find_map_keep (fun o : Order => o.ID)]
    · rw [find_of_nodup (fun o : Order => o.ID) db.orders hpk p.1 hp.1]
      simp only [Option.map_some', if_neg hnot]
    · intro a; split <;> rfl
  · have hq' : q ∈ pre ++ p :: suf := by
      rcases List.mem_append.mp hq with h | h
      · exact List.mem_append.mpr (Or.inl h)
      · exact List.mem_append.mpr (Or.inr (List.mem_cons_of_mem _ h))
    have hqo := (hmem q hq').1
    have hin : q.1.ID ∈ (pre ++ suf).map (fun q => q.1.ID) := List.mem_map_of_mem _ hq
    unfold firstOrder
    rw [horders, find_map_keep (fun o : Order => o.ID)]
    · rw [find_of_nodup (fun o : Order => o.ID) db.orders hpk q.1 hqo]
      refine ⟨_, rfl, ?_⟩
      simp only [if_pos hin]
    · intro a; split <;> rfl


set_option maxRecDepth 100000 in
theorem sweep_isolates_failure_witness :
    (CancelExpiredOrders (fun k => k == 3) 9999 twoOrdersDB).2
      = [(lateOrder, [⟨3, 2, 1, "tea", "tea.png", F64.ofInt 10, 1, 7200, 7200⟩])] ∧
    firstOrder 1 (CancelExpiredOrders (fun k => k == 3) 9999 twoOrdersDB).1 = some sampleOrder ∧
    stockOf (CancelExpiredOrders (fun k => k == 3) 9999 twoOrdersDB).1 1 = some 3 ∧
    stockOf (CancelExpiredOrders (fun k => k == 3) 9999 twoOrdersDB).1 2 = some 0 :=
  have h := sweep_isolates_failure (fun k => k == 3) 9999 twoOrdersDB []
    (sampleOrder, sampleLines)
    [(lateOrder, [⟨3, 2, 1, "tea", "tea.png", F64.ofInt 10, 1, 7200, 7200⟩])]
    (by decide) (by decide)
    (by intro j hj; have : j = 0 := by simp [sweepCost] at hj; omega
        subst this; rfl)
    (Or.inr ⟨by decide, ⟨3, by decide, by decide, by decide⟩,
      by intro j hj; simp [sweepCost, sampleLines] at hj; simp; omega⟩)
  ⟨h.1, h.2.1.2.1, (h.2.2.2 1).trans (by decide), (h.2.2.2 2).trans (by decide)⟩

/-! ## Payments: store primitives -/

theorem insertPayment_some {p row : Payment} {db db1 : DB}
    (h : insertPayment p db = some (row, db1)) :
    row = { p with ID := nextID (db.payments.map (fun x => x.ID)) } ∧
      db1 = { db with payments := db.payments ++ [row.stored] } := by
  unfold insertPayment at h
  cases ha : db.payments.any (fun x => decide (x.PaymentNumber = p.PaymentNumber)) with
  | true => simp [ha] at h
  | false =>
    simp only [ha, Bool.false_eq_true, if_false, Option.some.injEq, Prod.mk.injEq] at h
    obtain ⟨h1, h2⟩ := h
    subst h1
    exact ⟨rfl, h2.symm⟩

theorem firstPayment_id {id : Nat} {db : DB} {p : Payment} (h : firstPayment id db = some p) :
    p.ID = id := by
  unfold firstPayment at h
  simpa using List.find?_some h

/-- Saving a payment read from the table under a non-zero key rewrites the rows
with that key and nothing else. -/
theorem savePayment_existing {p q : Payment} {db : DB} (hq : q ∈ db.payments)
    (hid : q.ID = p.ID) (h0 : p.ID ≠ 0) :
    savePayment p db
      = some { db with payments := db.payments.map (fun x => if x.ID = p.ID then p else x) } := by
  unfold savePayment
  have hany : db.payments.any (fun x => decide (x.ID = p.ID)) = true := by
    rw [List.any_eq_true]
    exact ⟨q, hq, by simpa using hid⟩
  simp only [h0, if_false, hany, if_true]

theorem firstPayment_replace (p : Payment) (l : List Payment) (id : Nat) :
    (l.map (fun x => if x.ID = p.ID then p else x)).find? (fun x => x.ID = id)
      = (l.find? (fun x => x.ID = id)).map (fun x => if x.ID = p.ID then p else x) := by
  apply find_map_keep (fun x : Payment => x.ID)
  intro a
  by_cases h : a.ID = p.ID
  · simp [h]
  · simp [h]

theorem chargeDispatch_db (ext : Providers) (db : DB) (p : Payment) (r : Option Nat) :
    (chargeDispatch ext db p r).db = db ∧ (chargeDispatch ext db p r).reaper = r := by
  unfold chargeDispatch
  split <;> exact ⟨rfl, rfl⟩

/-- The three ways a bound `Charge` call can go: it finds a payment of the order
and goes on with it; it finds none, stores a new one and goes on with that; or it
is rejected before, with the store untouched. -/
theorem charge_cases (fault : Nat → Bool) (now : Nat) (ext : Providers) (db : DB) (req : PayAo) :
    (∃ o payment, firstOrder req.OrderId db = some o ∧
      firstPaymentOfOrder req.OrderId db = some payment ∧
      Charge fault now ext db (some req) = chargeDispatch ext db payment none) ∨
    (∃ o row db1, firstOrder req.OrderId db = some o ∧
      firstPaymentOfOrder req.OrderId db = none ∧
      insertPayment (newPayment now ext req) db = some (row, db1) ∧
      Charge fault now ext db (some req) = chargeDispatch ext db1 row (some row.ID)) ∨
    (∃ e, Charge fault now ext db (some req) = ⟨db, .error e, none, none⟩) := by
  cases hf0 : fault 0 with
  | true => right; right; exact ⟨.OrderNotFound, by simp [Charge, hf0]⟩
  | false =>
    cases hfo : firstOrder req.OrderId db with
    | none => right; right; exact ⟨.OrderNotFound, by simp [Charge, hf0, hfo]⟩
    | some o =>
      cases hf1 : fault 1 with
      | true => right; right; exact ⟨.NetworkUnstable, by simp [Charge, hf0, hfo, hf1]⟩
      | false =>
        cases hp : firstPaymentOfOrder req.OrderId db with
        | some payment =>
          left
          exact ⟨o, payment, rfl, rfl, by simp [Charge, hf0, hfo, hf1, hp]⟩
        | none =>
          cases hf2 : fault 2 with
          | true =>
            right; right
            exact ⟨.NetworkUnstable, by simp [Charge, hf0, hfo, hf1, hp, hf2]⟩
          | false =>
            cases hi : insertPayment (newPayment now ext req) db with
            | none =>
              right; right
              exact ⟨.NetworkUnstable, by simp [Charge, hf0, hfo, hf1, hp, hf2, hi]⟩
            | some r =>
              obtain ⟨row, db1⟩ := r
              right; left
              exact ⟨o, row, db1, rfl, rfl, rfl, by simp [Charge, hf0, hfo, hf1, hp, hf2, hi]⟩

/-- What `Charge` does to the store: nothing, or it appends the one new payment
built from the request, as the table holds it, and then the order had no payment
before. -/
theorem charge_db (fault : Nat → Bool) (now : Nat) (ext : Providers) (db : DB)
    (body : Option PayAo) :
    (Charge fault now ext db body).db = db ∨
    ∃ (req : PayAo) (row : Payment), body = some req ∧
      firstPaymentOfOrder req.OrderId db = none ∧
      row = { newPayment now ext req with ID := nextID (db.payments.map (fun x => x.ID)) } ∧
      (Charge fault now ext db body).db
        = { db with payments := db.payments ++ [row.stored] } ∧
      (Charge fault now ext db body).reaper = some row.ID := by
  cases body with
  | none => exact Or.inl rfl
  | some req =>
    rcases charge_cases fault now ext db req with ⟨o, payment, _, _, hc⟩ |
      ⟨o, row, db1, _, hp, hins, hc⟩ | ⟨e, hc⟩
    · left; rw [hc]; exact (chargeDispatch_db ext db payment none).1
    · obtain ⟨hrow, hdb1⟩ := insertPayment_some hins
      right
      refine ⟨req, row, rfl, hp, hrow, ?_, ?_⟩
      · rw [hc, (chargeDispatch_db ext db1 row (some row.ID)).1, hdb1]
      · rw [hc, (chargeDispatch_db ext db1 row (some row.ID)).2]
    · left; rw [hc]

theorem chargeDispatch_payment {ext : Providers} {db : DB} {payment p : Payment}
    {r : Option Nat} (h : (chargeDispatch ext db payment r).payment = some p) :
    p = payment ∧ payment.Status = .pending ∧
      (chargeDispatch ext db payment r).resp = PayService ext payment := by
  unfold chargeDispatch at h ⊢
  by_cases hs : payment.Status = .pending
  · simp only [hs, ne_eq, not_true_eq_false, if_false, Option.some.injEq] at h ⊢
    exact ⟨h.symm, trivial, trivial⟩
  · simp [hs] at h

/-- What it means that `Charge` handed a payment to `PayService`. -/
theorem charge_payment_some {fault : Nat → Bool} {now : Nat} {ext : Providers} {db : DB}
    {req : PayAo} {p : Payment}
    (h : (Charge fault now ext db (some req)).payment = some p) :
    (∃ o, firstOrder req.OrderId db = some o) ∧ p.Status = .pending ∧
      p.OrderID = req.OrderId ∧
      (firstPaymentOfOrder req.OrderId (Charge fault now ext db (some req)).db = some p ∨
        firstPaymentOfOrder req.OrderId (Charge fault now ext db (some req)).db
          = some p.stored) ∧
      (Charge fault now ext db (some req)).db.orders = db.orders ∧
      (Charge fault now ext db (some req)).resp = PayService ext p := by
  rcases charge_cases fault now ext db req with ⟨o, payment, hfo, hp, hc⟩ |
    ⟨o, row, db1, hfo, hp, hins, hc⟩ | ⟨e, hc⟩
  · rw [hc] at h ⊢
    obtain ⟨h1, h2, h3⟩ := chargeDispatch_payment h
    subst h1
    have hoid : p.OrderID = req.OrderId := by
      unfold firstPaymentOfOrder at hp
      simpa using List.find?_some hp
    rw [(chargeDispatch_db ext db p none).1]
    exact ⟨⟨o, hfo⟩, h2, hoid, Or.inl hp, rfl, h3⟩
  · rw [hc] at h ⊢
    obtain ⟨h1, h2, h3⟩ := chargeDispatch_payment h
    subst h1
    obtain ⟨hrow, hdb1⟩ := insertPayment_some hins
    have hoid : p.OrderID = req.OrderId := by rw [hrow]; rfl
    rw [(chargeDispatch_db ext db1 p (some p.ID)).1]
    refine ⟨⟨o, hfo⟩, h2, hoid, Or.inr ?_, by rw [hdb1], h3⟩
    have hoid' : p.stored.OrderID = req.OrderId := hoid
    unfold firstPaymentOfOrder at hp ⊢
    rw [hdb1]
    simp only
    rw [List.find?_append, hp]
    simp [hoid']
  · rw [hc] at h
    simp at h

/-! ## `Charge` -/

/-- One `Charge` call keeps every order at one pending payment at most. -/
theorem charge_keeps_onePending (fault : Nat → Bool) (now : Nat) (ext : Providers) (db : DB)
    (body : Option PayAo) (h : OnePending db) :
    OnePending (Charge fault now ext db body).db := by
  rcases charge_db fault now ext db body with hsame | ⟨req, row, _, hp, hrow, hdb, _⟩
  · rw [hsame]; exact h
  · intro oid
    rw [hdb]
    unfold pendingOf
    simp only [List.filter_append]
    by_cases ho : req.OrderId = oid
    · have hnone : db.payments.filter
          (fun p => decide (p.OrderID = oid ∧ p.Status = .pending)) = [] := by
        rw [List.filter_eq_nil_iff]
        intro x hx
        unfold firstPaymentOfOrder at hp
        have := List.find?_eq_none.mp hp x hx
        simp only [decide_eq_true_eq] at this
        simp only [decide_eq_true_eq, not_and]
        intro c
        exact absurd (c.trans ho.symm) this
      rw [hnone, List.nil_append]
      exact List.length_filter_le _ [row.stored]
    · have hrowid : row.stored.OrderID = req.OrderId := by rw [hrow]; rfl
      have hnot : ¬ (row.stored.OrderID = oid ∧ row.stored.Status = .pending) := by
        intro c
        exact ho (hrowid ▸ c.1)
      have : [row.stored].filter
          (fun p => decide (p.OrderID = oid ∧ p.Status = .pending)) = [] := by
        simp [List.filter_cons, hnot]
      rw [this, List.append_nil]
      exact h oid

/-- A `Charge` call that finds the order and a payment of it goes on with that payment. -/
theorem charge_found {fault : Nat → Bool} {now : Nat} {ext : Providers} {db : DB} {req : PayAo}
    {o : Order} {payment : Payment} (hf0 : fault 0 = false) (hf1 : fault 1 = false)
    (hfo : firstOrder req.OrderId db = some o)
    (hp : firstPaymentOfOrder req.OrderId db = some payment) :
    Charge fault now ext db (some req) = chargeDispatch ext db payment none := by
  simp [Charge, hf0, hf1, hfo, hp]

/-- C13. `Charge` twice in a row on the same order: when the first call got as far
as handing a payment to the provider flow, the second call, whatever its method,
amount and fresh UUID, hands over the very same payment, read from the table (so
with the amount as the column keeps it when the first call had just created it),
hence the same payment number, creates no payment record and starts no timer. And
along any sequence of `Charge` calls no order ever has two pending payments. -/
theorem charge_reuses_pending (f1 f2 : Nat → Bool) (now1 now2 : Nat) (ext1 ext2 : Providers)
    (db : DB) (req1 req2 : PayAo) (p1 : Payment)
    (h1 : (Charge f1 now1 ext1 db (some req1)).payment = some p1)
    (hsame : req2.OrderId = req1.OrderId) (hf0 : f2 0 = false) (hf1 : f2 1 = false) :
    (((Charge f2 now2 ext2 (Charge f1 now1 ext1 db (some req1)).db (some req2)).payment
          = some p1 ∨
        (Charge f2 now2 ext2 (Charge f1 now1 ext1 db (some req1)).db (some req2)).payment
          = some p1.stored) ∧
      (Charge f2 now2 ext2 (Charge f1 now1 ext1 db (some req1)).db (some req2)).db
        = (Charge f1 now1 ext1 db (some req1)).db ∧
      (Charge f2 now2 ext2 (Charge f1 now1 ext1 db (some req1)).db (some req2)).reaper = none ∧
      ((Charge f2 now2 ext2 (Charge f1 now1 ext1 db (some req1)).db (some req2)).payment).map
          (fun p => p.PaymentNumber) = some p1.PaymentNumber) ∧
    (∀ (calls : List ChargeCall) (db0 : DB), OnePending db0 → OnePending (chargeAll calls db0)) := by
  constructor
  · obtain ⟨⟨o, hfo⟩, hs, _, hp, horders, _⟩ := charge_payment_some h1
    have hfo1 : firstOrder req2.OrderId (Charge f1 now1 ext1 db (some req1)).db = some o := by
      unfold firstOrder at hfo ⊢
      rw [horders, hsame]; exact hfo
    rw [← hsame] at hp
    have hs' : p1.stored.Status = .pending := hs
    rcases hp with hp | hp
    · rw [charge_found hf0 hf1 hfo1 hp]
      unfold chargeDispatch
      simp [hs]
    · have hn : p1.stored.PaymentNumber = p1.PaymentNumber := rfl
      rw [charge_found hf0 hf1 hfo1 hp]
      unfold chargeDispatch
      simp [hs', hn]
  · intro calls
    induction calls with
    | nil => intro db0 h; exact h
    | cons c rest ih =>
      intro db0 h
      exact ih _ (charge_keeps_onePending c.fault c.now c.ext db0 c.body h)

set_option maxRecDepth 100000 in
theorem charge_reuses_pending_witness :
    (Charge noFault 1100 sampleProviders orderedDB (some ⟨1, 42, F64.ofInt 25, "alipay"⟩)).payment
      = some samplePayment ∧
    (Charge noFault 1200 { sampleProviders with uuid := "pay-0002" }
      (Charge noFault 1100 sampleProviders orderedDB (some ⟨1, 42, F64.ofInt 25, "alipay"⟩)).db
      (some ⟨1, 42, F64.ofInt 25, "wechat"⟩)).payment = some samplePayment ∧
    (Charge noFault 1200 { sampleProviders with uuid := "pay-0002" }
      (Charge noFault 1100 sampleProviders orderedDB (some ⟨1, 42, F64.ofInt 25, "alipay"⟩)).db
      (some ⟨1, 42, F64.ofInt 25, "wechat"⟩)).db.payments = [samplePayment] :=
  have h := (charge_reuses_pending noFault noFault 1100 1200 sampleProviders
    { sampleProviders with uuid := "pay-0002" } orderedDB ⟨1, 42, F64.ofInt 25, "alipay"⟩
    ⟨1, 42, F64.ofInt 25, "wechat"⟩ samplePayment (by decide) rfl rfl rfl).1
  ⟨by decide, by decide, by rw [h.2.1]; decide⟩

/-- C14 (as stated) fails: a request carrying the amount 1.00 for an order whose total
is 25.00 is accepted, and the payment record created holds 1.00. -/
theorem charge_amount_not_order_total :
    (firstOrder 1 orderedDB).map (fun o => o.TotalAmount) = some (F64.ofInt 25) ∧
    (Charge noFault 1100 sampleProviders orderedDB (some ⟨1, 42, F64.ofInt 1, "alipay"⟩)).resp
      = .alipayLink "https://alipay.example/pay-0001" ∧
    (Charge noFault 1100 sampleProviders orderedDB
      (some ⟨1, 42, F64.ofInt 1, "alipay"⟩)).db.payments.map (fun p => (p.OrderID, p.Amount))
      = [(1, F64.ofInt 1)] ∧
    F64.ofInt 1 ≠ F64.ofInt 25 := by
  refine ⟨?_, ?_, ?_, ?_⟩ <;> set_option maxRecDepth 100000 in decide

/-- C14 (amended). Every payment record created by `Charge` references the order
named in the request and has the amount the request body carries, as the
`decimal(10,2)` column keeps it, rounded to 2 decimals; the total of the order is
not looked at. A call creates one record at most. -/
theorem charge_amount_from_request (fault : Nat → Bool) (now : Nat) (ext : Providers)
    (db : DB) (req : PayAo) :
    (Charge fault now ext db (some req)).db = db ∨
    ∃ row, (Charge fault now ext db (some req)).db
        = { db with payments := db.payments ++ [row] } ∧
      row.OrderID = req.OrderId ∧ row.Amount = F64.decimal2 req.Amount := by
  rcases charge_db fault now ext db (some req) with hsame | ⟨req', row, hreq, _, hrow, hdb, _⟩
  · exact Or.inl hsame
  · have : req' = req := by simpa using hreq.symm
    subst this
    exact Or.inr ⟨row.stored, hdb, by rw [hrow]; rfl, by rw [hrow]; rfl⟩

/-! ## `AlipayNotify` and `checkAndCancelPayment` -/

/-- After the rows with the key of `p` are rewritten to `p`, a lookup by that key
finds `p`, and a lookup by another key finds what it found before. -/
theorem firstPayment_after_save {p q : Payment} {db : DB} (hq : q ∈ db.payments)
    (hid : q.ID = p.ID) :
    (firstPayment p.ID
        { db with payments := db.payments.map (fun x => if x.ID = p.ID then p else x) } = some p) ∧
    (∀ id, id ≠ p.ID → firstPayment id
        { db with payments := db.payments.map (fun x => if x.ID = p.ID then p else x) }
        = firstPayment id db) ∧
    (∀ x ∈ db.payments, x.ID ≠ p.ID → x ∈ db.payments.map (fun x => if x.ID = p.ID then p else x)) := by
  refine ⟨?_, fun id hne => ?_, fun x hx hne => ?_⟩
  · unfold firstPayment
    simp only
    rw [firstPayment_replace]
    cases hf : db.payments.find? (fun x => decide (x.ID = p.ID)) with
    | none =>
      have := List.find?_eq_none.mp hf q hq
      simp [hid] at this
    | some y =>
      have hy : y.ID = p.ID := by simpa using List.find?_some hf
      simp [hy]
  · unfold firstPayment
    simp only
    rw [firstPayment_replace]
    cases hf : db.payments.find? (fun x => decide (x.ID = id)) with
    | none => rfl
    | some y =>
      have hy : y.ID = id := by simpa using List.find?_some hf
      have : ¬ y.ID = p.ID := by rw [hy]; exact hne
      simp [this]
  · rw [List.mem_map]
    exact ⟨x, hx, by simp [hne]⟩

theorem firstPaymentByNumber_mem {no : String} {db : DB} {p : Payment}
    (h : firstPaymentByNumber no db = some p) : p ∈ db.payments ∧ p.PaymentNumber = no := by
  unfold firstPaymentByNumber at h
  exact ⟨List.mem_of_find?_eq_some h, by simpa using List.find?_some h⟩

theorem firstPayment_mem {id : Nat} {db : DB} {p : Payment}
    (h : firstPayment id db = some p) : p ∈ db.payments := by
  unfold firstPayment at h
  exact List.mem_of_find?_eq_some h

/-- An accepted notification whose payment is found, with the store answering:
the payment is saved as paid, stamped with the current time, whatever its status
was. -/
theorem alipayNotify_accepted {fault : Nat → Bool} {now : Nat} {db : DB} {form : AlipayForm}
    {payment : Payment} (hsig : form.signOK = true) (hno : form.out_trade_no ≠ "")
    (hst : form.trade_status = "TRADE_SUCCESS" ∨ form.trade_status = "TRADE_FINISHED")
    (hpay : firstPaymentByNumber form.out_trade_no db = some payment)
    (hid : payment.ID ≠ 0) (hf0 : fault 0 = false) (hf1 : fault 1 = false) :
    AlipayNotify fault now db (some form)
      = ({ db with payments := db.payments.map (fun x => if x.ID = payment.ID then
            { payment with Status := .paid, PaidAt := some now, UpdatedAt := now } else x) },
         .success) := by
  have hmem := (firstPaymentByNumber_mem hpay).1
  have hsave := savePayment_existing
    (p := { payment with Status := .paid, PaidAt := some now, UpdatedAt := now })
    hmem rfl hid
  have hts : ¬ (form.trade_status ≠ "TRADE_SUCCESS" ∧ form.trade_status ≠ "TRADE_FINISHED") := by
    rcases hst with h | h <;> simp [h]
  unfold AlipayNotify
  simp only [hsig, hno, hts, hf0, hf1, hpay, hsave, Bool.not_true, Bool.false_eq_true, if_false]

/-- C16. For an Alipay notification whose signature verifies, whose `out_trade_no`
is the (non-empty) payment number of a payment in the table and whose
`trade_status` is `TRADE_SUCCESS` or `TRADE_FINISHED`, with the store answering:
the handler answers "success", the payment reads paid with `paid_at` and
`updated_at` set to the current time and its other columns as before, every
payment with another key is untouched, and so are orders, lines and products. -/
theorem alipayNotify_marks_paid (fault : Nat → Bool) (now : Nat) (db : DB) (form : AlipayForm)
    (payment : Payment) (hsig : form.signOK = true) (hno : form.out_trade_no ≠ "")
    (hst : form.trade_status = "TRADE_SUCCESS" ∨ form.trade_status = "TRADE_FINISHED")
    (hpay : firstPaymentByNumber form.out_trade_no db = some payment)
    (hpend : payment.Status = .pending)
    (hid : payment.ID ≠ 0) (hf0 : fault 0 = false) (hf1 : fault 1 = false) :
    (AlipayNotify fault now db (some form)).2 = .success ∧
    firstPayment payment.ID (AlipayNotify fault now db (some form)).1
      = some { payment with Status := .paid, PaidAt := some now, UpdatedAt := now } ∧
    (∀ id, id ≠ payment.ID →
      firstPayment id (AlipayNotify fault now db (some form)).1 = firstPayment id db) ∧
    (∀ x ∈ db.payments, x.ID ≠ payment.ID →
      x ∈ (AlipayNotify fault now db (some form)).1.payments) ∧
    (AlipayNotify fault now db (some form)).1.orders = db.orders ∧
    (AlipayNotify fault now db (some form)).1.order_items = db.order_items ∧
    (AlipayNotify fault now db (some form)).1.products = db.products := by
  have _ := hpend
  rw [alipayNotify_accepted hsig hno hst hpay hid hf0 hf1]
  have hmem := (firstPaymentByNumber_mem hpay).1
  obtain ⟨h1, h2, h3⟩ := firstPayment_after_save
    (p := { payment with Status := .paid, PaidAt := some now, UpdatedAt := now })
    hmem rfl
  exact ⟨rfl, h1, h2, h3, rfl, rfl, rfl⟩

set_option maxRecDepth 100000 in
theorem alipayNotify_marks_paid_witness :
    (AlipayNotify noFault 1500 payingDB (some sampleNotice)).2 = .success ∧
    firstPayment 1 (AlipayNotify noFault 1500 payingDB (some sampleNotice)).1
      = some { samplePayment with Status := .paid, PaidAt := some 1500, UpdatedAt := 1500 } :=
  have h := alipayNotify_marks_paid noFault 1500 payingDB sampleNotice samplePayment rfl
    (by decide) (Or.inl rfl) (by decide) rfl (by decide) rfl rfl
  ⟨h.1, h.2.1⟩

/-- C18. When the timer of a payment fires: a payment that exists and is still
pending reads cancelled afterwards with `updated_at` set to the current time
(the store answering); a payment that is paid, cancelled or refunded, or that
does not exist, leaves the store as it was; and in every case, whatever fails,
orders, order lines and products are as before. -/
theorem checkAndCancelPayment_spec (fault : Nat → Bool) (now : Nat) (db : DB) (paymentId : Nat) :
    (∀ payment, firstPayment paymentId db = some payment → payment.Status = .pending →
      paymentId ≠ 0 → fault 0 = false → fault 1 = false →
      firstPayment paymentId (checkAndCancelPayment fault now db paymentId)
        = some { payment with Status := .cancelled, UpdatedAt := now } ∧
      ∀ id, id ≠ paymentId →
        firstPayment id (checkAndCancelPayment fault now db paymentId) = firstPayment id db) ∧
    (∀ payment, firstPayment paymentId db = some payment → payment.Status ≠ .pending →
      checkAndCancelPayment fault now db paymentId = db) ∧
    (firstPayment paymentId db = none → checkAndCancelPayment fault now db paymentId = db) ∧
    ((checkAndCancelPayment fault now db paymentId).orders = db.orders ∧
      (checkAndCancelPayment fault now db paymentId).order_items = db.order_items ∧
      (checkAndCancelPayment fault now db paymentId).products = db.products) := by
  refine ⟨fun payment hp hs h0 hf0 hf1 => ?_, fun payment hp hs => ?_, fun hp => ?_, ?_⟩
  · have hmem := firstPayment_mem hp
    have hid := firstPayment_id hp
    have hid0 : payment.ID ≠ 0 := by rw [hid]; exact h0
    have hsave := savePayment_existing
      (p := { payment with Status := .cancelled, UpdatedAt := now }) hmem rfl hid0
    obtain ⟨h1, h2, _⟩ := firstPayment_after_save
      (p := { payment with Status := .cancelled, UpdatedAt := now }) hmem rfl
    have hrun : checkAndCancelPayment fault now db paymentId
        = { db with payments := db.payments.map (fun x => if x.ID = payment.ID then
            { payment with Status := .cancelled, UpdatedAt := now } else x) } := by
      unfold checkAndCancelPayment
      simp only [hf0, hf1, hp, hs, hsave, Bool.false_eq_true, if_false, if_true]
    rw [hrun]
    subst hid
    exact ⟨h1, h2⟩
  · unfold checkAndCancelPayment
    by_cases hf0 : fault 0 = true
    · simp [hf0]
    · simp [hf0, hp, hs]
  · unfold checkAndCancelPayment
    by_cases hf0 : fault 0 = true
    · simp [hf0]
    · simp [hf0, hp]
  · unfold checkAndCancelPayment
    cases hq : (if fault 0 = true then none else firstPayment paymentId db) with
    | none => exact ⟨rfl, rfl, rfl⟩
    | some payment =>
      simp only
      by_cases hs : payment.Status = .pending
      · simp only [hs, if_true]
        cases hsv : (if fault 1 = true then none
            else savePayment { payment with Status := .cancelled, UpdatedAt := now } db) with
        | none => exact ⟨rfl, rfl, rfl⟩
        | some db1 =>
          simp only
          have hsv' : savePayment { payment with Status := .cancelled, UpdatedAt := now } db
              = some db1 := by
            by_cases hf1 : fault 1 = true
            · simp [hf1] at hsv
            · simpa [hf1] using hsv
          unfold savePayment at hsv'
          split at hsv'
          · cases hi : insertPayment { payment with Status := .cancelled, UpdatedAt := now } db with
            | none => simp [hi] at hsv'
            | some r =>
              obtain ⟨row, d⟩ := r
              rw [hi] at hsv'
              simp only [Option.map_some', Option.some.injEq] at hsv'
              obtain ⟨_, hd⟩ := insertPayment_some hi
              rw [← hsv', hd]
              exact ⟨rfl, rfl, rfl⟩
          · split at hsv'
            · rw [← Option.some.inj hsv']; exact ⟨rfl, rfl, rfl⟩
            · rw [← Option.some.inj hsv']; exact ⟨rfl, rfl, rfl⟩
      · simp [hs]

set_option maxRecDepth 100000 in
theorem checkAndCancelPayment_spec_witness :
    firstPayment 1 (checkAndCancelPayment noFault 2000 payingDB 1)
      = some { samplePayment with Status := .cancelled, UpdatedAt := 2000 } ∧
    checkAndCancelPayment noFault 2000 payingDB 9 = payingDB :=
  ⟨((checkAndCancelPayment_spec noFault 2000 payingDB 1).1 samplePayment (by decide) rfl
      (by decide) rfl rfl).1,
   (checkAndCancelPayment_spec noFault 2000 payingDB 9).2.2.1 (by decide)⟩

/-- C15 fails on the code. A success notification for `samplePayment` at time 1500
marks it paid with `paid_at` 1500; the same notification delivered again at 1600 is
answered "success" too, and `paid_at` reads 1600: the handler saves without looking
at the current status. -/
theorem alipayNotify_replay_restamps :
    (firstPayment 1 (AlipayNotify noFault 1500 payingDB (some sampleNotice)).1).map
      (fun p => (p.Status, p.PaidAt)) = some (.paid, some 1500) ∧
    (AlipayNotify noFault 1600 (AlipayNotify noFault 1500 payingDB (some sampleNotice)).1
      (some sampleNotice)).2 = .success ∧
    (firstPayment 1 (AlipayNotify noFault 1600
      (AlipayNotify noFault 1500 payingDB (some sampleNotice)).1 (some sampleNotice)).1).map
      (fun p => (p.Status, p.PaidAt)) = some (.paid, some 1600) := by
  refine ⟨?_, ?_, ?_⟩ <;> set_option maxRecDepth 100000 in decide

/-- C17 fails on the code, on the side of the callback. The timer of
`samplePayment` fires at 2000 and cancels it; a success notification arriving at
2100 is answered "success" and turns the cancelled payment into a paid one. The
timer itself does check: fired on the paid payment it changes nothing. -/
theorem alipayNotify_revives_cancelled :
    (firstPayment 1 (checkAndCancelPayment noFault 2000 payingDB 1)).map (fun p => p.Status)
      = some .cancelled ∧
    (AlipayNotify noFault 2100 (checkAndCancelPayment noFault 2000 payingDB 1)
      (some sampleNotice)).2 = .success ∧
    (firstPayment 1 (AlipayNotify noFault 2100 (checkAndCancelPayment noFault 2000 payingDB 1)
      (some sampleNotice)).1).map (fun p => (p.Status, p.PaidAt)) = some (.paid, some 2100) ∧
    checkAndCancelPayment noFault 2200
      (AlipayNotify noFault 1500 payingDB (some sampleNotice)).1 1
      = (AlipayNotify noFault 1500 payingDB (some sampleNotice)).1 := by
  refine ⟨?_, ?_, ?_, ?_⟩ <;> set_option maxRecDepth 100000 in decide

/-- C20 fails on the code. `Charge` with the method "paypal" on an order without
payment is answered `UnsupportedPaymentMethod`, but only after the payment record
was stored and its timer started: the table has gained a pending payment with that
method, and a later `Charge` with "alipay" is handed that record and rejected too. -/
theorem charge_unsupported_method_persists :
    orderedDB.payments = [] ∧
    (Charge noFault 1100 sampleProviders orderedDB (some ⟨1, 42, F64.ofInt 25, "paypal"⟩)).resp
      = .error .UnsupportedPaymentMethod ∧
    (Charge noFault 1100 sampleProviders orderedDB
      (some ⟨1, 42, F64.ofInt 25, "paypal"⟩)).db.payments
      = [{ samplePayment with PaymentMethod := "paypal" }] ∧
    (Charge noFault 1100 sampleProviders orderedDB (some ⟨1, 42, F64.ofInt 25, "paypal"⟩)).reaper
      = some 1 ∧
    (Charge noFault 1200 { sampleProviders with uuid := "pay-0002" }
      (Charge noFault 1100 sampleProviders orderedDB (some ⟨1, 42, F64.ofInt 25, "paypal"⟩)).db
      (some ⟨1, 42, F64.ofInt 25, "alipay"⟩)).resp = .error .UnsupportedPaymentMethod := by
  refine ⟨?_, ?_, ?_, ?_, ?_⟩ <;> set_option maxRecDepth 100000 in decide

/-- C11 fails on the code. `sampleOrder` is paid: the success notification at 1500
marks its payment paid, and the order row stays pending, since no handler ever
writes an order status other than cancelled. The expiry job run at 5000, after the
order's expiry at 2800, cancels the paid order and adds its lines back to stock. -/
theorem sweep_cancels_paid_order :
    (firstPayment 1 (AlipayNotify noFault 1500 payingDB (some sampleNotice)).1).map
      (fun p => p.Status) = some .paid ∧
    (firstOrder 1 (AlipayNotify noFault 1500 payingDB (some sampleNotice)).1).map
      (fun o => o.Status) = some .pending ∧
    (firstOrder 1 (CancelExpiredOrders noFault 5000
      (AlipayNotify noFault 1500 payingDB (some sampleNotice)).1).1).map
      (fun o => o.Status) = some .cancelled ∧
    stockOf payingDB 1 = some 3 ∧
    stockOf (CancelExpiredOrders noFault 5000
      (AlipayNotify noFault 1500 payingDB (some sampleNotice)).1).1 1 = some 5 ∧
    (firstPayment 1 (CancelExpiredOrders noFault 5000
      (AlipayNotify noFault 1500 payingDB (some sampleNotice)).1).1).map
      (fun p => p.Status) = some .paid := by
  refine ⟨?_, ?_, ?_, ?_, ?_, ?_⟩ <;> set_option maxRecDepth 100000 in decide

/-! ## `WxPayNotify` -/

/-- C19 fails on the code. A well-formed WeChat notification reporting success
(`return_code` and `result_code` both `SUCCESS`) for the payment number of the
pending `samplePayment` is acknowledged with the success XML, and the payment is
exactly as before, pending and without `paid_at`: the handler logs the success
where its comments place the update, and writes nothing. -/
theorem wxPayNotify_leaves_pending :
    (WxPayNotify payingDB "POST" (.decoded ⟨"SUCCESS", "SUCCESS", "pay-0001", "wx-1"⟩)).2
      = .success ∧
    (firstPaymentByNumber "pay-0001" (WxPayNotify payingDB "POST"
      (.decoded ⟨"SUCCESS", "SUCCESS", "pay-0001", "wx-1"⟩)).1).map
      (fun p => (p.Status, p.PaidAt)) = some (.pending, none) := by
  refine ⟨?_, ?_⟩ <;> set_option maxRecDepth 100000 in decide

/-- What the WeChat callback does: whatever the request, the store after it is the
store before it. A well-formed POST whose `return_code` is `SUCCESS` is answered
with the provider's success acknowledgment, whatever its `result_code` and
`out_trade_no`; one with another `return_code` gets the failure acknowledgment. -/
theorem wxPayNotify_acknowledges (db : DB) (method : String) (body : WxBody) :
    (WxPayNotify db method body).1 = db ∧
    (∀ cb, method = "POST" → body = .decoded cb → cb.ReturnCode = "SUCCESS" →
      (WxPayNotify db method body).2 = .success) ∧
    (∀ cb, method = "POST" → body = .decoded cb → cb.ReturnCode ≠ "SUCCESS" →
      (WxPayNotify db method body).2 = .failure) := by
  refine ⟨?_, fun cb hm hb hr => ?_, fun cb hm hb hr => ?_⟩
  · unfold WxPayNotify
    split
    · rfl
    · cases body with
      | unreadable => rfl
      | malformed => rfl
      | decoded cb =>
        simp only
        split <;> rfl
  · subst hm hb
    simp [WxPayNotify, hr]
  · subst hm hb
    simp [WxPayNotify, hr]

theorem wxPayNotify_acknowledges_witness :
    (WxPayNotify payingDB "POST" (.decoded ⟨"SUCCESS", "FAIL", "", "wx-1"⟩)).1 = payingDB ∧
    (WxPayNotify payingDB "POST" (.decoded ⟨"SUCCESS", "FAIL", "", "wx-1"⟩)).2 = .success ∧
    (WxPayNotify payingDB "POST" (.decoded ⟨"FAIL", "", "", ""⟩)).2 = .failure :=
  ⟨(wxPayNotify_acknowledges payingDB "POST" (.decoded ⟨"SUCCESS", "FAIL", "", "wx-1"⟩)).1,
   (wxPayNotify_acknowledges payingDB "POST" (.decoded ⟨"SUCCESS", "FAIL", "", "wx-1"⟩)).2.1
     ⟨"SUCCESS", "FAIL", "", "wx-1"⟩ rfl rfl rfl,
   (wxPayNotify_acknowledges payingDB "POST" (.decoded ⟨"FAIL", "", "", ""⟩)).2.2
     ⟨"FAIL", "", "", ""⟩ rfl rfl (by decide)⟩

/-! ## `Charge` on a settled payment -/

/-- After the rows with the key of `payment` are rewritten to `p1`, a row of the
same order, the first payment of that order is `p1`. -/
theorem firstOfOrder_replace (oid : Nat) (payment p1 : Payment) (hp1 : p1.OrderID = oid) :
    ∀ l : List Payment, l.find? (fun p => p.OrderID = oid) = some payment →
      (l.map (fun x => if x.ID = payment.ID then p1 else x)).find? (fun p => p.OrderID = oid)
        = some p1 := by
  intro l
  induction l with
  | nil => intro h; simp at h
  | cons x rest ih =>
    intro h
    rw [List.map_cons]
    by_cases hx : x.ID = payment.ID
    · rw [if_pos hx]
      simp [hp1]
    · rw [if_neg hx]
      by_cases ho : x.OrderID = oid
      · simp only [List.find?_cons, ho, decide_True, Option.some.injEq] at h
        exact absurd (by rw [h]) hx
      · simp only [List.find?_cons, ho, decide_False] at h ⊢
        exact ih h

/-- A `Charge` call that finds a payment of the order which is not pending is
rejected and changes nothing. -/
theorem charge_settled {fault : Nat → Bool} {now : Nat} {ext : Providers} {db : DB}
    {req : PayAo} {payment : Payment}
    (hp : firstPaymentOfOrder req.OrderId db = some payment)
    (hs : payment.Status ≠ .pending) :
    (∃ e, Charge fault now ext db (some req) = ⟨db, .error e, none, none⟩) ∧
    (∀ o, fault 0 = false → fault 1 = false → firstOrder req.OrderId db = some o →
      Charge fault now ext db (some req) = ⟨db, .error .InvalidPaymentState, none, none⟩) := by
  have hd : chargeDispatch ext db payment none = ⟨db, .error .InvalidPaymentState, none, none⟩ := by
    unfold chargeDispatch
    rw [if_pos hs]
  refine ⟨?_, fun o hf0 hf1 hfo => ?_⟩
  · rcases charge_cases fault now ext db req with ⟨o, payment', _, hp', hc⟩ |
      ⟨o, row, db1, _, hp', _, _⟩ | ⟨e, hc⟩
    · rw [hp] at hp'
      cases hp'
      exact ⟨.InvalidPaymentState, by rw [hc, hd]⟩
    · rw [hp] at hp'
      cases hp'
    · exact ⟨e, hc⟩
  · rw [charge_found hf0 hf1 hfo hp, hd]

/-! ## `AlipayNotify`: rejected notifications -/

/-- Whatever `AlipayNotify` answers other than "success", the store is as before. -/
theorem alipayNotify_error_db (fault : Nat → Bool) (now : Nat) (db : DB)
    (form : Option AlipayForm) (h : (AlipayNotify fault now db form).2 ≠ .success) :
    (AlipayNotify fault now db form).1 = db := by
  unfold AlipayNotify at h ⊢
  cases form with
  | none => rfl
  | some formData =>
    simp only at h ⊢
    split
    · rfl
    · split
      · rfl
      · split
        · rfl
        · split
          · rfl
          · cases hp : firstPaymentByNumber formData.out_trade_no db with
            | none => rfl
            | some payment =>
              simp only [hp]
              split
              · rfl
              · rename_i hsig hno hst hf0 _ db1 hsv
                simp [hsig, hno, hst, hf0, hp, hsv] at h

/-- C23. A rejected Alipay notification never mutates: when the signature does not
verify, or `out_trade_no` is empty, or `trade_status` is neither `TRADE_SUCCESS`
nor `TRADE_FINISHED`, or no payment has that payment number, the answer is an
error and the store, so every payment, is exactly as before.  With the earlier
checks passed and the store answering, the unknown payment number is answered
`NotFound` and the unfinished trade `TradeNotFinished`.  More generally every
answer other than "success" leaves the store as it was. -/
theorem alipayNotify_rejected_unchanged (fault : Nat → Bool) (now : Nat) (db : DB)
    (form : AlipayForm) :
    ((form.signOK = false ∨ form.out_trade_no = "" ∨
        (form.trade_status ≠ "TRADE_SUCCESS" ∧ form.trade_status ≠ "TRADE_FINISHED") ∨
        firstPaymentByNumber form.out_trade_no db = none) →
      (AlipayNotify fault now db (some form)).1 = db ∧
      (AlipayNotify fault now db (some form)).2 ≠ .success) ∧
    (form.signOK = false → AlipayNotify fault now db (some form) = (db, .InvalidNotification)) ∧
    (form.signOK = true → form.out_trade_no = "" →
      AlipayNotify fault now db (some form) = (db, .InvalidNotification)) ∧
    (form.signOK = true → form.out_trade_no ≠ "" →
      form.trade_status ≠ "TRADE_SUCCESS" → form.trade_status ≠ "TRADE_FINISHED" →
      AlipayNotify fault now db (some form) = (db, .TradeNotFinished)) ∧
    (form.signOK = true → form.out_trade_no ≠ "" →
      (form.trade_status = "TRADE_SUCCESS" ∨ form.trade_status = "TRADE_FINISHED") →
      fault 0 = false → firstPaymentByNumber form.out_trade_no db = none →
      AlipayNotify fault now db (some form) = (db, .NotFound)) ∧
    (∀ body, (AlipayNotify fault now db body).2 ≠ .success →
      (AlipayNotify fault now db body).1 = db) := by
  have key : (form.signOK = false ∨ form.out_trade_no = "" ∨
        (form.trade_status ≠ "TRADE_SUCCESS" ∧ form.trade_status ≠ "TRADE_FINISHED") ∨
        firstPaymentByNumber form.out_trade_no db = none) →
      (AlipayNotify fault now db (some form)).2 ≠ .success := by
    intro h
    unfold AlipayNotify
    simp only
    split
    · simp
    · split
      · simp
      · split
        · simp
        · split
          · simp
          · rename_i hsig hno hst hf0
            rcases h with h | h | h | h
            · simp [h] at hsig
            · exact absurd h hno
            · exact absurd h hst
            · simp [h]
  refine ⟨fun h => ⟨alipayNotify_error_db fault now db (some form) (key h), key h⟩,
    fun hsig => ?_, fun hsig hno => ?_, fun hsig hno h1 h2 => ?_,
    fun hsig hno hst hf0 hp => ?_, fun body h => alipayNotify_error_db fault now db body h⟩
  · simp [AlipayNotify, hsig]
  · simp [AlipayNotify, hsig, hno]
  · simp [AlipayNotify, hsig, hno, h1, h2]
  · have hts : ¬ (form.trade_status ≠ "TRADE_SUCCESS" ∧ form.trade_status ≠ "TRADE_FINISHED") := by
      rcases hst with h | h <;> simp [h]
    unfold AlipayNotify
    simp only [hsig, hno, hts, hf0, hp, Bool.not_true, Bool.false_eq_true, if_false]

set_option maxRecDepth 100000 in
theorem alipayNotify_rejected_unchanged_witness :
    AlipayNotify noFault 1500 payingDB (some ⟨true, "pay-9999", "TRADE_SUCCESS"⟩)
      = (payingDB, .NotFound) :=
  (alipayNotify_rejected_unchanged noFault 1500 payingDB
    ⟨true, "pay-9999", "TRADE_SUCCESS"⟩).2.2.2.2.1 rfl (by decide) (Or.inl rfl) rfl (by decide)

/-! ## `CreateOrder`: an order number already in use -/

/-- C24. `CreateOrder` for an owner and time stamp whose order number an order in
the table already carries: with the address accepted and the store answering the
address lookup, the only insert of the header is refused by the unique index, the
call is rejected with `OrderCreationFailed` without another number being tried,
and the store is as before.  So after a successful `CreateOrder`, a second one by
the same owner with the same time stamp is rejected in this way. -/
theorem createOrder_duplicate_number (fault : Nat → Bool) (now : Nat) (stamp : String)
    (userID : Nat) (req : CreateOrderReq) :
    (∀ (db : DB) (address : Address), firstAddress req.AddressID db = some address →
      address.UserID = userID → fault 0 = false →
      (∃ o ∈ db.orders, o.OrderNumber = stamp ++ toString userID) →
      CreateOrder fault now stamp db (some userID) (some req)
        = (db, .error .OrderCreationFailed)) ∧
    (∀ (db db1 : DB) (f1 : Nat → Bool) (now1 : Nat) (req1 : CreateOrderReq)
      (data : CreateOrderData) (address : Address),
      CreateOrder f1 now1 stamp db (some userID) (some req1) = (db1, .ok data) →
      firstAddress req.AddressID db1 = some address → address.UserID = userID →
      fault 0 = false →
      CreateOrder fault now stamp db1 (some userID) (some req)
        = (db1, .error .OrderCreationFailed)) := by
  have main : ∀ (db : DB) (address : Address), firstAddress req.AddressID db = some address →
      address.UserID = userID → fault 0 = false →
      (∃ o ∈ db.orders, o.OrderNumber = stamp ++ toString userID) →
      CreateOrder fault now stamp db (some userID) (some req)
        = (db, .error .OrderCreationFailed) := by
    intro db address ha hu hf ⟨o, ho, hn⟩
    have hany : db.orders.any (fun x => decide (x.OrderNumber
        = (newOrder now stamp userID req).OrderNumber)) = true := by
      rw [List.any_eq_true]
      exact ⟨o, ho, by simpa [newOrder] using hn⟩
    unfold CreateOrder
    simp [Begin, Tx.Query, Tx.Create, Tx.Rollback, hf, ha, hu, insertOrder, hany]
  refine ⟨main, fun db db1 f1 now1 req1 data address h1 ha hu hf => main db1 address ha hu hf ?_⟩
  obtain ⟨u, r, a, w1, tx2, hu1, hr1, _, _, hins, hci, hdb1, _, _⟩ := createOrder_ok h1
  cases hu1
  cases hr1
  obtain ⟨_, hw1, _⟩ := insertOrder_some hins
  obtain ⟨hord, _⟩ := createItems_ok_lines f1 now1 data.order_id req1.Items 2 _ _ _ _ hci
  simp only at hord
  have hmem : ({ newOrder now1 stamp userID req1 with ID := data.order_id } : Order)
      ∈ tx2.work.orders := by
    rw [hord, hw1]
    simp
  refine ⟨_, by rw [hdb1]; exact List.mem_map_of_mem _ hmem, ?_⟩
  simp only
  split <;> simp [newOrder]

set_option maxRecDepth 100000 in
theorem createOrder_duplicate_number_witness :
    CreateOrder noFault 1000 "20240101120000" orderedDB (some 42) (some sampleReq)
      = (orderedDB, .error .OrderCreationFailed) :=
  (createOrder_duplicate_number noFault 1000 "20240101120000" 42 sampleReq).1 orderedDB ⟨7, 42⟩
    (by decide) rfl rfl ⟨sampleOrder, by decide, by decide⟩

/-! ## `Charge`: what it takes from the order -/

/-- C28 (as stated) fails: `sampleOrder` was cancelled and its stock released, and
a `Charge` for it is accepted: a pending payment for the cancelled order is stored,
its timer started and the provider link returned. -/
theorem charge_pays_cancelled_order :
    (firstOrder 1 cancelledDB).map (fun o => o.Status) = some .cancelled ∧
    cancelledDB.payments = [] ∧
    (Charge noFault 1100 sampleProviders cancelledDB (some ⟨1, 42, F64.ofInt 25, "alipay"⟩)).resp
      = .alipayLink "https://alipay.example/pay-0001" ∧
    (Charge noFault 1100 sampleProviders cancelledDB
      (some ⟨1, 42, F64.ofInt 25, "alipay"⟩)).db.payments = [samplePayment] ∧
    samplePayment.Status = .pending ∧ samplePayment.OrderID = 1 := by
  refine ⟨?_, ?_, ?_, ?_, ?_, ?_⟩ <;> set_option maxRecDepth 100000 in decide

/-- C28 (amended). `Charge` does not look at the status of the order: for every
order in the table that has no payment yet, whatever its status, a call that the
store serves and whose payment number is not in use stores a pending payment for
that order, the row built from the request as the table holds it. -/
theorem charge_ignores_order_status (fault : Nat → Bool) (now : Nat) (ext : Providers)
    (db : DB) (req : PayAo) (o : Order)
    (hfo : firstOrder req.OrderId db = some o)
    (hp : firstPaymentOfOrder req.OrderId db = none)
    (hf0 : fault 0 = false) (hf1 : fault 1 = false) (hf2 : fault 2 = false)
    (huuid : db.payments.any (fun x => x.PaymentNumber = ext.uuid) = false) :
    (Charge fault now ext db (some req)).db
      = { db with payments := db.payments ++
          [({ newPayment now ext req with
              ID := nextID (db.payments.map (fun x => x.ID)) } : Payment).stored] } ∧
    (newPayment now ext req).Status = .pending ∧
    (newPayment now ext req).OrderID = req.OrderId := by
  obtain ⟨row, db1, hins⟩ : ∃ row db1, insertPayment (newPayment now ext req) db
      = some (row, db1) := by
    have hu : db.payments.any (fun x => decide (x.PaymentNumber
        = (newPayment now ext req).PaymentNumber)) = false := huuid
    unfold insertPayment
    simp only [hu, Bool.false_eq_true, if_false]
    exact ⟨_, _, rfl⟩
  have hc : Charge fault now ext db (some req)
      = chargeDispatch ext db1 row (some row.ID) := by
    simp only [Charge, hf0, hf1, hf2, hfo, hp, hins, Bool.false_eq_true, if_false]
  obtain ⟨hrow, hdb1⟩ := insertPayment_some hins
  refine ⟨?_, rfl, rfl⟩
  rw [hc, (chargeDispatch_db ext db1 row (some row.ID)).1, hdb1, hrow]

set_option maxRecDepth 100000 in
theorem charge_ignores_order_status_witness :
    (Charge noFault 1100 sampleProviders cancelledDB
        (some ⟨1, 42, F64.ofInt 25, "wechat"⟩)).db
      = { cancelledDB with payments := cancelledDB.payments ++
          [({ newPayment 1100 sampleProviders ⟨1, 42, F64.ofInt 25, "wechat"⟩ with
              ID := nextID (cancelledDB.payments.map (fun x => x.ID)) } : Payment).stored] } :=
  (charge_ignores_order_status noFault 1100 sampleProviders cancelledDB
    ⟨1, 42, F64.ofInt 25, "wechat"⟩ { sampleOrder with Status := .cancelled }
    (by decide) (by decide) rfl rfl rfl (by decide)).1

/-- C29 (as stated) fails: `sampleOrder` belongs to user 42; a request for it that
carries the user id 99 is accepted, and the payment record created holds 99. -/
theorem charge_user_not_order_owner :
    (firstOrder 1 orderedDB).map (fun o => o.UserID) = some 42 ∧
    (Charge noFault 1100 sampleProviders orderedDB (some ⟨1, 99, F64.ofInt 25, "alipay"⟩)).resp
      = .alipayLink "https://alipay.example/pay-0001" ∧
    (Charge noFault 1100 sampleProviders orderedDB
      (some ⟨1, 99, F64.ofInt 25, "alipay"⟩)).db.payments.map (fun p => (p.OrderID, p.UserID))
      = [(1, 99)] := by
  refine ⟨?_, ?_, ?_⟩ <;> set_option maxRecDepth 100000 in decide

/-- C29 (amended). Every payment record created by `Charge` references the order
named in the request and has the user id the request body carries; the owner of
the order is not looked at. -/
theorem charge_user_from_request (fault : Nat → Bool) (now : Nat) (ext : Providers)
    (db : DB) (req : PayAo) :
    (Charge fault now ext db (some req)).db = db ∨
    ∃ row, (Charge fault now ext db (some req)).db
        = { db with payments := db.payments ++ [row] } ∧
      row.OrderID = req.OrderId ∧ row.UserID = req.UserId := by
  rcases charge_db fault now ext db (some req) with hsame | ⟨req', row, hreq, _, hrow, hdb, _⟩
  · exact Or.inl hsame
  · have : req' = req := by simpa using hreq.symm
    subst this
    exact Or.inr ⟨row.stored, hdb, by rw [hrow]; rfl, by rw [hrow]; rfl⟩

/-! ## `PayService`: what the caller gets -/

/-- C21 fails on the code. A `Charge` with the method "wechat" for `sampleOrder`
goes through: the payment is stored and handed to the WeChat flow, whose QR string
is not empty; yet nothing is written to the response, which is the empty 200 of
gin.  The same call with "alipay" answers with the link to redirect to. -/
theorem charge_wechat_no_payload :
    sampleProviders.qrCode = "QR" ∧
    (Charge noFault 1100 sampleProviders orderedDB
      (some ⟨1, 42, F64.ofInt 25, "wechat"⟩)).payment
      = some { samplePayment with PaymentMethod := "wechat" } ∧
    (Charge noFault 1100 sampleProviders orderedDB (some ⟨1, 42, F64.ofInt 25, "wechat"⟩)).resp
      = .empty ∧
    (Charge noFault 1100 sampleProviders orderedDB (some ⟨1, 42, F64.ofInt 25, "alipay"⟩)).resp
      = .alipayLink "https://alipay.example/pay-0001" := by
  refine ⟨?_, ?_, ?_, ?_⟩ <;> set_option maxRecDepth 100000 in decide

/-! ## The payment ledger: `paid_at` -/

/-- Saving a payment that has `paid_at` exactly when it is paid keeps the ledger so. -/
theorem savePayment_paidAt {p : Payment} {db db1 : DB} (h : savePayment p db = some db1)
    (hp : p.PaidAt.isSome = true ↔ p.Status = .paid) (hdb : PaidAtIffPaid db) :
    PaidAtIffPaid db1 := by
  unfold savePayment at h
  by_cases h0 : p.ID = 0
  · rw [if_pos h0] at h
    cases hi : insertPayment p db with
    | none => simp [hi] at h
    | some r =>
      obtain ⟨row, db2⟩ := r
      simp only [hi, Option.map_some', Option.some.injEq] at h
      obtain ⟨hrow, hdb2⟩ := insertPayment_some hi
      subst h
      rw [hdb2]
      intro x hx
      simp only [List.mem_append, List.mem_singleton] at hx
      rcases hx with hx | hx
      · exact hdb x hx
      · rw [hx, hrow]
        exact hp
  · rw [if_neg h0] at h
    by_cases ha : db.payments.any (fun x => decide (x.ID = p.ID)) = true
    · rw [if_pos ha] at h
      simp only [Option.some.injEq] at h
      subst h
      intro x hx
      simp only [List.mem_map] at hx
      obtain ⟨y, hy, hxy⟩ := hx
      by_cases hid : y.ID = p.ID
      · rw [if_pos hid] at hxy
        rw [← hxy]
        exact hp
      · rw [if_neg hid] at hxy
        rw [← hxy]
        exact hdb y hy
    · rw [if_neg ha] at h
      simp only [Option.some.injEq] at h
      subst h
      intro x hx
      simp only [List.mem_append, List.mem_singleton] at hx
      rcases hx with hx | hx
      · exact hdb x hx
      · rw [hx]
        exact hp

/-- One step on the payment ledger keeps `paid_at` in line with the status. -/
theorem payOp_paidAt (op : PayOp) (db : DB) (hdb : PaidAtIffPaid db) :
    PaidAtIffPaid (op.run db) := by
  cases op with
  | charge c =>
    show PaidAtIffPaid (Charge c.fault c.now c.ext db c.body).db
    rcases charge_db c.fault c.now c.ext db c.body with hsame | ⟨req, row, _, _, hrow, hnew, _⟩
    · rw [hsame]
      exact hdb
    · rw [hnew]
      intro x hx
      simp only [List.mem_append, List.mem_singleton] at hx
      rcases hx with hx | hx
      · exact hdb x hx
      · rw [hx, hrow]
        simp [newPayment, Payment.stored]
  | timeout fault now paymentId =>
    show PaidAtIffPaid (checkAndCancelPayment fault now db paymentId)
    unfold checkAndCancelPayment
    cases hq : (if fault 0 = true then none else firstPayment paymentId db) with
    | none => exact hdb
    | some payment =>
      simp only
      have hfp : firstPayment paymentId db = some payment := by
        by_cases hf : fault 0 = true
        · simp [hf] at hq
        · simpa [hf] using hq
      have hmem := firstPayment_mem hfp
      by_cases hs : payment.Status = .pending
      · rw [if_pos hs]
        cases hsv : (if fault 1 = true then none
            else savePayment { payment with Status := .cancelled, UpdatedAt := now } db) with
        | none => exact hdb
        | some db1 =>
          simp only
          have hsave : savePayment { payment with Status := .cancelled, UpdatedAt := now } db
              = some db1 := by
            by_cases hf : fault 1 = true
            · simp [hf] at hsv
            · simpa [hf] using hsv
          refine savePayment_paidAt hsave ?_ hdb
          have := hdb payment hmem
          rw [hs] at this
          simp only [reduceCtorEq, iff_false] at this ⊢
          exact this
      · rw [if_neg hs]
        exact hdb
  | notify fault now form =>
    show PaidAtIffPaid (AlipayNotify fault now db form).1
    by_cases hr : (AlipayNotify fault now db form).2 = .success
    · unfold AlipayNotify at hr ⊢
      cases form with
      | none => exact hdb
      | some formData =>
        simp only at hr ⊢
        split
        · exact hdb
        · split
          · exact hdb
          · split
            · exact hdb
            · split
              · exact hdb
              · cases hp : firstPaymentByNumber formData.out_trade_no db with
                | none => exact hdb
                | some payment =>
                  simp only
                  cases hsv : (if fault 1 = true then none
                      else savePayment { payment with Status := .paid, PaidAt := some now,
                                                      UpdatedAt := now } db) with
                  | none => exact hdb
                  | some db1 =>
                    simp only
                    have hsave : savePayment
                        { payment with Status := .paid, PaidAt := some now, UpdatedAt := now } db
                        = some db1 := by
                      by_cases hf : fault 1 = true
                      · simp [hf] at hsv
                      · simpa [hf] using hsv
                    exact savePayment_paidAt hsave (by simp) hdb
    · rw [alipayNotify_error_db fault now db form hr]
      exact hdb

/-- C25. Invariant of the payment ledger: along every sequence of `Charge` calls,
timeout checks and Alipay notifications, in any order and whatever fails, started
from a ledger in which every payment has `paid_at` exactly when it is paid, and so
in particular from the empty ledger, every payment has `paid_at` exactly when its
status is paid: it is absent for pending and cancelled payments. -/
theorem paidAt_iff_paid (ops : List PayOp) (db : DB) :
    (PaidAtIffPaid db → PaidAtIffPaid (runPayOps ops db)) ∧
    (db.payments = [] → PaidAtIffPaid (runPayOps ops db)) := by
  have main : ∀ (l : List PayOp) (d : DB), PaidAtIffPaid d → PaidAtIffPaid (runPayOps l d) := by
    intro l
    induction l with
    | nil => intro d hd; exact hd
    | cons op rest ih => intro d hd; exact ih (op.run d) (payOp_paidAt op d hd)
  refine ⟨main ops db, fun he => main ops db ?_⟩
  intro p hp
  rw [he] at hp
  cases hp

set_option maxRecDepth 100000 in
theorem paidAt_iff_paid_witness :
    PaidAtIffPaid (runPayOps
      [.charge ⟨noFault, 1100, sampleProviders, some ⟨1, 42, F64.ofInt 25, "alipay"⟩⟩,
       .timeout noFault 2000 1, .notify noFault 2500 (some sampleNotice)] orderedDB) :=
  (paidAt_iff_paid
      [.charge ⟨noFault, 1100, sampleProviders, some ⟨1, 42, F64.ofInt 25, "alipay"⟩⟩,
       .timeout noFault 2000 1, .notify noFault 2500 (some sampleNotice)] orderedDB).2 rfl

/-! ## `CreateOrder`: the snapshot on the order lines -/

theorem snapshotOf_setStock (id : Nat) (v : Int) (now : Nat) (db : DB) (pid : Nat) :
    snapshotOf (setStock id v now db) pid = snapshotOf db pid := by
  unfold snapshotOf firstProduct setStock
  simp only
  rw [find_map_keep (fun p : Product => p.ID)]
  · cases db.products.find? (fun a => decide (a.ID = pid)) with
    | none => rfl
    | some p =>
      simp only [Option.map_some']
      split <;> rfl
  · intro a; split <;> rfl

/-- An accepted item list appends one line per item, in order, each owned by the
order and holding the id, name, image and unit price the product had in the working
copy before the loop, with the quantity of the item. -/
theorem createItems_ok_snapshot (fault : Nat → Bool) (now orderID : Nat)
    (items : List ItemReq) :
    ∀ (k : Nat) (tx tx' : Tx) (total t : F64),
      createItems fault now orderID items k tx total = (tx', .ok t) →
      ∃ created, tx'.work.order_items = tx.work.order_items ++ created ∧
        List.Forall₂ (fun (item : ItemReq) (line : OrderItem) => line.OrderID = orderID ∧
          line.ProductID = item.ProductID ∧
          snapshotOf tx.work item.ProductID
            = some (line.ProductID, line.ProductName, line.ProductImage, line.Price) ∧
          line.Quantity = item.Quantity) items created := by
  induction items with
  | nil =>
    intro k tx tx' total t h
    simp only [createItems, Prod.mk.injEq, Except.ok.injEq] at h
    obtain ⟨h1, _⟩ := h
    subst h1
    exact ⟨[], by simp, List.Forall₂.nil⟩
  | cons item rest ih =>
    intro k tx tx' total t h
    obtain ⟨product, hfp, _, _, _, _, _, _, hrest⟩ := createItems_cons_ok h
    obtain ⟨created, hc, hall⟩ := ih _ _ _ _ _ hrest
    have hsnap : ∀ pid, snapshotOf (setStock product.ID (wrap64 (product.Stock - item.Quantity)) now
        (insertOrderItem (orderItemOf now orderID product item) tx.work)) pid
        = snapshotOf tx.work pid := by
      intro pid
      rw [snapshotOf_setStock]
      rfl
    refine ⟨({ orderItemOf now orderID product item with
        ID := nextID (tx.work.order_items.map (fun x => x.ID)) } : OrderItem) :: created,
      ?_, List.Forall₂.cons ⟨rfl, firstProduct_id hfp, ?_, rfl⟩ ?_⟩
    · rw [hc]
      show (tx.work.order_items ++ [_]) ++ created = _
      rw [List.append_assoc]; rfl
    · unfold snapshotOf
      rw [hfp]
      rfl
    · refine List.Forall₂.imp ?_ hall
      intro it line ⟨h1, h2, h3, h4⟩
      simp only at h3
      rw [hsnap] at h3
      exact ⟨h1, h2, h3, h4⟩

/-- The product handlers write to the products table only. -/
theorem productHandlers_tables (f : Nat → Bool) (t id : Nat) (bind : Product → Option Product)
    (d : DB) :
    ((UpdateProduct f t d id bind).1.order_items = d.order_items ∧
      (UpdateProduct f t d id bind).1.orders = d.orders) ∧
    ((DeleteProduct f d id).1.order_items = d.order_items ∧
      (DeleteProduct f d id).1.orders = d.orders) := by
  constructor
  · unfold UpdateProduct
    cases (if f 0 = true then none else firstProduct id d) with
    | none => exact ⟨rfl, rfl⟩
    | some product =>
      simp only
      cases bind product with
      | none => exact ⟨rfl, rfl⟩
      | some product1 =>
        simp only
        split
        · exact ⟨rfl, rfl⟩
        · unfold saveProduct
          simp only
          split
          · exact ⟨rfl, rfl⟩
          · split <;> exact ⟨rfl, rfl⟩
  · unfold DeleteProduct
    cases (if f 0 = true then none else firstProduct id d) with
    | none => exact ⟨rfl, rfl⟩
    | some product =>
      simp only
      split <;> exact ⟨rfl, rfl⟩

/-- C26. After a successful `CreateOrder` the lines appended to `order_items` are
one per submitted item, in submission order, each owned by the new order and
holding the id, name, image and unit price which the product of the item had in
the store before the call, with the requested quantity; the header holds the
total returned, as its `decimal(10,2)` column keeps it.  A later `UpdateProduct`
or `DeleteProduct`, whatever it writes, leaves every order line and every order
header, so these snapshot fields and the order total, as they are. -/
theorem createOrder_snapshot (fault : Nat → Bool) (now : Nat) (stamp : String)
    (db db' : DB) (user_id : Option Nat) (req : CreateOrderReq) (data : CreateOrderData)
    (h : CreateOrder fault now stamp db user_id (some req) = (db', .ok data)) :
    (∃ created, db'.order_items = db.order_items ++ created ∧
      List.Forall₂ (fun (item : ItemReq) (line : OrderItem) => line.OrderID = data.order_id ∧
        line.ProductID = item.ProductID ∧
        snapshotOf db item.ProductID
          = some (line.ProductID, line.ProductName, line.ProductImage, line.Price) ∧
        line.Quantity = item.Quantity) req.Items created) ∧
    (firstOrder data.order_id db').map (fun o => o.TotalAmount)
      = some (F64.decimal2 data.total_amount) ∧
    (∀ (d : DB) (f : Nat → Bool) (t id : Nat) (bind : Product → Option Product),
      (UpdateProduct f t d id bind).1.order_items = d.order_items ∧
      (UpdateProduct f t d id bind).1.orders = d.orders ∧
      (DeleteProduct f d id).1.order_items = d.order_items ∧
      (DeleteProduct f d id).1.orders = d.orders) := by
  obtain ⟨userID, req', address, w1, tx2, _, hreq, _, _, hins, hloop, hdb, _, _⟩ :=
    createOrder_ok h
  have hreq' : req' = req := by simpa using hreq.symm
  subst hreq'
  obtain ⟨hid, hw1, _⟩ := insertOrder_some hins
  obtain ⟨created, hc, hall⟩ := createItems_ok_snapshot fault now _ _ _ _ _ _ _ hloop
  obtain ⟨ho, _⟩ := createItems_ok_lines fault now _ _ _ _ _ _ _ hloop
  simp only at hc hall ho
  refine ⟨⟨created, ?_, ?_⟩, ?_, fun d f t id bind => ?_⟩
  · rw [hdb]
    show tx2.work.order_items = _
    rw [hc, hw1]
  · refine List.Forall₂.imp ?_ hall
    intro it line ⟨h1, h2, h3, h4⟩
    refine ⟨h1, h2, ?_, h4⟩
    rw [← h3, hw1]
    rfl
  · rw [hdb]
    unfold firstOrder setTotalAmount
    simp only
    rw [find_map_keep (fun o : Order => o.ID)]
    · rw [ho, hw1]
      simp only
      rw [List.find?_append]
      have hfresh := firstOrder_fresh db
      rw [← hid] at hfresh
      rw [hfresh]
      simp
    · intro a; split <;> rfl
  · obtain ⟨⟨a, b⟩, c, e⟩ := productHandlers_tables f t id bind d
    exact ⟨a, b, c, e⟩

set_option maxRecDepth 100000 in
theorem createOrder_snapshot_witness :
    (firstOrder 1 (CreateOrder noFault 1000 "20240101120000" sampleDB (some 42)
        (some sampleReq)).1).map (fun o => o.TotalAmount) = some (F64.ofInt 25) ∧
    (CreateOrder noFault 1000 "20240101120000" sampleDB (some 42) (some sampleReq)).1.order_items
      = sampleLines :=
  ⟨(createOrder_snapshot noFault 1000 "20240101120000" sampleDB
      (CreateOrder noFault 1000 "20240101120000" sampleDB (some 42) (some sampleReq)).1
      (some 42) sampleReq ⟨1, "2024010112000042", F64.ofInt 25, 2800⟩ (by decide)).2.1,
    by decide⟩

/-! ## The order number -/

theorem digitChar_value (d : Nat) (h : d < 10) : (Nat.digitChar d).toNat - 48 = d := by
  interval_cases d <;> rfl

theorem toDigitsCore_value : ∀ (fuel n : Nat) (ds : List Char), n < fuel →
    digitsValue (Nat.toDigitsCore 10 fuel n ds) = n * 10 ^ ds.length + digitsValue ds := by
  intro fuel
  induction fuel with
  | zero => intro n ds h; omega
  | succ fuel ih =>
    intro n ds h
    unfold Nat.toDigitsCore
    simp only
    have hd := digitChar_value (n % 10) (Nat.mod_lt n (by decide))
    by_cases h0 : n / 10 = 0
    · rw [if_pos h0]
      show ((Nat.digitChar (n % 10)).toNat - 48) * 10 ^ ds.length + digitsValue ds = _
      rw [hd]
      have : n % 10 = n := by omega
      rw [this]
    · rw [if_neg h0]
      rw [ih (n / 10) _ (by omega)]
      show n / 10 * 10 ^ (ds.length + 1)
        + (((Nat.digitChar (n % 10)).toNat - 48) * 10 ^ ds.length + digitsValue ds) = _
      rw [hd]
      have hn : n = n / 10 * 10 + n % 10 := by omega
      conv_rhs => rw [hn]
      ring

theorem toDigits_value (n : Nat) : digitsValue (Nat.toDigits 10 n) = n := by
  unfold Nat.toDigits
  rw [toDigitsCore_value (n + 1) n [] (by omega)]
  simp [digitsValue]

theorem digitsValue_append (a b : List Char) :
    digitsValue (a ++ b) = digitsValue a * 10 ^ b.length + digitsValue b := by
  induction a with
  | nil => simp [digitsValue]
  | cons c a ih =>
    show (c.toNat - 48) * 10 ^ (a ++ b).length + digitsValue (a ++ b) = _
    rw [ih, List.length_append]
    show _ = ((c.toNat - 48) * 10 ^ a.length + digitsValue a) * 10 ^ b.length + digitsValue b
    ring

theorem digitsValue_zeros (k : Nat) : digitsValue (List.replicate k '0') = 0 := by
  induction k with
  | zero => rfl
  | succ k ih =>
    show ('0'.toNat - 48) * 10 ^ (List.replicate k '0').length
      + digitsValue (List.replicate k '0') = 0
    rw [ih]
    have h0 : '0'.toNat - 48 = 0 := by decide
    rw [h0]
    simp

theorem appendInt_value (n width : Nat) : digitsValue (appendInt n width) = n := by
  unfold appendInt
  rw [digitsValue_append, digitsValue_zeros, toDigits_value]
  simp

theorem appendInt_length (n width : Nat) (h : n < 10 ^ width) (hw : 0 < width) :
    (appendInt n width).length = width := by
  unfold appendInt
  have hl : (Nat.toDigits 10 n).length ≤ width :=
    Nat.toDigitsCore_length 10 (by decide) (n + 1) n width h hw
  rw [List.length_append, List.length_replicate]
  omega

/-- Two padded fields of the same width, each followed by more text: when the
whole texts agree, so do the numbers and the rests. -/
theorem appendInt_split (width : Nat) {n1 n2 : Nat} {r1 r2 : List Char}
    (h1 : n1 < 10 ^ width) (h2 : n2 < 10 ^ width) (hw : 0 < width)
    (h : appendInt n1 width ++ r1 = appendInt n2 width ++ r2) : n1 = n2 ∧ r1 = r2 := by
  have hlen : (appendInt n1 width).length = (appendInt n2 width).length := by
    rw [appendInt_length n1 width h1 hw, appendInt_length n2 width h2 hw]
  obtain ⟨ha, hr⟩ := List.append_inj h hlen
  refine ⟨?_, hr⟩
  rw [← appendInt_value n1 width, ← appendInt_value n2 width, ha]

/-- C30. Order-number generation is injective: for two clock readings with a year
of at most four digits and any two owner ids, the order numbers, each the 14-digit
stamp `yyyyMMddHHmmss` of the reading followed by the decimal owner id, are equal
only if the owner ids are equal and the readings are the same second; so the
numbers of different owners never collide, and neither do those of one owner in
different seconds. -/
theorem orderNumber_injective (c1 c2 : Civil) (u1 u2 : Nat) (now1 now2 : Nat)
    (req1 req2 : CreateOrderReq) (hv1 : c1.Valid) (hv2 : c2.Valid) :
    (newOrder now1 (formatStamp c1) u1 req1).OrderNumber
        = (newOrder now2 (formatStamp c2) u2 req2).OrderNumber ↔ c1 = c2 ∧ u1 = u2 := by
  constructor
  · intro h
    have hd := congrArg String.data h
    simp only [newOrder, String.data_append, formatStamp, List.append_assoc] at hd
    obtain ⟨y1, m1a, m1b, d1a, d1b, hh1, mi1, s1⟩ := hv1
    obtain ⟨y2, m2a, m2b, d2a, d2b, hh2, mi2, s2⟩ := hv2
    obtain ⟨ey, hd⟩ := appendInt_split 4 (by omega) (by omega) (by decide) hd
    obtain ⟨em, hd⟩ := appendInt_split 2 (by omega) (by omega) (by decide) hd
    obtain ⟨ed, hd⟩ := appendInt_split 2 (by omega) (by omega) (by decide) hd
    obtain ⟨eh, hd⟩ := appendInt_split 2 (by omega) (by omega) (by decide) hd
    obtain ⟨ei, hd⟩ := appendInt_split 2 (by omega) (by omega) (by decide) hd
    obtain ⟨es, hd⟩ := appendInt_split 2 (by omega) (by omega) (by decide) hd
    refine ⟨?_, ?_⟩
    · cases c1
      cases c2
      simp only at ey em ed eh ei es
      simp only [Civil.mk.injEq]
      exact ⟨ey, em, ed, eh, ei, es⟩
    · have hu : Nat.toDigits 10 u1 = Nat.toDigits 10 u2 := hd
      rw [← toDigits_value u1, ← toDigits_value u2, hu]
  · rintro ⟨rfl, rfl⟩
    rfl

theorem orderNumber_injective_witness :
    formatStamp ⟨2024, 1, 1, 12, 0, 0⟩ = "20240101120000" ∧
    (newOrder 1000 (formatStamp ⟨2024, 1, 1, 12, 0, 0⟩) 42 sampleReq).OrderNumber
      = "2024010112000042" ∧
    (newOrder 1000 (formatStamp ⟨2024, 1, 1, 12, 0, 0⟩) 42 sampleReq).OrderNumber
      ≠ (newOrder 1000 (formatStamp ⟨2024, 1, 1, 12, 0, 4⟩) 2 sampleReq).OrderNumber :=
  ⟨by decide, by decide,
    fun h => absurd ((orderNumber_injective ⟨2024, 1, 1, 12, 0, 0⟩ ⟨2024, 1, 1, 12, 0, 4⟩ 42 2
      1000 1000 sampleReq sampleReq (by decide) (by decide)).mp h).2 (by decide)⟩

/-! ## Stock below zero -/

/-- A rejected `CancelOrder` publishes nothing. -/
theorem cancelOrder_error_db (fault : Nat → Bool) (now : Nat) (db : DB)
    (user_id : Option Nat) (orderID : Nat) (e : CancelOrderError)
    (h : (CancelOrder fault now db user_id orderID).2 = .error e) :
    (CancelOrder fault now db user_id orderID).1 = db := by
  unfold CancelOrder at h ⊢
  cases user_id with
  | none => rfl
  | some userID =>
    simp only at h ⊢
    cases hq : (if fault 0 = true then none else firstOrder orderID db) with
    | none => rfl
    | some order =>
      simp only [hq] at h ⊢
      split
      · rfl
      · split
        · rfl
        · rename_i hu hs
          simp only [hu, hs, if_false] at h
          cases he : (Begin db).Exec (fault 1) (setStatus order.ID .cancelled now) with
          | none => rfl
          | some tx1 =>
            simp only [he] at h ⊢
            have b1 : tx1.base = db := by
              rw [(Tx.exec_some he).2.2]
              rfl
            have b2 := (restoreItems_spec fault (itemsOf order.ID db) 2 tx1).1
            split
            · rename_i tx2 hr
              rw [hr] at b2
              simp only at b2 ⊢
              rw [b2, b1]
            · rename_i tx2 hr
              rw [hr] at b2 h
              simp only at b2 h ⊢
              split
              · rename_i tx3 hc
                simp only
                rw [Tx.commit_false hc, b2, b1]
              · rename_i tx3 hc
                simp only [hc] at h
                cases h

/-- C27 fails on the code. In `sampleDB` every stock is 0 or more and there is no
order line.  A body asking for -5 units of product 1 is accepted, the tag `min=1`
not being enforced on the items: the order is created with a line of -5 units and
the stock rises from 5 to 10.  A second order takes the 10 units.  Cancelling the
first order then adds its -5 units back and leaves the stock of product 1 at -5. -/
theorem stock_negative_after_cancel :
    StockNonneg sampleDB ∧ LinesPositive sampleDB ∧
    (runOrderOps
      [.create noFault 1000 "20240101120000" (some 42) (some ⟨7, [⟨1, -5⟩], ""⟩)]
      sampleDB).products.map (fun p => p.Stock) = [10, 1] ∧
    (runOrderOps
      [.create noFault 1000 "20240101120000" (some 42) (some ⟨7, [⟨1, -5⟩], ""⟩),
       .create noFault 1001 "20240101120001" (some 42) (some ⟨7, [⟨1, 10⟩], ""⟩),
       .cancel noFault 1100 (some 42) 1] sampleDB).products.map (fun p => p.Stock)
      = [-5, 1] ∧
    ¬ StockNonneg (runOrderOps
      [.create noFault 1000 "20240101120000" (some 42) (some ⟨7, [⟨1, -5⟩], ""⟩),
       .create noFault 1001 "20240101120001" (some 42) (some ⟨7, [⟨1, 10⟩], ""⟩),
       .cancel noFault 1100 (some 42) 1] sampleDB) := by
  refine ⟨?_, ?_, ?_, ?_, ?_⟩ <;> set_option maxRecDepth 100000 in decide

/-! ## `Charge` on an order whose payment is settled -/

theorem nextID_pos (ids : List Nat) : nextID ids ≠ 0 := by
  unfold nextID
  omega

theorem nextID_not_mem (ids : List Nat) : nextID ids ∉ ids := by
  intro h
  have := lt_nextID ids _ h
  omega

/-- The two ways `checkAndCancelPayment` can go: it leaves the store alone, or it
saves the pending payment it found as cancelled. -/
theorem checkAndCancel_cases (fault : Nat → Bool) (now : Nat) (db : DB) (paymentId : Nat) :
    checkAndCancelPayment fault now db paymentId = db ∨
    ∃ payment, firstPayment paymentId db = some payment ∧ payment.Status = .pending ∧
      savePayment { payment with Status := .cancelled, UpdatedAt := now } db
        = some (checkAndCancelPayment fault now db paymentId) := by
  unfold checkAndCancelPayment
  by_cases hf0 : fault 0 = true
  · left; simp [hf0]
  · cases hfp : firstPayment paymentId db with
    | none => left; simp [hf0, hfp]
    | some payment =>
      by_cases hs : payment.Status = .pending
      · by_cases hf1 : fault 1 = true
        · left; simp [hf0, hfp, hs, hf1]
        · cases hsv : savePayment { payment with Status := .cancelled, UpdatedAt := now } db with
          | none => left; simp [hf0, hfp, hs, hf1, hsv]
          | some db1 =>
            right
            exact ⟨payment, rfl, hs, by simp [hf0, hfp, hs, hf1, hsv]⟩
      · left; simp [hf0, hfp, hs]

/-- The two ways `AlipayNotify` can go: it leaves the store alone, or it saves the
payment it found as paid. -/
theorem alipayNotify_cases (fault : Nat → Bool) (now : Nat) (db : DB)
    (form : Option AlipayForm) :
    (AlipayNotify fault now db form).1 = db ∨
    ∃ formData payment, form = some formData ∧
      firstPaymentByNumber formData.out_trade_no db = some payment ∧
      savePayment { payment with Status := .paid, PaidAt := some now, UpdatedAt := now } db
        = some (AlipayNotify fault now db form).1 := by
  by_cases hr : (AlipayNotify fault now db form).2 = .success
  · cases form with
    | none => left; rfl
    | some formData =>
      unfold AlipayNotify at hr ⊢
      simp only at hr ⊢
      split
      · left; rfl
      · split
        · left; rfl
        · split
          · left; rfl
          · split
            · left; rfl
            · cases hp : firstPaymentByNumber formData.out_trade_no db with
              | none => left; rfl
              | some payment =>
                simp only
                by_cases hf1 : fault 1 = true
                · left; simp [hf1]
                · cases hsv : savePayment { payment with Status := .paid, PaidAt := some now,
                                                         UpdatedAt := now } db with
                  | none => left; simp [hf1, hsv]
                  | some db1 =>
                    right
                    exact ⟨formData, payment, rfl, hp, by simp [hf1, hsv]⟩
  · left
    exact alipayNotify_error_db fault now db form hr

/-- Saving a changed copy of a payment of the ledger, same key and same order,
keeps the ledger well formed, and an order settled before is settled after when
the copy is not pending. -/
theorem savePayment_ledger {p q : Payment} {db db1 : DB} (h : savePayment p db = some db1)
    (hq : q ∈ db.payments) (hid : p.ID = q.ID) (ho : p.OrderID = q.OrderID)
    (hok : LedgerOK db) :
    LedgerOK db1 ∧ (p.Status ≠ .pending → ∀ oid, Settled db oid → Settled db1 oid) ∧
      p ∈ db1.payments := by
  obtain ⟨hids, hords, hnz⟩ := hok
  have h0 : p.ID ≠ 0 := by rw [hid]; exact hnz q hq
  rw [savePayment_existing hq hid.symm h0] at h
  simp only [Option.some.injEq] at h
  subst h
  have hsame : ∀ x ∈ db.payments, x.ID = p.ID → x = q := fun x hx hx' =>
    eq_of_nodup_key (fun y : Payment => y.ID) db.payments hids x q hx hq (hx'.trans hid)
  have hmapid : (db.payments.map (fun x => if x.ID = p.ID then p else x)).map (fun y => y.ID)
      = db.payments.map (fun y => y.ID) := by
    rw [List.map_map]
    apply List.map_congr_left
    intro x _
    simp only [Function.comp]
    split
    · rename_i hx; exact hx.symm
    · rfl
  have hmapord : (db.payments.map (fun x => if x.ID = p.ID then p else x)).map
      (fun y => y.OrderID) = db.payments.map (fun y => y.OrderID) := by
    rw [List.map_map]
    apply List.map_congr_left
    intro x hx
    simp only [Function.comp]
    split
    · rename_i hx'
      rw [hsame x hx hx', ho]
    · rfl
  refine ⟨⟨?_, ?_, ?_⟩, fun hs oid hset => ?_, ?_⟩
  · show ((db.payments.map (fun x => if x.ID = p.ID then p else x)).map (fun y => y.ID)).Nodup
    rw [hmapid]; exact hids
  · show ((db.payments.map (fun x => if x.ID = p.ID then p else x)).map
        (fun y => y.OrderID)).Nodup
    rw [hmapord]; exact hords
  · intro x hx
    simp only [List.mem_map] at hx
    obtain ⟨y, hy, hxy⟩ := hx
    by_cases hyp : y.ID = p.ID
    · rw [if_pos hyp] at hxy
      rw [← hxy]; exact h0
    · rw [if_neg hyp] at hxy
      rw [← hxy]; exact hnz y hy
  · obtain ⟨x, hx, hxo, hxs⟩ := hset
    by_cases hxp : x.ID = p.ID
    · refine ⟨p, ?_, ?_, hs⟩
      · simp only [List.mem_map]
        exact ⟨x, hx, by rw [if_pos hxp]⟩
      · rw [ho, ← hsame x hx hxp]; exact hxo
    · refine ⟨x, ?_, hxo, hxs⟩
      simp only [List.mem_map]
      exact ⟨x, hx, by rw [if_neg hxp]⟩
  · simp only [List.mem_map]
    exact ⟨q, hq, by rw [if_pos hid.symm]⟩

/-- One step on the payment ledger keeps it well formed and keeps a settled order
settled. -/
theorem payOp_ledger (op : PayOp) (db : DB) (hok : LedgerOK db) :
    LedgerOK (op.run db) ∧ ∀ oid, Settled db oid → Settled (op.run db) oid := by
  cases op with
  | charge c =>
    show LedgerOK (Charge c.fault c.now c.ext db c.body).db ∧
      ∀ oid, Settled db oid → Settled (Charge c.fault c.now c.ext db c.body).db oid
    rcases charge_db c.fault c.now c.ext db c.body with hsame | ⟨req, row, _, hp, hrow, hnew, _⟩
    · rw [hsame]
      exact ⟨hok, fun _ h => h⟩
    · rw [hnew]
      obtain ⟨hids, hords, hnz⟩ := hok
      have hrid : row.stored.ID = nextID (db.payments.map (fun x => x.ID)) := by
        rw [hrow]; rfl
      have hrord : row.stored.OrderID = req.OrderId := by rw [hrow]; rfl
      refine ⟨⟨?_, ?_, ?_⟩, fun oid hset => ?_⟩
      · show ((db.payments ++ [row.stored]).map (fun p => p.ID)).Nodup
        rw [List.map_append, List.nodup_append]
        refine ⟨hids, by simp, ?_⟩
        intro a ha hb
        simp only [List.map_cons, List.map_nil, List.mem_singleton] at hb
        rw [hb, hrid] at ha
        exact nextID_not_mem _ ha
      · show ((db.payments ++ [row.stored]).map (fun p => p.OrderID)).Nodup
        rw [List.map_append, List.nodup_append]
        refine ⟨hords, by simp, ?_⟩
        intro a ha hb
        simp only [List.map_cons, List.map_nil, List.mem_singleton] at hb
        rw [hb, hrord, List.mem_map] at ha
        obtain ⟨x, hx, hxo⟩ := ha
        unfold firstPaymentOfOrder at hp
        have := List.find?_eq_none.mp hp x hx
        simp only [decide_eq_true_eq] at this
        exact this hxo
      · intro x hx
        simp only [List.mem_append, List.mem_singleton] at hx
        rcases hx with hx | hx
        · exact hnz x hx
        · rw [hx, hrid]; exact nextID_pos _
      · obtain ⟨x, hx, hxo, hxs⟩ := hset
        exact ⟨x, by simp only [List.mem_append]; exact Or.inl hx, hxo, hxs⟩
  | timeout fault now paymentId =>
    show LedgerOK (checkAndCancelPayment fault now db paymentId) ∧
      ∀ oid, Settled db oid → Settled (checkAndCancelPayment fault now db paymentId) oid
    rcases checkAndCancel_cases fault now db paymentId with hsame | ⟨payment, hfp, _, hsv⟩
    · rw [hsame]
      exact ⟨hok, fun _ h => h⟩
    · obtain ⟨h1, h2, _⟩ := savePayment_ledger hsv (firstPayment_mem hfp) rfl rfl hok
      exact ⟨h1, h2 (by simp)⟩
  | notify fault now form =>
    show LedgerOK (AlipayNotify fault now db form).1 ∧
      ∀ oid, Settled db oid → Settled (AlipayNotify fault now db form).1 oid
    rcases alipayNotify_cases fault now db form with hsame | ⟨formData, payment, _, hfp, hsv⟩
    · rw [hsame]
      exact ⟨hok, fun _ h => h⟩
    · obtain ⟨h1, h2, _⟩ := savePayment_ledger hsv (firstPaymentByNumber_mem hfp).1 rfl rfl hok
      exact ⟨h1, h2 (by simp)⟩

theorem runPayOps_ledger (ops : List PayOp) :
    ∀ db : DB, LedgerOK db →
      LedgerOK (runPayOps ops db) ∧ ∀ oid, Settled db oid → Settled (runPayOps ops db) oid := by
  induction ops with
  | nil => intro db hok; exact ⟨hok, fun _ h => h⟩
  | cons op rest ih =>
    intro db hok
    obtain ⟨h1, h2⟩ := payOp_ledger op db hok
    obtain ⟨h3, h4⟩ := ih (op.run db) h1
    exact ⟨h3, fun oid h => h4 oid (h2 oid h)⟩

/-- In a well-formed ledger, `Charge` on a settled order is rejected. -/
theorem charge_of_settled {fault : Nat → Bool} {now : Nat} {ext : Providers} {db : DB}
    {req : PayAo} (hok : LedgerOK db) (hset : Settled db req.OrderId) :
    (∃ e, Charge fault now ext db (some req) = ⟨db, .error e, none, none⟩) ∧
    (∀ o, fault 0 = false → fault 1 = false → firstOrder req.OrderId db = some o →
      Charge fault now ext db (some req) = ⟨db, .error .InvalidPaymentState, none, none⟩) := by
  obtain ⟨p, hp, hpo, hps⟩ := hset
  have hfind := find_of_nodup (fun y : Payment => y.OrderID) db.payments hok.2.1 p hp
  have hfp : firstPaymentOfOrder req.OrderId db = some p := by
    unfold firstPaymentOfOrder
    rw [← hpo]
    exact hfind
  exact charge_settled hfp hps

/-- C22. `Charge` on an order that has a payment whose status is not pending
(paid, cancelled or refunded) is rejected: in every state reached from a
well-formed ledger, so from the empty one, by `Charge` calls, timeout checks and
Alipay notifications made one after the other, whatever fails, such a `Charge`
ends in an error with the store, so the existing payment, unchanged, no payment
created and no timer started, and the error is `InvalidPaymentState` when the
order is found and the two lookups are served.  An order once settled stays so:
in particular, once the timeout check has cancelled the pending payment of an
order, then after any further such steps every `Charge` on that order is
rejected. -/
theorem charge_rejects_settled_payment (ops : List PayOp) (db0 : DB) (hok : LedgerOK db0)
    (fault : Nat → Bool) (now : Nat) (ext : Providers) (req : PayAo) :
    (Settled (runPayOps ops db0) req.OrderId →
      (∃ e, Charge fault now ext (runPayOps ops db0) (some req)
          = ⟨runPayOps ops db0, .error e, none, none⟩) ∧
      (∀ o, fault 0 = false → fault 1 = false →
        firstOrder req.OrderId (runPayOps ops db0) = some o →
        Charge fault now ext (runPayOps ops db0) (some req)
          = ⟨runPayOps ops db0, .error .InvalidPaymentState, none, none⟩)) ∧
    (Settled db0 req.OrderId → Settled (runPayOps ops db0) req.OrderId) ∧
    (∀ (f : Nat → Bool) (t paymentId : Nat) (payment : Payment),
      firstPayment paymentId db0 = some payment → payment.OrderID = req.OrderId →
      payment.Status = .pending → f 0 = false → f 1 = false →
      ∃ e, Charge fault now ext
          (runPayOps ops (checkAndCancelPayment f t db0 paymentId)) (some req)
        = ⟨runPayOps ops (checkAndCancelPayment f t db0 paymentId), .error e, none, none⟩) := by
  refine ⟨fun hset => charge_of_settled (runPayOps_ledger ops db0 hok).1 hset,
    fun hset => (runPayOps_ledger ops db0 hok).2 _ hset,
    fun f t paymentId payment hfp hpo hps hf0 hf1 => ?_⟩
  have hstep := payOp_ledger (.timeout f t paymentId) db0 hok
  have hok1 : LedgerOK (checkAndCancelPayment f t db0 paymentId) := hstep.1
  have hmem := firstPayment_mem hfp
  have hid := firstPayment_id hfp
  have h0 : payment.ID ≠ 0 := hok.2.2 payment hmem
  have hsave := savePayment_existing
    (p := { payment with Status := .cancelled, UpdatedAt := t }) hmem rfl h0
  have hdb : savePayment { payment with Status := .cancelled, UpdatedAt := t } db0
      = some (checkAndCancelPayment f t db0 paymentId) := by
    rw [hsave]
    unfold checkAndCancelPayment
    simp only [hf0, hf1, hfp, hps, hsave, Bool.false_eq_true, if_false, if_true]
  obtain ⟨_, _, hin⟩ := savePayment_ledger hdb hmem rfl rfl hok
  have hset1 : Settled (checkAndCancelPayment f t db0 paymentId) req.OrderId :=
    ⟨_, hin, hpo, by simp⟩
  obtain ⟨hok2, hkeep⟩ := runPayOps_ledger ops _ hok1
  exact (charge_of_settled hok2 (hkeep _ hset1)).1

set_option maxRecDepth 100000 in
theorem charge_rejects_settled_payment_witness :
    Charge noFault 3000 sampleProviders
        (runPayOps [.timeout noFault 2000 1, .notify noFault 2500 (some sampleNotice)] payingDB)
        (some ⟨1, 42, F64.ofInt 25, "alipay"⟩)
      = ⟨runPayOps [.timeout noFault 2000 1, .notify noFault 2500 (some sampleNotice)] payingDB,
          .error .InvalidPaymentState, none, none⟩ :=
  ((charge_rejects_settled_payment
      [.timeout noFault 2000 1, .notify noFault 2500 (some sampleNotice)] payingDB (by decide)
      noFault 3000 sampleProviders ⟨1, 42, F64.ofInt 25, "alipay"⟩).1 (by decide)).2
    sampleOrder rfl rfl (by decide)

/-! ## What a `decimal(10,2)` column keeps -/

/-- Samples of `F64.decimal2`: 0.30000000000000004 is kept as 0.30, 25.999 as 26.00,
1.005 as 1.01 (the column rounds the decimal notation, half away from zero), -0.125
as -0.13, and 25 as 25. -/
theorem decimal2_samples :
    F64.decimal2 ⟨5404319552844596, -54⟩ = F64.ofDecimal 30 2 ∧
    F64.decimal2 (F64.ofDecimal 25999 3) = F64.ofInt 26 ∧
    F64.decimal2 (F64.ofDecimal 1005 3) = F64.ofDecimal 101 2 ∧
    F64.decimal2 (F64.ofDecimal (-125) 3) = F64.ofDecimal (-13) 2 ∧
    F64.decimal2 (F64.ofInt 25) = F64.ofInt 25 := by
  refine ⟨?_, ?_, ?_, ?_, ?_⟩ <;> set_option maxRecDepth 100000 in decide

end Dymall
